import Mathlib

/-!
# Morph-To-Skeleton: a shallow embedding of `UMorphToSkeletonComponent`

The definitions below follow
`Source/MorphToSkeleton/Private/MorphToSkeletonComponent.cpp` and
`Source/MorphToSkeleton/Public/MorphToSkeletonComponent.h`.

Modelling conventions.
* `float` and `double` are modelled by exact rationals `ℚ`; `FVector3f` and `FVector`
  are triples of rationals with componentwise operations.
* `TMap<K, V>` is an association list in insertion order with unique keys; `Add`
  replaces the value of an existing key in place and appends a new key at the end.
* `USkeletalMesh*` identity (the key of the static cache) is the field `Id`.
* The engine collaborators that are not part of the plugin (skin weight buffer
  queries, morph target lookup, reference skeleton, bone space conversions) are
  fields of the structures that stand for the engine objects.
* `ParallelFor` over the render sections is run in section order.
-/

namespace MTS

/-! ## Engine value types -/

abbrev FName := String

/-- Single precision vector `FVector3f`, over exact rationals. -/
abbrev FVector3f := ℚ × ℚ × ℚ

/-- Double precision vector `FVector`, over exact rationals. -/
abbrev FVector := ℚ × ℚ × ℚ

/-- The engine constant `INDEX_NONE`. -/
def INDEX_NONE : Int := -1

/-- The engine constant `UE_SMALL_NUMBER` (`1.e-8f`), the default tolerance of
`FMath::IsNearlyZero`. -/
def UE_SMALL_NUMBER : ℚ := 1 / 100000000

/-- The engine function `FMath::IsNearlyZero(Value)`: `Abs(Value) <= UE_SMALL_NUMBER`. -/
def IsNearlyZero (Value : ℚ) : Bool := decide (|Value| ≤ UE_SMALL_NUMBER)

/-- Rotation value (`FRotator`); the quaternion/rotator conversions of the engine are
taken as the identity. -/
structure FRotator where
  Pitch : ℚ
  Yaw : ℚ
  Roll : ℚ
deriving DecidableEq

/-- Transform `FTransform(Rotation, Location)` with unit scale. -/
structure FTransform where
  Rotation : FRotator
  Location : FVector
deriving DecidableEq

/-! ## `TMap` and `TSet` -/

/-- Association list standing for `TMap<K, V>`. -/
abbrev TMap (K V : Type) := List (K × V)

namespace TMap

variable {K V : Type} [DecidableEq K]

/-- `TMap::Find`: the value stored under a key, if any. -/
def Find : TMap K V → K → Option V
  | [], _ => none
  | (k', v) :: m, k => if k' = k then some v else Find m k

/-- `TMap::Contains`. -/
def Contains (m : TMap K V) (k : K) : Bool := (Find m k).isSome

/-- `TMap::Add`: replaces the value of an existing key, appends a new key. -/
def Add : TMap K V → K → V → TMap K V
  | [], k, v => [(k, v)]
  | (k', v') :: m, k, v => if k' = k then (k', v) :: m else (k', v') :: Add m k v

/-- The keys in iteration order. -/
def Keys (m : TMap K V) : List K := m.map Prod.fst

end TMap

/-- Insertion ordered list standing for `TSet<uint32>`. -/
abbrev TSet := List Nat

namespace TSet

/-- `TSet::Contains`. -/
def Contains (s : TSet) (v : Nat) : Bool := decide (v ∈ s)

/-- `TSet::FindOrAdd(v, &bAlreadyAdded)`: the set with `v` in it and whether `v` was
already a member. -/
def FindOrAdd (s : TSet) (v : Nat) : TSet × Bool :=
  if v ∈ s then (s, true) else (s ++ [v], false)

end TSet

/-! ## Engine asset types -/

/-- `FSkelMeshRenderSection`: the vertex range and the local to global bone map. -/
structure FSkelMeshRenderSection where
  BaseVertexIndex : Nat
  NumVertices : Nat
  BoneMap : List Nat
deriving DecidableEq

/-- `Section.BaseVertexIndex + Section.NumVertices` in `uint32` arithmetic. -/
def FSkelMeshRenderSection.EndVertexIndex (Section : FSkelMeshRenderSection) : Nat :=
  (Section.BaseVertexIndex + Section.NumVertices) % 2 ^ 32

/-- The negation of the bounds test
`VertexIndex < Section.BaseVertexIndex || VertexIndex >= Section.BaseVertexIndex + Section.NumVertices`. -/
def FSkelMeshRenderSection.InRange (Section : FSkelMeshRenderSection) (VertexIndex : Nat) : Bool :=
  decide (Section.BaseVertexIndex ≤ VertexIndex) && decide (VertexIndex < Section.EndVertexIndex)

/-- The values taken by `i` in
`for (uint32 i = Section.BaseVertexIndex; i < Section.BaseVertexIndex + Section.NumVertices; i++)`. -/
def FSkelMeshRenderSection.VertexIndices (Section : FSkelMeshRenderSection) : List Nat :=
  List.range' Section.BaseVertexIndex (Section.EndVertexIndex - Section.BaseVertexIndex)

/-- `FSkinWeightVertexBuffer`, through the queries the plugin uses. `GetBoneWeight` is
the raw 16 bit weight. -/
structure FSkinWeightVertexBuffer where
  GetMaxBoneInfluences : Nat
  GetBoneIndex : Nat → Nat → Int
  GetBoneWeight : Nat → Nat → Nat

/-- `FMorphTargetDelta`. -/
structure FMorphTargetDelta where
  PositionDelta : FVector3f
  SourceIdx : Nat
deriving DecidableEq

/-- `FMorphTargetLODModel`. -/
structure FMorphTargetLODModel where
  Vertices : List FMorphTargetDelta
  SectionIndices : List Int
deriving DecidableEq

/-- `UMorphTarget`, through `GetMorphLODModels`. -/
structure UMorphTarget where
  GetMorphLODModels : List FMorphTargetLODModel
deriving DecidableEq

/-- `FSkeletalMeshLODRenderData` of LOD 0. -/
structure FSkeletalMeshLODRenderData where
  RenderSections : List FSkelMeshRenderSection
  SkinWeightVertexBuffer : FSkinWeightVertexBuffer

/-- `FReferenceSkeleton`: `UpdateRefPoseTransform` writes the raw pose, `GetRefBonePose`
reads the final pose, `RebuildRefSkeleton` copies the raw pose to the final pose. -/
structure FReferenceSkeleton where
  GetParentIndex : Int → Int
  GetBoneName : Int → FName
  RawRefBonePose : List FTransform
  FinalRefBonePose : List FTransform

/-- `USkeletalMesh`; `Id` stands for the address of the object. -/
structure USkeletalMesh where
  Id : Nat
  IsValidLowLevelFast : Bool
  LODRenderData : FSkeletalMeshLODRenderData
  FindMorphTarget : FName → Option UMorphTarget
  RefSkeleton : FReferenceSkeleton

/-- `USkeletalMeshComponent`, through the operations the plugin uses. -/
structure USkeletalMeshComponent where
  GetSkeletalMeshAsset : USkeletalMesh
  GetBoneName : Int → FName
  TransformFromBoneSpace : FName → FVector → FRotator → FVector × FRotator
  TransformToBoneSpace : FName → FVector → FRotator → FVector × FRotator
  CPUSkinningEnabled : Bool
  MorphTargetWeights : TMap FName ℚ

/-! ## Plugin state -/

/-- `FBoneWeightMap`. -/
structure FBoneWeightMap where
  VertexWeight : TMap Nat ℚ
deriving DecidableEq

/-- The static `SkeletalMeshBoneWeightMapCache`, keyed by mesh identity. -/
abbrev BoneWeightMapCache := TMap Nat (TMap Int FBoneWeightMap)

/-- The instance fields of `UMorphToSkeletonComponent`. -/
structure UMorphToSkeletonComponent where
  DuplicatedMesh : Option USkeletalMesh
  CachedMorphs : TMap FName ℚ
  CachedAffectedVertices : TSet
  CachedTotalTranslations : TMap Int (ℚ × FVector3f)
  RelativeTranslations : TMap Int FVector3f
  PAIRTranslatedBoneNames : List FName
  PAIRTranslatedBoneTranslations : List FVector3f

/-- A freshly constructed component: every container is empty. -/
def UMorphToSkeletonComponent.Clean : UMorphToSkeletonComponent where
  DuplicatedMesh := none
  CachedMorphs := []
  CachedAffectedVertices := []
  CachedTotalTranslations := []
  RelativeTranslations := []
  PAIRTranslatedBoneNames := []
  PAIRTranslatedBoneTranslations := []

/-! ## `SaveBoneWeightMap` / `PreMorphInitialize` -/

/-- The bone and weight read from one influence slot (lines 68-81 and 150-161):
`none` when the local bone index is `INDEX_NONE` or outside the section's bone map,
otherwise the global bone `Section.BoneMap[BoneIndex]` and `RawWeight / 65535.0f`. -/
def ResolveInfluence (SkinWeightBuffer : FSkinWeightVertexBuffer)
    (Section : FSkelMeshRenderSection) (VertexIndex InfluenceIndex : Nat) : Option (Int × ℚ) :=
  let BoneIndex := SkinWeightBuffer.GetBoneIndex VertexIndex InfluenceIndex
  if BoneIndex = INDEX_NONE then none
  else if BoneIndex < 0 ∨ BoneIndex ≥ (Section.BoneMap.length : Int) then none
  else
    let ActualBone : Int := ((Section.BoneMap.getD BoneIndex.toNat 0 : Nat) : Int)
    let Weight : ℚ := (SkinWeightBuffer.GetBoneWeight VertexIndex InfluenceIndex : ℚ) / 65535
    some (ActualBone, Weight)

/-- Body of the influence loop of `SaveBoneWeightMap` (lines 66-93). -/
def SaveInfluence (SkinWeightBuffer : FSkinWeightVertexBuffer) (Section : FSkelMeshRenderSection)
    (i : Nat) (BoneMapVertexWeights : TMap Int FBoneWeightMap) (InfluenceIndex : Nat) :
    TMap Int FBoneWeightMap :=
  match ResolveInfluence SkinWeightBuffer Section i InfluenceIndex with
  | none => BoneMapVertexWeights
  | some (ActualBone, Weight) =>
    if Weight ≤ 0 then BoneMapVertexWeights
    else
      let WeightMap : FBoneWeightMap := (BoneMapVertexWeights.Find ActualBone).getD ⟨[]⟩
      BoneMapVertexWeights.Add ActualBone ⟨WeightMap.VertexWeight.Add i Weight⟩

/-- Body of the vertex loop of `SaveBoneWeightMap` (lines 64-94). -/
def SaveVertex (SkinWeightBuffer : FSkinWeightVertexBuffer) (Section : FSkelMeshRenderSection)
    (BoneMapVertexWeights : TMap Int FBoneWeightMap) (i : Nat) : TMap Int FBoneWeightMap :=
  (List.range SkinWeightBuffer.GetMaxBoneInfluences).foldl
    (SaveInfluence SkinWeightBuffer Section i) BoneMapVertexWeights

/-- Body of the section loop of `SaveBoneWeightMap` (lines 61-95). -/
def SaveSection (SkinWeightBuffer : FSkinWeightVertexBuffer)
    (BoneMapVertexWeights : TMap Int FBoneWeightMap) (Section : FSkelMeshRenderSection) :
    TMap Int FBoneWeightMap :=
  Section.VertexIndices.foldl (SaveVertex SkinWeightBuffer Section) BoneMapVertexWeights

/-- The map `BoneMapVertexWeights` built by `SaveBoneWeightMap` (lines 53-95). -/
def BuildBoneMapVertexWeights (LODRenderData : FSkeletalMeshLODRenderData) :
    TMap Int FBoneWeightMap :=
  LODRenderData.RenderSections.foldl (SaveSection LODRenderData.SkinWeightVertexBuffer) []

/-- `UMorphToSkeletonComponent::SaveBoneWeightMap` (lines 37-100), as a function on the
static cache. -/
def SaveBoneWeightMap (Cache : BoneWeightMapCache)
    (SkeletalMeshComponent : USkeletalMeshComponent) : BoneWeightMapCache :=
  let SkeletalMesh := SkeletalMeshComponent.GetSkeletalMeshAsset
  if !SkeletalMesh.IsValidLowLevelFast then Cache
  else if Cache.Contains SkeletalMesh.Id then Cache
  else Cache.Add SkeletalMesh.Id (BuildBoneMapVertexWeights SkeletalMesh.LODRenderData)

/-- `UMorphToSkeletonComponent::PreMorphInitialize` (lines 431-434). -/
def PreMorphInitialize (Cache : BoneWeightMapCache)
    (SkeletalMeshComponent : USkeletalMeshComponent) : BoneWeightMapCache :=
  SaveBoneWeightMap Cache SkeletalMeshComponent

/-! ## `CacheTranslation` -/

/-- The update `TranslationData = FindOrAdd(Bone); if (bAddWeight) Get<0>() += Weight;
Get<1>() += TotalTransform` (lines 164-169 and 293-295). A new entry starts at zero. -/
def AddToTotals (Totals : TMap Int (ℚ × FVector3f)) (Bone : Int) (bAddWeight : Bool)
    (Weight : ℚ) (TotalTransform : FVector3f) : TMap Int (ℚ × FVector3f) :=
  let TranslationData : ℚ × FVector3f := (Totals.Find Bone).getD (0, 0)
  Totals.Add Bone
    (if bAddWeight then TranslationData.1 + Weight else TranslationData.1,
     TranslationData.2 + TotalTransform)

/-- Body of the influence loop of `CacheTranslation` (lines 148-170). -/
def CacheInfluence (SkinWeightBuffer : FSkinWeightVertexBuffer) (Section : FSkelMeshRenderSection)
    (VertexIndex : Nat) (PositionDelta : FVector3f) (bAlreadyAdded : Bool)
    (Totals : TMap Int (ℚ × FVector3f)) (InfluenceIndex : Nat) : TMap Int (ℚ × FVector3f) :=
  match ResolveInfluence SkinWeightBuffer Section VertexIndex InfluenceIndex with
  | none => Totals
  | some (ActualBone, Weight) =>
    AddToTotals Totals ActualBone (!bAlreadyAdded) Weight (Weight • PositionDelta)

/-- Body of the delta loop of `CacheTranslation` (lines 135-171), on the pair
(`CachedAffectedVertices`, `CachedTotalTranslations`). -/
def CacheDelta (SkinWeightBuffer : FSkinWeightVertexBuffer) (Section : FSkelMeshRenderSection)
    (MorphValue : ℚ) (State : TSet × TMap Int (ℚ × FVector3f)) (Delta : FMorphTargetDelta) :
    TSet × TMap Int (ℚ × FVector3f) :=
  let VertexIndex := Delta.SourceIdx
  let PositionDelta : FVector3f := MorphValue • Delta.PositionDelta
  if !Section.InRange VertexIndex then State
  else
    let Found := TSet.FindOrAdd State.1 VertexIndex
    (Found.1,
      (List.range SkinWeightBuffer.GetMaxBoneInfluences).foldl
        (CacheInfluence SkinWeightBuffer Section VertexIndex PositionDelta Found.2) State.2)

/-- Body of the section loop of `CacheTranslation` (lines 126-172). -/
def CacheSection (LODRenderData : FSkeletalMeshLODRenderData)
    (MorphLOD0 : FMorphTargetLODModel) (MorphValue : ℚ)
    (State : TSet × TMap Int (ℚ × FVector3f)) (SectionIndex : Nat) :
    TSet × TMap Int (ℚ × FVector3f) :=
  if !MorphLOD0.SectionIndices.contains (SectionIndex : Int) then State
  else
    match LODRenderData.RenderSections.get? SectionIndex with
    | none => State
    | some Section =>
      MorphLOD0.Vertices.foldl
        (CacheDelta LODRenderData.SkinWeightVertexBuffer Section MorphValue) State

/-- The loops of `CacheTranslation` (lines 123-172) for a found morph target LOD. -/
def CacheMorphLOD (LODRenderData : FSkeletalMeshLODRenderData)
    (MorphLOD0 : FMorphTargetLODModel) (MorphValue : ℚ)
    (State : TSet × TMap Int (ℚ × FVector3f)) : TSet × TMap Int (ℚ × FVector3f) :=
  (List.range LODRenderData.RenderSections.length).foldl
    (CacheSection LODRenderData MorphLOD0 MorphValue) State

/-- `UMorphToSkeletonComponent::CacheTranslation` (lines 103-173). -/
def CacheTranslation (self : UMorphToSkeletonComponent)
    (SkeletalMeshComponent : USkeletalMeshComponent) (MorphTarget : FName) (MorphValue : ℚ) :
    UMorphToSkeletonComponent :=
  if IsNearlyZero MorphValue then self
  else
    match SkeletalMeshComponent.GetSkeletalMeshAsset.FindMorphTarget MorphTarget with
    | none => self
    | some Morph =>
      match Morph.GetMorphLODModels with
      | [] => self
      | MorphLOD0 :: _ =>
        let State := CacheMorphLOD SkeletalMeshComponent.GetSkeletalMeshAsset.LODRenderData
          MorphLOD0 MorphValue (self.CachedAffectedVertices, self.CachedTotalTranslations)
        { self with CachedAffectedVertices := State.1, CachedTotalTranslations := State.2 }

/-! ## `SetMorph` / `SetMorphs` -/

/-- `UMorphToSkeletonComponent::SetMorph` (lines 436-454), for a non-null component. -/
def SetMorph (self : UMorphToSkeletonComponent) (SkeletalMeshComponent : USkeletalMeshComponent)
    (MorphTarget : FName) (MorphValue : ℚ) : UMorphToSkeletonComponent :=
  let OriginalValue : ℚ := (self.CachedMorphs.Find MorphTarget).getD 0
  let TranslationWeight := MorphValue - OriginalValue
  let self1 := { self with CachedMorphs := self.CachedMorphs.Add MorphTarget MorphValue }
  CacheTranslation self1 SkeletalMeshComponent MorphTarget TranslationWeight

/-- `UMorphToSkeletonComponent::SetMorphs` (lines 456-476), for a non-null component. -/
def SetMorphs (self : UMorphToSkeletonComponent) (SkeletalMeshComponent : USkeletalMeshComponent)
    (MorphTargets : TMap FName ℚ) : UMorphToSkeletonComponent :=
  MorphTargets.foldl
    (fun self MorphTargetPair =>
      let OriginalValue : ℚ := (self.CachedMorphs.Find MorphTargetPair.1).getD 0
      let TranslationWeight := MorphTargetPair.2 - OriginalValue
      let self1 :=
        { self with CachedMorphs := self.CachedMorphs.Add MorphTargetPair.1 MorphTargetPair.2 }
      CacheTranslation self1 SkeletalMeshComponent MorphTargetPair.1 TranslationWeight)
    self

/-! ## `ApplyTranslationsToSkeleton` -/

/-- Body of the vertex loop of the first pass of `ApplyTranslationsToSkeleton`
(lines 282-297): a vertex outside `CachedAffectedVertices` adds its weight and a zero
displacement to the totals of the bone. -/
def DiluteVertex (CachedAffectedVertices : TSet) (BoneIndex : Int)
    (Totals : TMap Int (ℚ × FVector3f)) (VertexWeightPair : Nat × ℚ) :
    TMap Int (ℚ × FVector3f) :=
  if CachedAffectedVertices.Contains VertexWeightPair.1 then Totals
  else AddToTotals Totals BoneIndex true VertexWeightPair.2 0

/-- Body of the bone loop of the first pass of `ApplyTranslationsToSkeleton`
(lines 269-308); the two error branches only log. -/
def DiluteBone (Cache : BoneWeightMapCache) (SkeletalMesh : Nat)
    (CachedAffectedVertices : TSet) (Totals : TMap Int (ℚ × FVector3f)) (BoneIndex : Int) :
    TMap Int (ℚ × FVector3f) :=
  match Cache.Find SkeletalMesh with
  | none => Totals
  | some BoneWeightMap =>
    match BoneWeightMap.Find BoneIndex with
    | none => Totals
    | some VertexWeightMap =>
      VertexWeightMap.VertexWeight.foldl (DiluteVertex CachedAffectedVertices BoneIndex) Totals

/-- The first pass of `ApplyTranslationsToSkeleton` (lines 269-308). The loop runs over
the entries of `CachedTotalTranslations`; its body only updates values of keys that are
present, so the keys visited are the keys at loop entry. -/
def ZeroDilutionPass (Cache : BoneWeightMapCache) (SkeletalMesh : Nat)
    (CachedAffectedVertices : TSet) (Totals : TMap Int (ℚ × FVector3f)) :
    TMap Int (ℚ × FVector3f) :=
  (TMap.Keys Totals).foldl (DiluteBone Cache SkeletalMesh CachedAffectedVertices) Totals

/-- The expression `(TotalWeight > 0) ? (TotalTransform / TotalWeight) : FVector3f::ZeroVector`
(lines 323 and 330). -/
def WeightedTransform (TranslationData : ℚ × FVector3f) : FVector3f :=
  if TranslationData.1 > 0 then (1 / TranslationData.1) • TranslationData.2 else 0

/-- Body of the second pass of `ApplyTranslationsToSkeleton` (lines 315-348), on the triple
(`RelativeTranslations`, `PAIRTranslatedBoneNames`, `PAIRTranslatedBoneTranslations`). -/
def ResolveBone (RefSkeleton : FReferenceSkeleton) (Totals : TMap Int (ℚ × FVector3f))
    (Out : TMap Int FVector3f × List FName × List FVector3f) (Elem : Int × (ℚ × FVector3f)) :
    TMap Int FVector3f × List FName × List FVector3f :=
  let BoneIndex := Elem.1
  let ParentBoneIndex := RefSkeleton.GetParentIndex BoneIndex
  let WeightedTransform0 := WeightedTransform Elem.2
  if ParentBoneIndex ≠ INDEX_NONE ∧ Totals.Contains ParentBoneIndex = true then
    let ParentWeightedTransform :=
      WeightedTransform ((Totals.Find ParentBoneIndex).getD (0, 0))
    (Out.1.Add BoneIndex (WeightedTransform0 - ParentWeightedTransform),
     Out.2.1 ++ [RefSkeleton.GetBoneName BoneIndex],
     Out.2.2 ++ [WeightedTransform0 - ParentWeightedTransform])
  else
    (Out.1.Add BoneIndex WeightedTransform0,
     Out.2.1 ++ [RefSkeleton.GetBoneName BoneIndex],
     Out.2.2 ++ [WeightedTransform0])

/-- The second pass of `ApplyTranslationsToSkeleton` (lines 315-348). -/
def ResolvePass (RefSkeleton : FReferenceSkeleton) (Totals : TMap Int (ℚ × FVector3f))
    (Out : TMap Int FVector3f × List FName × List FVector3f) :
    TMap Int FVector3f × List FName × List FVector3f :=
  Totals.foldl (ResolveBone RefSkeleton Totals) Out

/-- Body of the third pass of `ApplyTranslationsToSkeleton` (lines 376-412): the transform
handed to `UpdateRefPoseTransform` for one entry of `RelativeTranslations`. -/
def FinalTransform (SkeletalMeshComponent : USkeletalMeshComponent) (Pose : List FTransform)
    (Elem : Int × FVector3f) : FTransform :=
  let BoneIndex := Elem.1
  let RelativeTranslation := Elem.2
  let PoseBone : FTransform := Pose.getD BoneIndex.toNat ⟨⟨0, 0, 0⟩, 0⟩
  if BoneIndex ≠ 0 then
    let ParentBoneIndex :=
      SkeletalMeshComponent.GetSkeletalMeshAsset.RefSkeleton.GetParentIndex BoneIndex
    let World := SkeletalMeshComponent.TransformFromBoneSpace
      (SkeletalMeshComponent.GetBoneName ParentBoneIndex) PoseBone.Location PoseBone.Rotation
    let WorldSpaceLocation : FVector :=
      World.1 + (RelativeTranslation.2.1, RelativeTranslation.1 * -1, RelativeTranslation.2.2)
    let Bone := SkeletalMeshComponent.TransformToBoneSpace
      (SkeletalMeshComponent.GetBoneName ParentBoneIndex) WorldSpaceLocation World.2
    ⟨Bone.2, Bone.1⟩
  else
    ⟨PoseBone.Rotation,
     (RelativeTranslation.2.1, RelativeTranslation.1, RelativeTranslation.2.2)⟩

/-- The third pass of `ApplyTranslationsToSkeleton` (lines 376-412): the raw reference
pose after `UpdateRefPoseTransform` for every entry of `RelativeTranslations`. -/
def BakePass (SkeletalMeshComponent : USkeletalMeshComponent) (Pose : List FTransform)
    (RelativeTranslations : TMap Int FVector3f) (RawRefBonePose : List FTransform) :
    List FTransform :=
  RelativeTranslations.foldl
    (fun Raw Elem => Raw.set Elem.1.toNat (FinalTransform SkeletalMeshComponent Pose Elem))
    RawRefBonePose

/-- `UMorphToSkeletonComponent::ApplyTranslationsToSkeleton` (lines 266-420). `NewObject`
is the identity `DuplicateObject` gives to a duplicate when one is made. The result is
the component state and the skeletal mesh component, which now shows the duplicate. -/
def ApplyTranslationsToSkeleton (self : UMorphToSkeletonComponent) (Cache : BoneWeightMapCache)
    (SkeletalMeshComponent : USkeletalMeshComponent) (NewObject : Nat) :
    UMorphToSkeletonComponent × USkeletalMeshComponent :=
  let SkeletalMesh := SkeletalMeshComponent.GetSkeletalMeshAsset
  let Totals := ZeroDilutionPass Cache SkeletalMesh.Id self.CachedAffectedVertices
    self.CachedTotalTranslations
  let Out := ResolvePass SkeletalMesh.RefSkeleton Totals
    (self.RelativeTranslations, self.PAIRTranslatedBoneNames,
      self.PAIRTranslatedBoneTranslations)
  let Duplicate : USkeletalMesh := { SkeletalMesh with Id := NewObject }
  let DuplicatedMesh : USkeletalMesh :=
    match self.DuplicatedMesh with
    | none => Duplicate
    | some Mesh => if Mesh.IsValidLowLevelFast then Mesh else Duplicate
  let Pose := DuplicatedMesh.RefSkeleton.FinalRefBonePose
  let Raw := BakePass SkeletalMeshComponent Pose Out.1 DuplicatedMesh.RefSkeleton.RawRefBonePose
  let Rebuilt : USkeletalMesh :=
    { DuplicatedMesh with
      RefSkeleton :=
        { DuplicatedMesh.RefSkeleton with RawRefBonePose := Raw, FinalRefBonePose := Raw } }
  ({ self with
      DuplicatedMesh := some Rebuilt
      CachedTotalTranslations := Totals
      RelativeTranslations := Out.1
      PAIRTranslatedBoneNames := Out.2.1
      PAIRTranslatedBoneTranslations := Out.2.2 },
   { SkeletalMeshComponent with GetSkeletalMeshAsset := Rebuilt, CPUSkinningEnabled := true })

/-- `UMorphToSkeletonComponent::ApplyMorphTargetsToDuplicateMesh` (lines 423-429). -/
def ApplyMorphTargetsToDuplicateMesh (SkeletalMeshComponent : USkeletalMeshComponent)
    (MorphTargets : TMap FName ℚ) : USkeletalMeshComponent :=
  MorphTargets.foldl
    (fun Component MorphTarget =>
      { Component with
        MorphTargetWeights := Component.MorphTargetWeights.Add MorphTarget.1 MorphTarget.2 })
    SkeletalMeshComponent

/-- `UMorphToSkeletonComponent::MorphToSkeleton` (lines 479-486). -/
def MorphToSkeleton (self : UMorphToSkeletonComponent) (Cache : BoneWeightMapCache)
    (SkeletalMeshComponent : USkeletalMeshComponent) (MorphTargets : TMap FName ℚ)
    (NewObject : Nat) : UMorphToSkeletonComponent × USkeletalMeshComponent :=
  let self1 := SetMorphs self SkeletalMeshComponent MorphTargets
  let Applied := ApplyTranslationsToSkeleton self1 Cache SkeletalMeshComponent NewObject
  (Applied.1, ApplyMorphTargetsToDuplicateMesh Applied.2 MorphTargets)

/-- `GetRelativeTransforms` (header line 93). -/
def GetRelativeTransforms (self : UMorphToSkeletonComponent) : TMap Int FVector3f :=
  self.RelativeTranslations

/-- `GetTranslatedBoneNames` (header line 96). -/
def GetTranslatedBoneNames (self : UMorphToSkeletonComponent) : List FName :=
  self.PAIRTranslatedBoneNames

/-- `GetTranslatedBoneTranslations` (header line 99). -/
def GetTranslatedBoneTranslations (self : UMorphToSkeletonComponent) : List FVector3f :=
  self.PAIRTranslatedBoneTranslations

/-! ## Specification side definitions -/

/-- The average of the specification (section 4.3): total displacement / total weight when
the total weight is > 0, the zero vector when it is not. -/
def SpecAverage (TotalWeight : ℚ) (TotalDisplacement : FVector3f) : FVector3f :=
  if TotalWeight > 0 then
    (TotalDisplacement.1 / TotalWeight, TotalDisplacement.2.1 / TotalWeight,
      TotalDisplacement.2.2 / TotalWeight)
  else (0, 0, 0)

/-- The entry of a bone in the accumulator, read as zero totals when the bone is absent. -/
def TotalsOf (Totals : TMap Int (ℚ × FVector3f)) (Bone : Int) : ℚ × FVector3f :=
  (Totals.Find Bone).getD (0, 0)

/-- The provenance of an index entry in the words of the specification: influence slot
`InfluenceIndex` of vertex `VertexIndex` holds a section-local bone index that is not
`INDEX_NONE`, lies within the section's bone map and maps through it to `Bone`, and the
weight is the raw weight of that slot divided by 65535. -/
def EntryFromSlot (SkinWeightBuffer : FSkinWeightVertexBuffer) (Section : FSkelMeshRenderSection)
    (VertexIndex InfluenceIndex : Nat) (Bone : Int) (Weight : ℚ) : Prop :=
  InfluenceIndex < SkinWeightBuffer.GetMaxBoneInfluences ∧
  SkinWeightBuffer.GetBoneIndex VertexIndex InfluenceIndex ≠ INDEX_NONE ∧
  0 ≤ SkinWeightBuffer.GetBoneIndex VertexIndex InfluenceIndex ∧
  SkinWeightBuffer.GetBoneIndex VertexIndex InfluenceIndex < (Section.BoneMap.length : Int) ∧
  (Section.BoneMap.get? (SkinWeightBuffer.GetBoneIndex VertexIndex InfluenceIndex).toNat).map
    Int.ofNat = some Bone ∧
  Weight = (SkinWeightBuffer.GetBoneWeight VertexIndex InfluenceIndex : ℚ) / 65535

/-- Soundness of a bone weight index in the words of the specification: every entry
(bone, vertex, weight) has weight > 0 and comes from a valid influence slot of the vertex
in a section that holds the vertex. -/
def IndexSound (LODRenderData : FSkeletalMeshLODRenderData) (Index : TMap Int FBoneWeightMap) :
    Prop :=
  ∀ Bone WeightMap, (Bone, WeightMap) ∈ Index →
    ∀ VertexIndex Weight, (VertexIndex, Weight) ∈ WeightMap.VertexWeight →
      Weight > 0 ∧ ∃ Section ∈ LODRenderData.RenderSections,
        Section.InRange VertexIndex = true ∧
        ∃ InfluenceIndex, EntryFromSlot LODRenderData.SkinWeightVertexBuffer Section VertexIndex
          InfluenceIndex Bone Weight

/-- The influences of a vertex in a section: the (global bone, weight) pairs of its valid
influence slots, in slot order. -/
def Influences (SkinWeightBuffer : FSkinWeightVertexBuffer) (Section : FSkelMeshRenderSection)
    (VertexIndex : Nat) : List (Int × ℚ) :=
  (List.range SkinWeightBuffer.GetMaxBoneInfluences).filterMap
    (ResolveInfluence SkinWeightBuffer Section VertexIndex)

/-- The skin weight `w(b, v)` read from the skin weight buffer: the sum of the weights of
the valid influence slots of the vertex that map to the bone. -/
def SlotWeight (SkinWeightBuffer : FSkinWeightVertexBuffer) (Section : FSkelMeshRenderSection)
    (VertexIndex : Nat) (Bone : Int) : ℚ :=
  ((Influences SkinWeightBuffer Section VertexIndex).map
    (fun bw => if bw.1 = Bone then bw.2 else 0)).sum

/-- The (section, delta) pairs a morph target LOD touches (specification section 4.2): for
each affected section in index order, the deltas whose vertex lies in the section's
vertex range, in delta order. -/
def Visits (LODRenderData : FSkeletalMeshLODRenderData) (MorphLOD0 : FMorphTargetLODModel) :
    List (FSkelMeshRenderSection × FMorphTargetDelta) :=
  (List.range LODRenderData.RenderSections.length).flatMap fun SectionIndex =>
    if MorphLOD0.SectionIndices.contains (SectionIndex : Int) then
      match LODRenderData.RenderSections.get? SectionIndex with
      | none => []
      | some Section =>
        (MorphLOD0.Vertices.filter (fun Delta => Section.InRange Delta.SourceIdx)).map
          (fun Delta => (Section, Delta))
    else []

/-- The effect of one visit on (`CachedAffectedVertices`, `CachedTotalTranslations`). -/
def CacheVisit (SkinWeightBuffer : FSkinWeightVertexBuffer) (MorphValue : ℚ)
    (State : TSet × TMap Int (ℚ × FVector3f))
    (Visit : FSkelMeshRenderSection × FMorphTargetDelta) : TSet × TMap Int (ℚ × FVector3f) :=
  ((TSet.FindOrAdd State.1 Visit.2.SourceIdx).1,
    (Influences SkinWeightBuffer Visit.1 Visit.2.SourceIdx).foldl
      (fun Totals bw => AddToTotals Totals bw.1 (!(TSet.FindOrAdd State.1 Visit.2.SourceIdx).2)
        bw.2 (bw.2 • (MorphValue • Visit.2.PositionDelta)))
      State.2)

/-- Appends a key to a key list unless it is present. -/
def InsertKey {K : Type} [DecidableEq K] (Keys : List K) (Key : K) : List K :=
  if Key ∈ Keys then Keys else Keys ++ [Key]

/-- The bones named by the valid influence slots of the visited vertices, in visit order. -/
def VisitedBones (LODRenderData : FSkeletalMeshLODRenderData)
    (MorphLOD0 : FMorphTargetLODModel) : List Int :=
  (Visits LODRenderData MorphLOD0).flatMap fun Visit =>
    (Influences LODRenderData.SkinWeightVertexBuffer Visit.1 Visit.2.SourceIdx).map Prod.fst

/-- The vertices of the visits, in visit order. -/
def VisitedVertices (LODRenderData : FSkeletalMeshLODRenderData)
    (MorphLOD0 : FMorphTargetLODModel) : List Nat :=
  (Visits LODRenderData MorphLOD0).map fun Visit => Visit.2.SourceIdx

/-- The total weight of a bone in the accumulator, zero when the bone is absent. -/
def WeightOf (Totals : TMap Int (ℚ × FVector3f)) (Bone : Int) : ℚ := (TotalsOf Totals Bone).1

/-- The total displacement of a bone in the accumulator, zero when the bone is absent. -/
def DisplacementOf (Totals : TMap Int (ℚ × FVector3f)) (Bone : Int) : FVector3f :=
  (TotalsOf Totals Bone).2

/-- The displacement a morph target LOD gives to a bone per unit of morph weight: the sum
over the visits of `w(b, v) * delta`. -/
def UnitDisplacement (LODRenderData : FSkeletalMeshLODRenderData)
    (MorphLOD0 : FMorphTargetLODModel) (Bone : Int) : FVector3f :=
  ((Visits LODRenderData MorphLOD0).map fun Visit =>
    SlotWeight LODRenderData.SkinWeightVertexBuffer Visit.1 Visit.2.SourceIdx Bone •
      Visit.2.PositionDelta).sum

/-- The weight a list of visits adds to a bone under the first-touch rule: a visit adds
`w(b, v)` when its vertex is not yet in the affected vertex set, and nothing otherwise. -/
def FirstTouchWeight (SkinWeightBuffer : FSkinWeightVertexBuffer) (Bone : Int) :
    TSet → List (FSkelMeshRenderSection × FMorphTargetDelta) → ℚ
  | _, [] => 0
  | Affected, Visit :: Rest =>
    (if Visit.2.SourceIdx ∈ Affected then 0
      else SlotWeight SkinWeightBuffer Visit.1 Visit.2.SourceIdx Bone) +
    FirstTouchWeight SkinWeightBuffer Bone (InsertKey Affected Visit.2.SourceIdx) Rest

/-- The LOD 0 model `CacheTranslation` works on: `none` when the mesh has no morph target
of that name or the morph target has no LOD model. -/
def FindMorphLOD0 (SkeletalMeshComponent : USkeletalMeshComponent) (MorphTarget : FName) :
    Option FMorphTargetLODModel :=
  (SkeletalMeshComponent.GetSkeletalMeshAsset.FindMorphTarget MorphTarget).bind
    fun Morph => Morph.GetMorphLODModels.head?

/-- The weight the zero-dilution pass adds to a bone that has an accumulator entry: the
index weights of the vertices of the bone that are not in the affected vertex set; zero
when the mesh or the bone has no index entry. -/
def DilutionWeight (Cache : BoneWeightMapCache) (SkeletalMesh : Nat) (Affected : TSet)
    (Bone : Int) : ℚ :=
  match Cache.Find SkeletalMesh with
  | none => 0
  | some BoneWeightMap =>
    match BoneWeightMap.Find Bone with
    | none => 0
    | some VertexWeightMap =>
      (VertexWeightMap.VertexWeight.map fun vw => if vw.1 ∈ Affected then 0 else vw.2).sum

/-- The weight a bone weight index holds for a vertex under a bone, zero when the bone or
the vertex is absent. -/
def IndexWeight (Index : TMap Int FBoneWeightMap) (Bone : Int) (VertexIndex : Nat) : ℚ :=
  ((Index.Find Bone).bind fun WeightMap => WeightMap.VertexWeight.Find VertexIndex).getD 0

/-- The data model invariant of the specification (section 3): a vertex belongs to exactly
one section, that is, no vertex of a section lies in the range of a later section. -/
def SectionsDisjoint (LODRenderData : FSkeletalMeshLODRenderData) : Prop :=
  LODRenderData.RenderSections.Pairwise fun Section Section' =>
    ∀ VertexIndex ∈ Section.VertexIndices, Section'.InRange VertexIndex = false

instance (LODRenderData : FSkeletalMeshLODRenderData) :
    Decidable (SectionsDisjoint LODRenderData) := by
  unfold SectionsDisjoint
  infer_instance

/-- No vertex names the same global bone in two influence slots of non-zero weight. -/
def NoRepeatedBone (LODRenderData : FSkeletalMeshLODRenderData) : Prop :=
  ∀ Section ∈ LODRenderData.RenderSections, ∀ VertexIndex ∈ Section.VertexIndices,
    (Influences LODRenderData.SkinWeightVertexBuffer Section VertexIndex).Pairwise
      fun bw bw' => bw.1 = bw'.1 → bw.2 ≤ 0 ∨ bw'.2 ≤ 0

instance (LODRenderData : FSkeletalMeshLODRenderData) :
    Decidable (NoRepeatedBone LODRenderData) := by
  unfold NoRepeatedBone
  infer_instance

/-- The displacement a morph target LOD gives to a vertex per unit of morph weight: the
sum of the deltas of the visits of the vertex. -/
def VertexDelta (LODRenderData : FSkeletalMeshLODRenderData) (MorphLOD0 : FMorphTargetLODModel)
    (VertexIndex : Nat) : FVector3f :=
  ((Visits LODRenderData MorphLOD0).map fun Visit =>
    if Visit.2.SourceIdx = VertexIndex then Visit.2.PositionDelta else 0).sum

/-- The displacement `D(v)` of a vertex under a batch of morph targets: the sum of the
weight-scaled morph deltas applied to the vertex, over the targets of the batch that are
applied (weight not nearly zero, name known to the mesh, with a LOD model). It is zero
for a vertex that no morph touches. -/
def AppliedDisplacement (SkeletalMeshComponent : USkeletalMeshComponent)
    (MorphTargets : TMap FName ℚ) (VertexIndex : Nat) : FVector3f :=
  (MorphTargets.map fun MorphTargetPair =>
    if IsNearlyZero MorphTargetPair.2 = true then 0
    else
      match FindMorphLOD0 SkeletalMeshComponent MorphTargetPair.1 with
      | none => 0
      | some MorphLOD0 =>
        MorphTargetPair.2 •
          VertexDelta SkeletalMeshComponent.GetSkeletalMeshAsset.LODRenderData MorphLOD0
            VertexIndex).sum

/-- The effect of one influence (bone, weight) of vertex `i` on the map built by
`SaveBoneWeightMap` (lines 83-92). -/
def SaveEntry (i : Nat) (BoneMapVertexWeights : TMap Int FBoneWeightMap) (bw : Int × ℚ) :
    TMap Int FBoneWeightMap :=
  if bw.2 ≤ 0 then BoneMapVertexWeights
  else
    BoneMapVertexWeights.Add bw.1
      ⟨((BoneMapVertexWeights.Find bw.1).getD ⟨[]⟩).VertexWeight.Add i bw.2⟩

/-- Well-formedness of a bone weight index as a `TMap` of `TMap`s: the bones are distinct,
and every bone holds a non-empty map with distinct vertices. -/
def IndexWF (Index : TMap Int FBoneWeightMap) : Prop :=
  (TMap.Keys Index).Nodup ∧
  ∀ Bone WeightMap, (Bone, WeightMap) ∈ Index →
    (TMap.Keys WeightMap.VertexWeight).Nodup ∧ WeightMap.VertexWeight ≠ []

/-- The quotient total displacement / total weight of the specification, by components. -/
def DivideBy (TotalDisplacement : FVector3f) (TotalWeight : ℚ) : FVector3f :=
  (TotalDisplacement.1 / TotalWeight, TotalDisplacement.2.1 / TotalWeight,
    TotalDisplacement.2.2 / TotalWeight)

/-- The relation the first-touch rule keeps between the affected vertex set and the
accumulator when the skin weights agree with the index: the affected vertices and the
bones are distinct, and the total weight of every bone is the sum of the index weights
of the affected vertices. -/
def WeightInvariant (Index : TMap Int FBoneWeightMap)
    (State : TSet × TMap Int (ℚ × FVector3f)) : Prop :=
  State.1.Nodup ∧ (TMap.Keys State.2).Nodup ∧
  ∀ Bone, WeightOf State.2 Bone = (State.1.map (IndexWeight Index Bone)).sum

/-- The displacement one target of a batch gives to a bone: nothing when its weight is
nearly zero or the mesh has no such morph target LOD, otherwise the weight times the
unit displacement of the LOD. -/
def TargetDisplacement (SkeletalMeshComponent : USkeletalMeshComponent) (Bone : Int)
    (MorphTargetPair : FName × ℚ) : FVector3f :=
  if IsNearlyZero MorphTargetPair.2 = true then 0
  else
    match FindMorphLOD0 SkeletalMeshComponent MorphTargetPair.1 with
    | none => 0
    | some MorphLOD0 =>
      MorphTargetPair.2 •
        UnitDisplacement SkeletalMeshComponent.GetSkeletalMeshAsset.LODRenderData MorphLOD0 Bone

/-- The mesh the bake step of `ApplyTranslationsToSkeleton` reads and writes (lines
355-358): the duplicate the instance already owns when it is valid, and otherwise a new
duplicate of the mesh the component shows. On the first bake of an instance it is the
duplicate of the source mesh, with the source mesh's reference pose. -/
def BakeMesh (self : UMorphToSkeletonComponent) (SkeletalMeshComponent : USkeletalMeshComponent)
    (NewObject : Nat) : USkeletalMesh :=
  match self.DuplicatedMesh with
  | none => { SkeletalMeshComponent.GetSkeletalMeshAsset with Id := NewObject }
  | some Mesh =>
    if Mesh.IsValidLowLevelFast then Mesh
    else { SkeletalMeshComponent.GetSkeletalMeshAsset with Id := NewObject }

/-- The reference-pose transform of a bone in the pose the bake step reads
(`Pose[BoneIndex]`, line 367). -/
def BakePose (self : UMorphToSkeletonComponent) (SkeletalMeshComponent : USkeletalMeshComponent)
    (NewObject : Nat) (Bone : Int) : FTransform :=
  (BakeMesh self SkeletalMeshComponent NewObject).RefSkeleton.FinalRefBonePose.getD Bone.toNat
    ⟨⟨0, 0, 0⟩, 0⟩

/-- The section that holds a vertex: the first section whose vertex range contains it. -/
def SectionOf (LODRenderData : FSkeletalMeshLODRenderData) (VertexIndex : Nat) :
    Option FSkelMeshRenderSection :=
  LODRenderData.RenderSections.find? fun Section => Section.InRange VertexIndex

/-- The skin weight `w(b, v)` of a vertex for a bone: the sum of the skin weights of the
valid influence slots of the vertex that map to the bone through the bone map of the
section that holds the vertex; zero when no section holds the vertex. -/
def SkinWeight (LODRenderData : FSkeletalMeshLODRenderData) (Bone : Int) (VertexIndex : Nat) :
    ℚ :=
  match SectionOf LODRenderData VertexIndex with
  | none => 0
  | some Section => SlotWeight LODRenderData.SkinWeightVertexBuffer Section VertexIndex Bone

/-- The visits one `CacheTranslation` call makes: none when the net weight is nearly zero
or the mesh has no such morph target LOD, the visits of the LOD otherwise. -/
def EffectiveVisits (SkeletalMeshComponent : USkeletalMeshComponent) (MorphTarget : FName)
    (MorphValue : ℚ) : List (FSkelMeshRenderSection × FMorphTargetDelta) :=
  if IsNearlyZero MorphValue = true then []
  else
    match FindMorphLOD0 SkeletalMeshComponent MorphTarget with
    | none => []
    | some MorphLOD0 => Visits SkeletalMeshComponent.GetSkeletalMeshAsset.LODRenderData MorphLOD0

/-- Whether section `SectionIndex` of the mesh is an affected section of the morph target
LOD and holds the vertex in its vertex range. -/
def SectionAffects (LODRenderData : FSkeletalMeshLODRenderData)
    (MorphLOD0 : FMorphTargetLODModel) (VertexIndex : Nat) (SectionIndex : Nat) : Bool :=
  MorphLOD0.SectionIndices.contains (SectionIndex : Int) &&
    match LODRenderData.RenderSections.get? SectionIndex with
    | none => false
    | some Section => Section.InRange VertexIndex

/-- Whether the vertex lies in one of the affected sections of the morph target LOD. -/
def InAffectedSection (LODRenderData : FSkeletalMeshLODRenderData)
    (MorphLOD0 : FMorphTargetLODModel) (VertexIndex : Nat) : Bool :=
  (List.range LODRenderData.RenderSections.length).any
    (SectionAffects LODRenderData MorphLOD0 VertexIndex)

/-- The displacement of a bone per unit of morph weight in the words of the claim: the sum,
over the deltas `(v, d)` of the morph target whose vertex lies in one of its affected
sections, of `w(b, v) * d`. -/
def SpecUnitDisplacement (LODRenderData : FSkeletalMeshLODRenderData)
    (MorphLOD0 : FMorphTargetLODModel) (Bone : Int) : FVector3f :=
  ((MorphLOD0.Vertices.filter fun Delta =>
      InAffectedSection LODRenderData MorphLOD0 Delta.SourceIdx).map fun Delta =>
    SkinWeight LODRenderData Bone Delta.SourceIdx • Delta.PositionDelta).sum

/-- The unit displacement of a morph target name for a bone: zero for a name the mesh does
not know (or whose morph target has no LOD model). -/
def SpecTargetDisplacement (SkeletalMeshComponent : USkeletalMeshComponent)
    (MorphTarget : FName) (Bone : Int) : FVector3f :=
  match FindMorphLOD0 SkeletalMeshComponent MorphTarget with
  | none => 0
  | some MorphLOD0 =>
    SpecUnitDisplacement SkeletalMeshComponent.GetSkeletalMeshAsset.LODRenderData MorphLOD0 Bone

/-- The total displacement the active morph set stands for: the sum over the names `t` of
the set of `active[t]` times the unit displacement of `t`. -/
def ActiveDisplacement (SkeletalMeshComponent : USkeletalMeshComponent)
    (Active : TMap FName ℚ) (Bone : Int) : FVector3f :=
  (Active.map fun Entry => Entry.2 • SpecTargetDisplacement SkeletalMeshComponent Entry.1 Bone).sum

/-- One call of the public morph interface: `SetMorph(name, weight)` or
`SetMorphs(targets)`. -/
inductive MorphCall where
  | SetMorph (MorphTarget : FName) (MorphValue : ℚ)
  | SetMorphs (MorphTargets : TMap FName ℚ)

/-- The (name, weight) pairs a call processes, in processing order. -/
def MorphCall.Pairs : MorphCall → List (FName × ℚ)
  | .SetMorph MorphTarget MorphValue => [(MorphTarget, MorphValue)]
  | .SetMorphs MorphTargets => MorphTargets

/-- The instance after one call on a component. -/
def RunCall (SkeletalMeshComponent : USkeletalMeshComponent) (self : UMorphToSkeletonComponent) :
    MorphCall → UMorphToSkeletonComponent
  | .SetMorph MorphTarget MorphValue => SetMorph self SkeletalMeshComponent MorphTarget MorphValue
  | .SetMorphs MorphTargets => SetMorphs self SkeletalMeshComponent MorphTargets

/-- The instance after a sequence of `SetMorph` / `SetMorphs` calls on a component. -/
def RunCalls (self : UMorphToSkeletonComponent) (SkeletalMeshComponent : USkeletalMeshComponent)
    (Calls : List MorphCall) : UMorphToSkeletonComponent :=
  Calls.foldl (RunCall SkeletalMeshComponent) self

/-- Every net weight change of a run of (name, weight) pairs, taken against the weight the
instance holds for the name when the pair is processed, is exactly zero or not nearly
zero. -/
def NetWeightsExact (SkeletalMeshComponent : USkeletalMeshComponent) :
    UMorphToSkeletonComponent → List (FName × ℚ) → Prop
  | _, [] => True
  | self, Pair :: Rest =>
    (Pair.2 - (self.CachedMorphs.Find Pair.1).getD 0 = 0 ∨
      IsNearlyZero (Pair.2 - (self.CachedMorphs.Find Pair.1).getD 0) = false) ∧
    NetWeightsExact SkeletalMeshComponent
      (SetMorph self SkeletalMeshComponent Pair.1 Pair.2) Rest

/-- The value `ResolveBone` stores in `RelativeTranslations` for one accumulator entry. -/
def ResolvedTranslation (RefSkeleton : FReferenceSkeleton) (Totals : TMap Int (ℚ × FVector3f))
    (Elem : Int × (ℚ × FVector3f)) : FVector3f :=
  if RefSkeleton.GetParentIndex Elem.1 ≠ INDEX_NONE ∧
      Totals.Contains (RefSkeleton.GetParentIndex Elem.1) = true then
    WeightedTransform Elem.2 -
      WeightedTransform ((Totals.Find (RefSkeleton.GetParentIndex Elem.1)).getD (0, 0))
  else WeightedTransform Elem.2

/-- The end-to-end scenario of the specification (section 8) for a component and the LOD
model of its morph target "Open": the skeleton has the root 0 and the child 1 with
parent 0, the bone maps name bones 0 and 1 only, the morph displaces at least one vertex,
each displaced vertex is displaced once, by (0,0,10), and is skinned with full weight
exclusively to bone 1 (every other valid influence slot has weight zero), and every
vertex that bone 1 influences is displaced by the morph. -/
def OpenScenario (Component : USkeletalMeshComponent) (MorphLOD0 : FMorphTargetLODModel) :
    Prop :=
  Component.GetSkeletalMeshAsset.RefSkeleton.GetParentIndex 0 = INDEX_NONE ∧
  Component.GetSkeletalMeshAsset.RefSkeleton.GetParentIndex 1 = 0 ∧
  (∀ Section ∈ Component.GetSkeletalMeshAsset.LODRenderData.RenderSections,
    ∀ Bone ∈ Section.BoneMap, Bone = 0 ∨ Bone = 1) ∧
  FindMorphLOD0 Component "Open" = some MorphLOD0 ∧
  Visits Component.GetSkeletalMeshAsset.LODRenderData MorphLOD0 ≠ [] ∧
  (VisitedVertices Component.GetSkeletalMeshAsset.LODRenderData MorphLOD0).Nodup ∧
  (∀ Visit ∈ Visits Component.GetSkeletalMeshAsset.LODRenderData MorphLOD0,
    Visit.2.PositionDelta = (0, 0, 10) ∧
    SlotWeight Component.GetSkeletalMeshAsset.LODRenderData.SkinWeightVertexBuffer Visit.1
      Visit.2.SourceIdx 1 = 1 ∧
    ∀ bw ∈ Influences Component.GetSkeletalMeshAsset.LODRenderData.SkinWeightVertexBuffer
      Visit.1 Visit.2.SourceIdx, bw.1 = 1 ∨ bw.2 = 0) ∧
  (∀ Section ∈ Component.GetSkeletalMeshAsset.LODRenderData.RenderSections,
    ∀ VertexIndex ∈ Section.VertexIndices,
    ∀ bw ∈ Influences Component.GetSkeletalMeshAsset.LODRenderData.SkinWeightVertexBuffer
      Section VertexIndex,
    bw.1 = 1 → bw.2 > 0 →
      VertexIndex ∈ VisitedVertices Component.GetSkeletalMeshAsset.LODRenderData MorphLOD0)

instance (Component : USkeletalMeshComponent) (MorphLOD0 : FMorphTargetLODModel) :
    Decidable (OpenScenario Component MorphLOD0) := by
  unfold OpenScenario
  infer_instance

/-! ## Example data -/

/-- A skeletal mesh asset with identity 7 built from its sections, skin weights, morph
targets and parent table; every bone has the identity reference pose. -/
def ExampleMesh (RenderSections : List FSkelMeshRenderSection)
    (SkinWeightBuffer : FSkinWeightVertexBuffer) (Morphs : FName → Option UMorphTarget)
    (Parent : Int → Int) : USkeletalMesh where
  Id := 7
  IsValidLowLevelFast := true
  LODRenderData := ⟨RenderSections, SkinWeightBuffer⟩
  FindMorphTarget := Morphs
  RefSkeleton := ⟨Parent, fun Bone => if Bone = 0 then "root" else "child",
    [⟨⟨0, 0, 0⟩, 0⟩, ⟨⟨0, 0, 0⟩, 0⟩], [⟨⟨0, 0, 0⟩, 0⟩, ⟨⟨0, 0, 0⟩, 0⟩]⟩

/-- A skeletal mesh component showing a mesh, with identity bone space conversions. -/
def ExampleComponent (SkeletalMesh : USkeletalMesh) : USkeletalMeshComponent where
  GetSkeletalMeshAsset := SkeletalMesh
  GetBoneName := SkeletalMesh.RefSkeleton.GetBoneName
  TransformFromBoneSpace := fun _ Location Rotation => (Location, Rotation)
  TransformToBoneSpace := fun _ Location Rotation => (Location, Rotation)
  CPUSkinningEnabled := false
  MorphTargetWeights := []

/-- The parent table of a two bone skeleton: bone 0 is the root, bone 1 its child. -/
def TwoBoneParent (Bone : Int) : Int := if Bone = 1 then 0 else INDEX_NONE

/-- A component over a two bone skeleton without sections and morph targets. -/
def TwoBoneComponent : USkeletalMeshComponent :=
  ExampleComponent (ExampleMesh [] ⟨1, fun _ _ => 0, fun _ _ => 0⟩ (fun _ => none) TwoBoneParent)

/-- An instance whose accumulator holds the parent (bone 0) with average (2,0,0) and the
child (bone 1) with average (2,1,0). -/
def ParentChildInstance : UMorphToSkeletonComponent :=
  { UMorphToSkeletonComponent.Clean with
    CachedTotalTranslations := [(0, (1, (2, 0, 0))), (1, (1, (2, 1, 0)))] }

/-- An instance whose accumulator holds bone 1 (whose parent, bone 0, has no entry) with
total weight 2 and total displacement (4,2,0), and the parentless bone 5 with total
weight 0. -/
def OrphanInstance : UMorphToSkeletonComponent :=
  { UMorphToSkeletonComponent.Clean with
    CachedTotalTranslations := [(1, (2, (4, 2, 0))), (5, (0, (3, 3, 3)))] }

/-- One section with vertices 0 and 1 and bone map `[0]`; one influence slot per vertex,
naming local bone 0 with raw weight 39321 (0.6) for vertex 0 and 26214 (0.4) for
vertex 1. -/
def DilutionLOD : FSkeletalMeshLODRenderData :=
  ⟨[⟨0, 2, [0]⟩], ⟨1, fun _ _ => 0, fun v _ => if v = 0 then 39321 else 26214⟩⟩

/-- The morph target "Move" displaces vertex 0 by (1,0,0) in section 0. -/
def DilutionMorphs (Name : FName) : Option UMorphTarget :=
  if Name = "Move" then some ⟨[⟨[⟨(1, 0, 0), 0⟩], [0]⟩]⟩ else none

/-- A component over a one bone mesh where bone 0 influences vertex 0 with weight 0.6 and
vertex 1 with weight 0.4, and the morph target "Move" displaces vertex 0 only. -/
def DilutionComponent : USkeletalMeshComponent :=
  ExampleComponent (ExampleMesh DilutionLOD.RenderSections DilutionLOD.SkinWeightVertexBuffer
    DilutionMorphs (fun _ => INDEX_NONE))

/-- The LOD model of the morph target "Open": vertices 2 and 3 are displaced by (0,0,10),
in section 1. -/
def OpenMorphLOD : FMorphTargetLODModel := ⟨[⟨(0, 0, 10), 2⟩, ⟨(0, 0, 10), 3⟩], [1]⟩

/-- A two bone mesh with one section per bone: vertices 0 and 1 with bone map `[0]`,
vertices 2 and 3 with bone map `[1]`. Every vertex has two influence slots, both naming
local bone 0, the first with the full raw weight 65535 and the second with weight 0. -/
def OpenComponent : USkeletalMeshComponent :=
  ExampleComponent (ExampleMesh [⟨0, 2, [0]⟩, ⟨2, 2, [1]⟩]
    ⟨2, fun _ _ => 0, fun _ i => if i = 0 then 65535 else 0⟩
    (fun Name => if Name = "Open" then some ⟨[OpenMorphLOD]⟩ else none) TwoBoneParent)

/-- A two bone mesh with one section holding vertices 0 to 3 with bone map `[0, 1]`.
Vertices 0 and 1 are skinned to bone 0 and vertices 2 and 3 to bone 1 with the full raw
weight 65535 in the first slot; the second slot of every vertex names local bone 0 with
weight 0. -/
def OpenSharedComponent : USkeletalMeshComponent :=
  ExampleComponent (ExampleMesh [⟨0, 4, [0, 1]⟩]
    ⟨2, fun v i => if i = 0 ∧ 2 ≤ v then 1 else 0, fun _ i => if i = 0 then 65535 else 0⟩
    (fun Name => if Name = "Open" then some ⟨[⟨[⟨(0, 0, 10), 2⟩, ⟨(0, 0, 10), 3⟩], [0]⟩]⟩
      else none) TwoBoneParent)

/-- An instance that has displaced vertex 0: the accumulator holds bone 0 with total weight
3/5 and total displacement (3/5,0,0), and bone 9, which no index knows, with total weight
1 and total displacement (1,1,1). -/
def CacheMissInstance : UMorphToSkeletonComponent :=
  { UMorphToSkeletonComponent.Clean with
    CachedAffectedVertices := [0]
    CachedTotalTranslations := [(0, (3 / 5, (3 / 5, 0, 0))), (9, (1, (1, 1, 1)))] }

/-- The instance and the component after `PreMorphInitialize` and a first
`MorphToSkeleton(component, {"Open": 1.0})` on `OpenSharedComponent`. -/
def OpenFirstRun : UMorphToSkeletonComponent × USkeletalMeshComponent :=
  MorphToSkeleton UMorphToSkeletonComponent.Clean (PreMorphInitialize [] OpenSharedComponent)
    OpenSharedComponent [("Open", 1)] 8

/-- The instance and the component after a second call,
`MorphToSkeleton(component, {"Open": 2.0})`, on the same instance and component. -/
def OpenSecondRun : UMorphToSkeletonComponent × USkeletalMeshComponent :=
  MorphToSkeleton OpenFirstRun.1 (PreMorphInitialize [] OpenSharedComponent) OpenFirstRun.2
    [("Open", 2)] 9

/-- A component over a two bone mesh with one section holding vertices 0 and 1 with bone
map `[0, 1]`. Every vertex has two influence slots: slot 0 names local bone 0 with raw
weight 39321 (0.6), slot 1 names local bone 1 with raw weight 26214 (0.4). The morph
target "Twice" holds two deltas for vertex 0, (1,0,0) and (0,1,0), in section 0. -/
def RepeatComponent : USkeletalMeshComponent :=
  ExampleComponent (ExampleMesh [⟨0, 2, [0, 1]⟩]
    ⟨2, fun _ i => i, fun _ i => if i = 0 then 39321 else 26214⟩
    (fun Name => if Name = "Twice" then some ⟨[⟨[⟨(1, 0, 0), 0⟩, ⟨(0, 1, 0), 0⟩], [0]⟩]⟩
      else none) TwoBoneParent)

/-- A component over the mesh of `RepeatComponent` with two morph targets that displace
the same vertex: "A" displaces vertex 0 by (1,0,0); "B" displaces vertex 0 by (0,1,0) and
vertex 1 by (0,0,1). -/
def OverlapComponent : USkeletalMeshComponent :=
  ExampleComponent (ExampleMesh [⟨0, 2, [0, 1]⟩]
    ⟨2, fun _ i => i, fun _ i => if i = 0 then 39321 else 26214⟩
    (fun Name =>
      if Name = "A" then some ⟨[⟨[⟨(1, 0, 0), 0⟩], [0]⟩]⟩
      else if Name = "B" then some ⟨[⟨[⟨(0, 1, 0), 0⟩, ⟨(0, 0, 1), 1⟩], [0]⟩]⟩
      else none) TwoBoneParent)

/-- A component over a two bone mesh with one section per bone: vertices 0 and 1 with bone
map `[0]` and raw weights 39321 (0.6) and 26214 (0.4), vertices 2 and 3 with bone map `[1]`
and the full raw weight 65535. The morph target "Move" displaces vertex 0 by (1,0,0) in
section 0; the morph target "Other" displaces vertex 2 by (0,0,5) in section 1. -/
def TwoMorphComponent : USkeletalMeshComponent :=
  ExampleComponent (ExampleMesh [⟨0, 2, [0]⟩, ⟨2, 2, [1]⟩]
    ⟨1, fun _ _ => 0, fun v _ => if v = 0 then 39321 else if v = 1 then 26214 else 65535⟩
    (fun Name =>
      if Name = "Move" then some ⟨[⟨[⟨(1, 0, 0), 0⟩], [0]⟩]⟩
      else if Name = "Other" then some ⟨[⟨[⟨(0, 0, 5), 2⟩], [1]⟩]⟩
      else none) TwoBoneParent)

/-- A component over the one bone mesh of `DilutionComponent` (bone 0 influences vertex 0
with weight 0.6 and vertex 1 with weight 0.4) with two morph targets that share no vertex:
"Move" displaces vertex 0 by (1,0,0), "Other" displaces vertex 1 by (0,1,0). -/
def SameBoneComponent : USkeletalMeshComponent :=
  ExampleComponent (ExampleMesh DilutionLOD.RenderSections DilutionLOD.SkinWeightVertexBuffer
    (fun Name =>
      if Name = "Move" then some ⟨[⟨[⟨(1, 0, 0), 0⟩], [0]⟩]⟩
      else if Name = "Other" then some ⟨[⟨[⟨(0, 1, 0), 1⟩], [0]⟩]⟩
      else none) (fun _ => INDEX_NONE))

/-- A component over a two bone mesh with one section holding vertices 0 and 1 with bone
map `[0, 1]`. Every vertex has two influence slots: slot 0 names local bone 0 with the full
raw weight 65535, slot 1 names local bone 1 with raw weight 0. The morph target "Move"
displaces vertex 0 by (1,0,0) in section 0. -/
def ZeroSlotComponent : USkeletalMeshComponent :=
  ExampleComponent (ExampleMesh [⟨0, 2, [0, 1]⟩]
    ⟨2, fun _ i => i, fun _ i => if i = 0 then 65535 else 0⟩
    (fun Name => if Name = "Move" then some ⟨[⟨[⟨(1, 0, 0), 0⟩], [0]⟩]⟩ else none)
    TwoBoneParent)

/-- The instance and the component after a second call that repeats the first,
`MorphToSkeleton(component, {"Open": 1.0})`, on the instance and component of
`OpenFirstRun`. -/
def OpenRepeatRun : UMorphToSkeletonComponent × USkeletalMeshComponent :=
  MorphToSkeleton OpenFirstRun.1 (PreMorphInitialize [] OpenSharedComponent) OpenFirstRun.2
    [("Open", 1)] 9

/-- The instance and the component after `PreMorphInitialize` and
`MorphToSkeleton(component, {"Move": 1.0})` on `SameBoneComponent`. -/
def SameBoneFirstRun : UMorphToSkeletonComponent × USkeletalMeshComponent :=
  MorphToSkeleton UMorphToSkeletonComponent.Clean (PreMorphInitialize [] SameBoneComponent)
    SameBoneComponent [("Move", 1)] 8

/-- The instance and the component after a second call,
`MorphToSkeleton(component, {"Other": 1.0})`, on the instance and component of
`SameBoneFirstRun`. -/
def SameBoneSecondRun : UMorphToSkeletonComponent × USkeletalMeshComponent :=
  MorphToSkeleton SameBoneFirstRun.1 (PreMorphInitialize [] SameBoneComponent)
    SameBoneFirstRun.2 [("Other", 1)] 9

/-- The instance and the component after one call with both morph targets,
`MorphToSkeleton(component, {"Move": 1.0, "Other": 1.0})`, on a clean instance and
`SameBoneComponent`. -/
def SameBoneSingleRun : UMorphToSkeletonComponent × USkeletalMeshComponent :=
  MorphToSkeleton UMorphToSkeletonComponent.Clean (PreMorphInitialize [] SameBoneComponent)
    SameBoneComponent [("Move", 1), ("Other", 1)] 8

/-! ## `TMap` lemmas -/

namespace TMap

variable {K V : Type} [DecidableEq K]

theorem Find_Add_self (m : TMap K V) (k : K) (v : V) : Find (Add m k v) k = some v := by
  induction m with
  | nil => simp [Add, Find]
  | cons e m ih =>
    obtain ⟨k', v'⟩ := e
    by_cases h : k' = k
    · simp [Add, Find, h]
    · simp [Add, Find, h, ih]

theorem Find_Add_ne (m : TMap K V) {k k' : K} (v : V) (h : k' ≠ k) :
    Find (Add m k v) k' = Find m k' := by
  induction m with
  | nil => simp [Add, Find, Ne.symm h]
  | cons e m ih =>
    obtain ⟨k1, v1⟩ := e
    by_cases h1 : k1 = k
    · subst h1
      simp [Add, Find, Ne.symm h]
    · by_cases h2 : k1 = k'
      · subst h2
        simp [Add, Find, h1]
      · simp [Add, Find, h1, h2, ih]

theorem Find_Add (m : TMap K V) (k k' : K) (v : V) :
    Find (Add m k v) k' = if k' = k then some v else Find m k' := by
  by_cases h : k' = k
  · subst h
    simp [Find_Add_self]
  · simp [h, Find_Add_ne m v h]

theorem Find_eq_none_iff (m : TMap K V) (k : K) : Find m k = none ↔ k ∉ Keys m := by
  induction m with
  | nil => simp [Find, Keys]
  | cons e m ih =>
    obtain ⟨k1, v1⟩ := e
    by_cases h1 : k1 = k
    · simp [Find, Keys, h1]
    · have h2 : ¬ k = k1 := fun h => h1 h.symm
      simpa [Find, Keys, h1, h2] using ih

theorem Contains_iff (m : TMap K V) (k : K) : Contains m k = true ↔ k ∈ Keys m := by
  unfold Contains
  rw [Option.isSome_iff_ne_none, Ne, Find_eq_none_iff, not_not]

theorem Keys_Add (m : TMap K V) (k : K) (v : V) :
    Keys (Add m k v) = if k ∈ Keys m then Keys m else Keys m ++ [k] := by
  induction m with
  | nil => simp [Add, Keys]
  | cons e m ih =>
    obtain ⟨k1, v1⟩ := e
    by_cases h1 : k1 = k
    · simp [Add, Keys, h1]
    · have h2 : ¬ k = k1 := fun h => h1 h.symm
      have ih' := ih
      simp only [Keys] at ih'
      by_cases h3 : k ∈ List.map Prod.fst m
      · simp [Add, Keys, h1, h2, h3, ih']
      · simp [Add, Keys, h1, h2, h3, ih']

theorem Keys_Add_of_mem (m : TMap K V) {k : K} (v : V) (h : k ∈ Keys m) :
    Keys (Add m k v) = Keys m := by
  rw [Keys_Add, if_pos h]

theorem Nodup_Keys_Add (m : TMap K V) (k : K) (v : V) (h : (Keys m).Nodup) :
    (Keys (Add m k v)).Nodup := by
  rw [Keys_Add]
  split
  · exact h
  · rename_i hk
    exact List.Nodup.append h (List.nodup_singleton k) (by simpa using hk)

theorem Add_eq_self (m : TMap K V) {k : K} {v : V} (h : Find m k = some v) : Add m k v = m := by
  induction m with
  | nil => simp [Find] at h
  | cons e m ih =>
    obtain ⟨k1, v1⟩ := e
    by_cases h1 : k1 = k
    · simp [Find, h1] at h
      simp [Add, h1, h]
    · simp [Find, h1] at h
      simp [Add, h1, ih h]

theorem Find_of_mem (m : TMap K V) {k : K} {v : V} (hnd : (Keys m).Nodup) (h : (k, v) ∈ m) :
    Find m k = some v := by
  induction m with
  | nil => simp at h
  | cons e m ih =>
    obtain ⟨k1, v1⟩ := e
    simp only [Keys, List.map_cons, List.nodup_cons] at hnd
    rcases List.mem_cons.mp h with h | h
    · cases h
      simp [Find]
    · have hk : k ∈ List.map Prod.fst m := List.mem_map.mpr ⟨(k, v), h, rfl⟩
      have h1 : k1 ≠ k := fun e => hnd.1 (e ▸ hk)
      simp [Find, h1, ih hnd.2 h]

theorem mem_of_Find (m : TMap K V) {k : K} {v : V} (h : Find m k = some v) : (k, v) ∈ m := by
  induction m with
  | nil => simp [Find] at h
  | cons e m ih =>
    obtain ⟨k1, v1⟩ := e
    by_cases h1 : k1 = k
    · simp [Find, h1] at h
      simp [h1, h]
    · simp [Find, h1] at h
      exact List.mem_cons_of_mem _ (ih h)

/-- Folding `Add` over a list with distinct keys stores, under the key of every element,
the value of that element. -/
theorem Find_foldl_Add {α : Type} (key : α → K) (val : α → V) (L : List α) (m : TMap K V)
    (hnd : (L.map key).Nodup) {a : α} (ha : a ∈ L) :
    Find (L.foldl (fun m x => Add m (key x) (val x)) m) (key a) = some (val a) := by
  induction L generalizing m with
  | nil => simp at ha
  | cons x L ih =>
    simp only [List.map_cons, List.nodup_cons] at hnd
    simp only [List.foldl_cons]
    rcases List.mem_cons.mp ha with h | h
    · subst h
      have hnot : ∀ (m' : TMap K V), Find (L.foldl (fun m x => Add m (key x) (val x)) m') (key a)
          = Find m' (key a) := by
        have h1 := hnd.1
        clear ih ha hnd
        induction L with
        | nil => intro m'; rfl
        | cons y L ih2 =>
          intro m'
          simp only [List.map_cons, List.mem_cons, not_or] at h1
          simp only [List.foldl_cons]
          rw [ih2 h1.2, Find_Add_ne _ _ h1.1]
      rw [hnot, Find_Add_self]
    · exact ih _ hnd.2 h

/-- Folding `Add` over a list leaves the keys outside the list as they were. -/
theorem Find_foldl_Add_of_not_mem {α : Type} (key : α → K) (val : α → V) (L : List α)
    (m : TMap K V) {k : K} (hk : k ∉ L.map key) :
    Find (L.foldl (fun m x => Add m (key x) (val x)) m) k = Find m k := by
  induction L generalizing m with
  | nil => rfl
  | cons y L ih =>
    simp only [List.map_cons, List.mem_cons, not_or] at hk
    simp only [List.foldl_cons]
    rw [ih _ hk.2, Find_Add_ne _ _ hk.1]

end TMap

/-! ## Accumulator lemmas -/

theorem Find_AddToTotals (Totals : TMap Int (ℚ × FVector3f)) (Bone Bone' : Int)
    (bAddWeight : Bool) (Weight : ℚ) (TotalTransform : FVector3f) :
    (AddToTotals Totals Bone bAddWeight Weight TotalTransform).Find Bone' =
      if Bone' = Bone then
        some (if bAddWeight then (TotalsOf Totals Bone).1 + Weight else (TotalsOf Totals Bone).1,
          (TotalsOf Totals Bone).2 + TotalTransform)
      else Totals.Find Bone' := by
  unfold AddToTotals TotalsOf
  rw [TMap.Find_Add]

theorem TotalsOf_AddToTotals (Totals : TMap Int (ℚ × FVector3f)) (Bone Bone' : Int)
    (bAddWeight : Bool) (Weight : ℚ) (TotalTransform : FVector3f) :
    TotalsOf (AddToTotals Totals Bone bAddWeight Weight TotalTransform) Bone' =
      if Bone' = Bone then
        (if bAddWeight then (TotalsOf Totals Bone).1 + Weight else (TotalsOf Totals Bone).1,
          (TotalsOf Totals Bone).2 + TotalTransform)
      else TotalsOf Totals Bone' := by
  unfold TotalsOf
  rw [Find_AddToTotals]
  split <;> rfl

theorem Keys_AddToTotals (Totals : TMap Int (ℚ × FVector3f)) (Bone : Int)
    (bAddWeight : Bool) (Weight : ℚ) (TotalTransform : FVector3f) :
    TMap.Keys (AddToTotals Totals Bone bAddWeight Weight TotalTransform) =
      if Bone ∈ TMap.Keys Totals then TMap.Keys Totals else TMap.Keys Totals ++ [Bone] := by
  unfold AddToTotals
  rw [TMap.Keys_Add]

/-! ## The zero-dilution pass keeps the keys -/

theorem Keys_DiluteVertex (Affected : TSet) (Bone : Int) (Totals : TMap Int (ℚ × FVector3f))
    (Pair : Nat × ℚ) (h : Bone ∈ TMap.Keys Totals) :
    TMap.Keys (DiluteVertex Affected Bone Totals Pair) = TMap.Keys Totals := by
  unfold DiluteVertex
  split
  · rfl
  · rw [Keys_AddToTotals, if_pos h]

theorem Keys_foldl_DiluteVertex (Affected : TSet) (Bone : Int) (L : List (Nat × ℚ))
    (Totals : TMap Int (ℚ × FVector3f)) (h : Bone ∈ TMap.Keys Totals) :
    TMap.Keys (L.foldl (DiluteVertex Affected Bone) Totals) = TMap.Keys Totals := by
  induction L generalizing Totals with
  | nil => rfl
  | cons x L ih =>
    simp only [List.foldl_cons]
    have h1 := Keys_DiluteVertex Affected Bone Totals x h
    rw [ih _ (h1 ▸ h), h1]

theorem Keys_DiluteBone (Cache : BoneWeightMapCache) (Mesh : Nat) (Affected : TSet)
    (Totals : TMap Int (ℚ × FVector3f)) (Bone : Int) (h : Bone ∈ TMap.Keys Totals) :
    TMap.Keys (DiluteBone Cache Mesh Affected Totals Bone) = TMap.Keys Totals := by
  unfold DiluteBone
  split
  · rfl
  · split
    · rfl
    · exact Keys_foldl_DiluteVertex _ _ _ _ h

theorem Keys_foldl_DiluteBone (Cache : BoneWeightMapCache) (Mesh : Nat) (Affected : TSet)
    (L : List Int) (Totals : TMap Int (ℚ × FVector3f)) (h : ∀ b ∈ L, b ∈ TMap.Keys Totals) :
    TMap.Keys (L.foldl (DiluteBone Cache Mesh Affected) Totals) = TMap.Keys Totals := by
  induction L generalizing Totals with
  | nil => rfl
  | cons x L ih =>
    simp only [List.foldl_cons]
    have h1 := Keys_DiluteBone Cache Mesh Affected Totals x (h x (List.mem_cons_self _ _))
    rw [ih _ (fun b hb => h1 ▸ h b (List.mem_cons_of_mem _ hb)), h1]

theorem Keys_ZeroDilutionPass (Cache : BoneWeightMapCache) (Mesh : Nat) (Affected : TSet)
    (Totals : TMap Int (ℚ × FVector3f)) :
    TMap.Keys (ZeroDilutionPass Cache Mesh Affected Totals) = TMap.Keys Totals :=
  Keys_foldl_DiluteBone Cache Mesh Affected _ Totals (fun _ hb => hb)

/-! ## The resolve pass -/

theorem WeightedTransform_eq_SpecAverage (TranslationData : ℚ × FVector3f) :
    WeightedTransform TranslationData = SpecAverage TranslationData.1 TranslationData.2 := by
  obtain ⟨w, x, y, z⟩ := TranslationData
  unfold WeightedTransform SpecAverage
  split
  · simp [div_eq_inv_mul]
  · rfl

theorem ResolveBone_fst (RefSkeleton : FReferenceSkeleton) (Totals : TMap Int (ℚ × FVector3f))
    (Out : TMap Int FVector3f × List FName × List FVector3f) (Elem : Int × (ℚ × FVector3f)) :
    (ResolveBone RefSkeleton Totals Out Elem).1 =
      Out.1.Add Elem.1 (ResolvedTranslation RefSkeleton Totals Elem) := by
  by_cases h : RefSkeleton.GetParentIndex Elem.1 ≠ INDEX_NONE ∧
      Totals.Contains (RefSkeleton.GetParentIndex Elem.1) = true
  · simp only [ResolveBone, ResolvedTranslation, if_pos h]
  · simp only [ResolveBone, ResolvedTranslation, if_neg h]

theorem foldl_ResolveBone_fst (RefSkeleton : FReferenceSkeleton)
    (Totals : TMap Int (ℚ × FVector3f)) (L : List (Int × (ℚ × FVector3f)))
    (Out : TMap Int FVector3f × List FName × List FVector3f) :
    (L.foldl (ResolveBone RefSkeleton Totals) Out).1 =
      L.foldl (fun m e => TMap.Add m e.1 (ResolvedTranslation RefSkeleton Totals e)) Out.1 := by
  induction L generalizing Out with
  | nil => rfl
  | cons x L ih =>
    simp only [List.foldl_cons]
    rw [ih, ResolveBone_fst]

/-- After the resolve pass every bone of the accumulator holds its resolved translation. -/
theorem Find_ResolvePass (RefSkeleton : FReferenceSkeleton) (Totals : TMap Int (ℚ × FVector3f))
    (Out : TMap Int FVector3f × List FName × List FVector3f)
    (hnd : (TMap.Keys Totals).Nodup) {Bone : Int} {Data : ℚ × FVector3f}
    (h : Totals.Find Bone = some Data) :
    (ResolvePass RefSkeleton Totals Out).1.Find Bone =
      some (ResolvedTranslation RefSkeleton Totals (Bone, Data)) := by
  unfold ResolvePass
  rw [foldl_ResolveBone_fst]
  exact TMap.Find_foldl_Add (fun e : Int × (ℚ × FVector3f) => e.1)
    (fun e => ResolvedTranslation RefSkeleton Totals e) Totals Out.1 hnd (TMap.mem_of_Find _ h)

/-- A bone without accumulator entry keeps what `RelativeTranslations` held for it. -/
theorem Find_ResolvePass_of_not_mem (RefSkeleton : FReferenceSkeleton)
    (Totals : TMap Int (ℚ × FVector3f))
    (Out : TMap Int FVector3f × List FName × List FVector3f) {Bone : Int}
    (h : Totals.Find Bone = none) :
    (ResolvePass RefSkeleton Totals Out).1.Find Bone = Out.1.Find Bone := by
  unfold ResolvePass
  rw [foldl_ResolveBone_fst]
  exact TMap.Find_foldl_Add_of_not_mem (fun e : Int × (ℚ × FVector3f) => e.1)
    (fun e => ResolvedTranslation RefSkeleton Totals e) Totals Out.1
    ((TMap.Find_eq_none_iff _ _).mp h)

theorem Nodup_Keys_Apply (self : UMorphToSkeletonComponent) (Cache : BoneWeightMapCache)
    (Component : USkeletalMeshComponent) (NewObject : Nat)
    (hnd : (TMap.Keys self.CachedTotalTranslations).Nodup) :
    (TMap.Keys
      (ApplyTranslationsToSkeleton self Cache Component NewObject).1.CachedTotalTranslations).Nodup := by
  show (TMap.Keys (ZeroDilutionPass _ _ _ _)).Nodup
  rw [Keys_ZeroDilutionPass]
  exact hnd

/-! ## Claims C3 and C4: the resolve step -/

/-- Claim C3 (parent-relative subtraction): after `ApplyTranslationsToSkeleton`, for every
bone with an accumulator entry whose parent is not `INDEX_NONE` and has an accumulator
entry, `RelativeTranslations` holds the average of the bone minus the average of the
parent, where the average is total displacement / total weight when the total weight is
positive and the zero vector otherwise. -/
theorem resolve_parent_relative (self : UMorphToSkeletonComponent) (Cache : BoneWeightMapCache)
    (Component : USkeletalMeshComponent) (NewObject : Nat) (Bone : Int)
    (BoneData ParentData : ℚ × FVector3f)
    (hnd : (TMap.Keys self.CachedTotalTranslations).Nodup)
    (hb : (ApplyTranslationsToSkeleton self Cache Component NewObject).1.CachedTotalTranslations.Find
      Bone = some BoneData)
    (hp : Component.GetSkeletalMeshAsset.RefSkeleton.GetParentIndex Bone ≠ INDEX_NONE)
    (hpe : (ApplyTranslationsToSkeleton self Cache Component NewObject).1.CachedTotalTranslations.Find
      (Component.GetSkeletalMeshAsset.RefSkeleton.GetParentIndex Bone) = some ParentData) :
    (GetRelativeTransforms (ApplyTranslationsToSkeleton self Cache Component NewObject).1).Find Bone =
      some (SpecAverage BoneData.1 BoneData.2 - SpecAverage ParentData.1 ParentData.2) := by
  have hnd' := Nodup_Keys_Apply self Cache Component NewObject hnd
  have key := Find_ResolvePass Component.GetSkeletalMeshAsset.RefSkeleton _
    (self.RelativeTranslations, self.PAIRTranslatedBoneNames, self.PAIRTranslatedBoneTranslations)
    hnd' hb
  have hc : TMap.Contains
      (ApplyTranslationsToSkeleton self Cache Component NewObject).1.CachedTotalTranslations
      (Component.GetSkeletalMeshAsset.RefSkeleton.GetParentIndex Bone) = true := by
    simp [TMap.Contains, hpe]
  have hval : ResolvedTranslation Component.GetSkeletalMeshAsset.RefSkeleton
      (ApplyTranslationsToSkeleton self Cache Component NewObject).1.CachedTotalTranslations
      (Bone, BoneData) =
      SpecAverage BoneData.1 BoneData.2 - SpecAverage ParentData.1 ParentData.2 := by
    unfold ResolvedTranslation
    rw [if_pos ⟨hp, hc⟩, hpe, WeightedTransform_eq_SpecAverage, WeightedTransform_eq_SpecAverage]
    rfl
  rw [← hval]
  exact key

/-- Witness of claim C3: parent average (2,0,0) and child average (2,1,0) give the child
translation (0,1,0). -/
theorem resolve_parent_relative_witness :
    (TMap.Keys ParentChildInstance.CachedTotalTranslations).Nodup ∧
    (ApplyTranslationsToSkeleton ParentChildInstance [] TwoBoneComponent 8).1.CachedTotalTranslations.Find
      1 = some (1, (2, 1, 0)) ∧
    TwoBoneComponent.GetSkeletalMeshAsset.RefSkeleton.GetParentIndex 1 ≠ INDEX_NONE ∧
    (ApplyTranslationsToSkeleton ParentChildInstance [] TwoBoneComponent 8).1.CachedTotalTranslations.Find
      (TwoBoneComponent.GetSkeletalMeshAsset.RefSkeleton.GetParentIndex 1) = some (1, (2, 0, 0)) ∧
    (GetRelativeTransforms
      (ApplyTranslationsToSkeleton ParentChildInstance [] TwoBoneComponent 8).1).Find 1 =
      some (0, 1, 0) :=
  ⟨by decide, by decide!, by decide, by decide!,
    (resolve_parent_relative ParentChildInstance [] TwoBoneComponent 8 1 (1, (2, 1, 0))
      (1, (2, 0, 0)) (by decide) (by decide!) (by decide) (by decide!)).trans (by decide!)⟩

/-- Claim C4 (parentless case): after `ApplyTranslationsToSkeleton`, for every bone with an
accumulator entry that has no parent, or whose parent has no accumulator entry,
`RelativeTranslations` holds the bone's own average: total displacement / total weight
when the total weight is positive, the zero vector when it is not. -/
theorem resolve_parentless (self : UMorphToSkeletonComponent) (Cache : BoneWeightMapCache)
    (Component : USkeletalMeshComponent) (NewObject : Nat) (Bone : Int)
    (BoneData : ℚ × FVector3f)
    (hnd : (TMap.Keys self.CachedTotalTranslations).Nodup)
    (hb : (ApplyTranslationsToSkeleton self Cache Component NewObject).1.CachedTotalTranslations.Find
      Bone = some BoneData)
    (hp : Component.GetSkeletalMeshAsset.RefSkeleton.GetParentIndex Bone = INDEX_NONE ∨
      (ApplyTranslationsToSkeleton self Cache Component NewObject).1.CachedTotalTranslations.Find
        (Component.GetSkeletalMeshAsset.RefSkeleton.GetParentIndex Bone) = none) :
    (GetRelativeTransforms (ApplyTranslationsToSkeleton self Cache Component NewObject).1).Find Bone =
      some (if BoneData.1 > 0 then
          (BoneData.2.1 / BoneData.1, BoneData.2.2.1 / BoneData.1, BoneData.2.2.2 / BoneData.1)
        else (0, 0, 0)) := by
  have hnd' := Nodup_Keys_Apply self Cache Component NewObject hnd
  have key := Find_ResolvePass Component.GetSkeletalMeshAsset.RefSkeleton _
    (self.RelativeTranslations, self.PAIRTranslatedBoneNames, self.PAIRTranslatedBoneTranslations)
    hnd' hb
  have hval : ResolvedTranslation Component.GetSkeletalMeshAsset.RefSkeleton
      (ApplyTranslationsToSkeleton self Cache Component NewObject).1.CachedTotalTranslations
      (Bone, BoneData) = SpecAverage BoneData.1 BoneData.2 := by
    unfold ResolvedTranslation
    rw [if_neg, WeightedTransform_eq_SpecAverage]
    rintro ⟨h1, h2⟩
    rcases hp with hp | hp
    · exact h1 hp
    · simp [TMap.Contains, hp] at h2
  rw [← SpecAverage, ← hval]
  exact key

/-- Witness of claim C4: bone 1, whose parent has no accumulator entry, with total weight 2
and total displacement (4,2,0) resolves to (2,1,0), and the parentless bone 5 with total
weight 0 resolves to the zero vector. -/
theorem resolve_parentless_witness :
    (GetRelativeTransforms
      (ApplyTranslationsToSkeleton OrphanInstance [] TwoBoneComponent 8).1).Find 1 =
      some (2, 1, 0) ∧
    (GetRelativeTransforms
      (ApplyTranslationsToSkeleton OrphanInstance [] TwoBoneComponent 8).1).Find 5 =
      some (0, 0, 0) :=
  ⟨(resolve_parentless OrphanInstance [] TwoBoneComponent 8 1 (2, (4, 2, 0))
      (by decide) (by decide!) (Or.inr (by decide!))).trans (by decide!),
   (resolve_parentless OrphanInstance [] TwoBoneComponent 8 5 (0, (3, 3, 3))
      (by decide) (by decide!) (Or.inl (by decide))).trans (by decide!)⟩

/-! ## Claim C8: `PreMorphInitialize` is idempotent -/

theorem Contains_Add_self {K V : Type} [DecidableEq K] (m : TMap K V) (k : K) (v : V) :
    TMap.Contains (TMap.Add m k v) k = true := by
  simp [TMap.Contains, TMap.Find_Add_self]

theorem SaveBoneWeightMap_of_Contains (Cache : BoneWeightMapCache)
    (Component : USkeletalMeshComponent)
    (h : Cache.Contains Component.GetSkeletalMeshAsset.Id = true) :
    SaveBoneWeightMap Cache Component = Cache := by
  unfold SaveBoneWeightMap
  simp [h]

/-- Claim C8: a second `PreMorphInitialize` on the same mesh leaves the whole cache as the
first call left it, and a call on a mesh that already has an entry (whatever the entry
holds) returns the cache unchanged: the entry is kept, not rebuilt or replaced. -/
theorem PreMorphInitialize_idempotent (Cache : BoneWeightMapCache)
    (Component : USkeletalMeshComponent) (Existing : TMap Int FBoneWeightMap) :
    PreMorphInitialize (PreMorphInitialize Cache Component) Component =
      PreMorphInitialize Cache Component ∧
    PreMorphInitialize (Cache.Add Component.GetSkeletalMeshAsset.Id Existing) Component =
      Cache.Add Component.GetSkeletalMeshAsset.Id Existing := by
  refine ⟨?_, SaveBoneWeightMap_of_Contains _ _ (Contains_Add_self _ _ _)⟩
  unfold PreMorphInitialize
  by_cases hv : Component.GetSkeletalMeshAsset.IsValidLowLevelFast = true
  · by_cases hc : Cache.Contains Component.GetSkeletalMeshAsset.Id = true
    · rw [SaveBoneWeightMap_of_Contains _ _ hc, SaveBoneWeightMap_of_Contains _ _ hc]
    · apply SaveBoneWeightMap_of_Contains
      unfold SaveBoneWeightMap
      simp only [hv, hc, Bool.not_true, Bool.false_eq_true, if_false]
      exact Contains_Add_self _ _ _
  · unfold SaveBoneWeightMap
    simp [hv]

/-! ## Claims C9 and C10: `SetMorph` on the active morph set -/

theorem CachedMorphs_CacheTranslation (self : UMorphToSkeletonComponent)
    (Component : USkeletalMeshComponent) (MorphTarget : FName) (MorphValue : ℚ) :
    (CacheTranslation self Component MorphTarget MorphValue).CachedMorphs = self.CachedMorphs := by
  unfold CacheTranslation
  split
  · rfl
  · split
    · rfl
    · split <;> rfl

theorem IsNearlyZero_zero : IsNearlyZero 0 = true := by
  simp [IsNearlyZero, UE_SMALL_NUMBER]

theorem CacheTranslation_zero (self : UMorphToSkeletonComponent)
    (Component : USkeletalMeshComponent) (MorphTarget : FName) :
    CacheTranslation self Component MorphTarget 0 = self := by
  unfold CacheTranslation
  simp [IsNearlyZero_zero]

theorem CachedMorphs_SetMorph (self : UMorphToSkeletonComponent)
    (Component : USkeletalMeshComponent) (MorphTarget : FName) (MorphValue : ℚ) :
    (SetMorph self Component MorphTarget MorphValue).CachedMorphs =
      self.CachedMorphs.Add MorphTarget MorphValue := by
  unfold SetMorph
  simp only [CachedMorphs_CacheTranslation]

/-- Claim C9, evaluated on a clean instance and a mesh without the morph target
"Missing": `SetMorph` leaves the accumulator and the affected vertex set empty but
records the name with weight 1 in `CachedMorphs`, so the instance state has changed. -/
theorem SetMorph_unknown_target_recorded :
    TwoBoneComponent.GetSkeletalMeshAsset.FindMorphTarget "Missing" = none ∧
    (SetMorph UMorphToSkeletonComponent.Clean TwoBoneComponent "Missing" 1).CachedMorphs =
      [("Missing", 1)] ∧
    UMorphToSkeletonComponent.Clean.CachedMorphs = [] ∧
    (SetMorph UMorphToSkeletonComponent.Clean TwoBoneComponent "Missing" 1).CachedTotalTranslations =
      [] ∧
    (SetMorph UMorphToSkeletonComponent.Clean TwoBoneComponent "Missing" 1).CachedAffectedVertices =
      [] := by
  decide!

/-- Claim C10: calling `SetMorph` twice in a row with the same target and weight yields the
same instance state (active morph set, accumulator, affected vertex set and every other
field) as calling it once. -/
theorem SetMorph_repeat_idempotent (self : UMorphToSkeletonComponent)
    (Component : USkeletalMeshComponent) (MorphTarget : FName) (MorphValue : ℚ) :
    SetMorph (SetMorph self Component MorphTarget MorphValue) Component MorphTarget MorphValue =
      SetMorph self Component MorphTarget MorphValue := by
  have h1 := CachedMorphs_SetMorph self Component MorphTarget MorphValue
  have h2 : (SetMorph self Component MorphTarget MorphValue).CachedMorphs.Find MorphTarget =
      some MorphValue := by
    rw [h1, TMap.Find_Add_self]
  generalize SetMorph self Component MorphTarget MorphValue = s at h2
  unfold SetMorph
  simp only [h2, Option.getD_some, sub_self, CacheTranslation_zero, TMap.Add_eq_self _ h2]

/-! ## Claim C7: soundness of the bone weight index -/

/-- A property that holds initially and is kept by every step of a fold holds at its end. -/
theorem foldl_invariant {α β : Type} (P : β → Prop) (f : β → α → β) (L : List α) (b : β)
    (h0 : P b) (hstep : ∀ b a, a ∈ L → P b → P (f b a)) : P (L.foldl f b) := by
  induction L generalizing b with
  | nil => exact h0
  | cons x L ih =>
    simp only [List.foldl_cons]
    exact ih _ (hstep b x (List.mem_cons_self _ _) h0)
      (fun b a ha hb => hstep b a (List.mem_cons_of_mem _ ha) hb)

theorem TMap.mem_Add {K V : Type} [DecidableEq K] (m : TMap K V) (k : K) (v : V) (e : K × V)
    (h : e ∈ TMap.Add m k v) : e ∈ m ∨ e = (k, v) := by
  induction m with
  | nil =>
    right
    simpa [TMap.Add] using h
  | cons x m ih =>
    obtain ⟨k1, v1⟩ := x
    by_cases h1 : k1 = k
    · simp only [TMap.Add, h1, if_true, List.mem_cons] at h
      rcases h with h | h
      · right; exact h
      · left; exact List.mem_cons_of_mem _ h
    · simp only [TMap.Add, h1, if_false, List.mem_cons] at h
      rcases h with h | h
      · left; rw [h]; exact List.mem_cons_self _ _
      · rcases ih h with h2 | h2
        · left; exact List.mem_cons_of_mem _ h2
        · right; exact h2

theorem ResolveInfluence_eq_some_iff (SkinWeightBuffer : FSkinWeightVertexBuffer)
    (Section : FSkelMeshRenderSection) (VertexIndex InfluenceIndex : Nat) (Bone : Int)
    (Weight : ℚ) :
    ResolveInfluence SkinWeightBuffer Section VertexIndex InfluenceIndex = some (Bone, Weight) ↔
      SkinWeightBuffer.GetBoneIndex VertexIndex InfluenceIndex ≠ INDEX_NONE ∧
      0 ≤ SkinWeightBuffer.GetBoneIndex VertexIndex InfluenceIndex ∧
      SkinWeightBuffer.GetBoneIndex VertexIndex InfluenceIndex < (Section.BoneMap.length : Int) ∧
      (Section.BoneMap.get? (SkinWeightBuffer.GetBoneIndex VertexIndex InfluenceIndex).toNat).map
        Int.ofNat = some Bone ∧
      Weight = (SkinWeightBuffer.GetBoneWeight VertexIndex InfluenceIndex : ℚ) / 65535 := by
  unfold ResolveInfluence
  by_cases h1 : SkinWeightBuffer.GetBoneIndex VertexIndex InfluenceIndex = INDEX_NONE
  · simp [h1]
  · by_cases h2 : SkinWeightBuffer.GetBoneIndex VertexIndex InfluenceIndex < 0 ∨
        SkinWeightBuffer.GetBoneIndex VertexIndex InfluenceIndex ≥ (Section.BoneMap.length : Int)
    · simp only [h1, h2, if_true, if_false, ne_eq, not_false_eq_true, true_and]
      constructor
      · intro h
        cases h
      · rintro ⟨h3, h4, -⟩
        rcases h2 with h2 | h2 <;> omega
    · have h3 : 0 ≤ SkinWeightBuffer.GetBoneIndex VertexIndex InfluenceIndex := by omega
      have h4 : SkinWeightBuffer.GetBoneIndex VertexIndex InfluenceIndex <
          (Section.BoneMap.length : Int) := by omega
      have h5 : (SkinWeightBuffer.GetBoneIndex VertexIndex InfluenceIndex).toNat <
          Section.BoneMap.length := by omega
      simp only [h1, h2, if_false, ne_eq, not_false_eq_true, h3, h4, true_and, Option.some.injEq,
        Prod.mk.injEq, List.getD_eq_getElem?_getD, List.get?_eq_getElem?,
        List.getElem?_eq_getElem h5, Option.getD_some, Option.map_some']
      constructor
      · rintro ⟨h6, h7⟩
        exact ⟨h6, h7.symm⟩
      · rintro ⟨h6, h7⟩
        exact ⟨h6, h7.symm⟩

theorem mem_VertexIndices (Section : FSkelMeshRenderSection) (VertexIndex : Nat) :
    VertexIndex ∈ Section.VertexIndices ↔ Section.InRange VertexIndex = true := by
  unfold FSkelMeshRenderSection.VertexIndices FSkelMeshRenderSection.InRange
  simp only [List.mem_range'_1, Bool.and_eq_true, decide_eq_true_eq]
  constructor
  · rintro ⟨h1, h2⟩
    exact ⟨h1, by omega⟩
  · rintro ⟨h1, h2⟩
    exact ⟨h1, by omega⟩

/-- Every entry of the map built by `SaveBoneWeightMap` has a positive weight and comes
from a valid influence slot of its vertex in a section that holds the vertex. -/
theorem BuildBoneMapVertexWeights_sound (LODRenderData : FSkeletalMeshLODRenderData) :
    IndexSound LODRenderData (BuildBoneMapVertexWeights LODRenderData) := by
  unfold BuildBoneMapVertexWeights
  apply foldl_invariant (IndexSound LODRenderData)
  · intro b WM h
    simp at h
  · intro m Section hS hm
    unfold SaveSection
    apply foldl_invariant (IndexSound LODRenderData) _ _ _ hm
    intro m i hi hm
    unfold SaveVertex
    apply foldl_invariant (IndexSound LODRenderData) _ _ _ hm
    intro m slot hslot hm
    unfold SaveInfluence
    split
    · exact hm
    · rename_i ActualBone W hres
      split
      · exact hm
      · rename_i hW
        intro b WM hmem v w hvw
        rcases TMap.mem_Add _ _ _ _ hmem with h | h
        · exact hm b WM h v w hvw
        · cases h
          rcases TMap.mem_Add _ _ _ _ hvw with h2 | h2
          · cases hf : TMap.Find m ActualBone with
            | none =>
              rw [hf] at h2
              simp at h2
            | some WM0 =>
              rw [hf] at h2
              exact hm ActualBone WM0 (TMap.mem_of_Find _ hf) v w h2
          · cases h2
            refine ⟨lt_of_not_ge hW, Section, hS, (mem_VertexIndices _ _).mp hi, slot, ?_⟩
            have := (ResolveInfluence_eq_some_iff _ _ _ _ _ _).mp hres
            exact ⟨List.mem_range.mp hslot, this⟩

/-- Claim C7 (indexer soundness): every entry (bone, vertex, weight) of the index that
`SaveBoneWeightMap` builds and stores for a mesh has weight > 0 and comes from an
influence slot of that vertex, in a section holding the vertex, whose section-local bone
index is not `INDEX_NONE`, lies within the section's bone map and maps through it to that
bone; so no entry has weight <= 0 or an invalid bone index. -/
theorem index_sound (Cache : BoneWeightMapCache) (Component : USkeletalMeshComponent)
    (Index : TMap Int FBoneWeightMap) (Bone : Int) (WeightMap : FBoneWeightMap)
    (VertexIndex : Nat) (Weight : ℚ)
    (hvalid : Component.GetSkeletalMeshAsset.IsValidLowLevelFast = true)
    (hnew : Cache.Contains Component.GetSkeletalMeshAsset.Id = false)
    (hidx : (SaveBoneWeightMap Cache Component).Find Component.GetSkeletalMeshAsset.Id =
      some Index)
    (hb : (Bone, WeightMap) ∈ Index)
    (hv : (VertexIndex, Weight) ∈ WeightMap.VertexWeight) :
    Weight > 0 ∧ ∃ Section ∈ Component.GetSkeletalMeshAsset.LODRenderData.RenderSections,
      Section.InRange VertexIndex = true ∧
      ∃ InfluenceIndex,
        EntryFromSlot Component.GetSkeletalMeshAsset.LODRenderData.SkinWeightVertexBuffer Section
          VertexIndex InfluenceIndex Bone Weight := by
  have h1 : SaveBoneWeightMap Cache Component = Cache.Add Component.GetSkeletalMeshAsset.Id
      (BuildBoneMapVertexWeights Component.GetSkeletalMeshAsset.LODRenderData) := by
    unfold SaveBoneWeightMap
    simp [hvalid, hnew]
  rw [h1, TMap.Find_Add_self] at hidx
  cases hidx
  exact BuildBoneMapVertexWeights_sound _ _ _ hb _ _ hv

/-- Witness of claim C7: the index of the mesh of `DilutionComponent` holds vertex 0 under
bone 0 with weight 3/5, which is positive and comes from a valid slot. -/
theorem index_sound_witness :
    DilutionComponent.GetSkeletalMeshAsset.IsValidLowLevelFast = true ∧
    TMap.Contains ([] : BoneWeightMapCache) DilutionComponent.GetSkeletalMeshAsset.Id = false ∧
    (SaveBoneWeightMap [] DilutionComponent).Find DilutionComponent.GetSkeletalMeshAsset.Id =
      some [(0, ⟨[(0, 3 / 5), (1, 2 / 5)]⟩)] ∧
    ((3 / 5 : ℚ) > 0 ∧
      ∃ Section ∈ DilutionComponent.GetSkeletalMeshAsset.LODRenderData.RenderSections,
      Section.InRange 0 = true ∧
      ∃ InfluenceIndex,
        EntryFromSlot DilutionComponent.GetSkeletalMeshAsset.LODRenderData.SkinWeightVertexBuffer
          Section 0 InfluenceIndex 0 (3 / 5)) :=
  ⟨by decide, by decide, by decide!,
    index_sound [] DilutionComponent [(0, ⟨[(0, 3 / 5), (1, 2 / 5)]⟩)] 0
      ⟨[(0, 3 / 5), (1, 2 / 5)]⟩ 0 (3 / 5) (by decide) (by decide) (by decide!)
      (by decide!) (by decide!)⟩

/-! ## `CacheTranslation` as a fold over the visits -/

theorem foldl_flatMap {α β γ : Type} (f : γ → β → γ) (g : α → List β) (L : List α) (s : γ) :
    (L.flatMap g).foldl f s = L.foldl (fun s x => (g x).foldl f s) s := by
  induction L generalizing s with
  | nil => rfl
  | cons x L ih => simp [List.flatMap_cons, List.foldl_append, ih]

theorem foldl_filterMap_eq {α β γ : Type} (f : γ → β → γ) (g : α → Option β) (L : List α)
    (s : γ) :
    (L.filterMap g).foldl f s =
      L.foldl (fun s x => match g x with
        | none => s
        | some y => f s y) s := by
  induction L generalizing s with
  | nil => rfl
  | cons x L ih =>
    cases h : g x with
    | none => simp [List.filterMap_cons, h, ih]
    | some y => simp [List.filterMap_cons, h, ih]

theorem foldl_filter_eq {α γ : Type} (f : γ → α → γ) (p : α → Bool) (L : List α) (s : γ) :
    (L.filter p).foldl f s = L.foldl (fun s x => if p x = true then f s x else s) s := by
  induction L generalizing s with
  | nil => rfl
  | cons x L ih =>
    cases h : p x with
    | false => simp [List.filter_cons, h, ih]
    | true => simp [List.filter_cons, h, ih]

theorem foldl_congr_fun {α γ : Type} (f g : γ → α → γ) (L : List α) (s : γ)
    (h : ∀ s x, f s x = g s x) : L.foldl f s = L.foldl g s := by
  have : f = g := funext fun s => funext fun x => h s x
  rw [this]

theorem CacheInfluence_foldl (SkinWeightBuffer : FSkinWeightVertexBuffer)
    (Section : FSkelMeshRenderSection) (VertexIndex : Nat) (PositionDelta : FVector3f)
    (bAlreadyAdded : Bool) (Totals : TMap Int (ℚ × FVector3f)) :
    (List.range SkinWeightBuffer.GetMaxBoneInfluences).foldl
      (CacheInfluence SkinWeightBuffer Section VertexIndex PositionDelta bAlreadyAdded) Totals =
    (Influences SkinWeightBuffer Section VertexIndex).foldl
      (fun Totals bw => AddToTotals Totals bw.1 (!bAlreadyAdded) bw.2 (bw.2 • PositionDelta))
      Totals := by
  unfold Influences
  rw [foldl_filterMap_eq]
  apply foldl_congr_fun
  intro T slot
  unfold CacheInfluence
  split <;> simp_all

theorem CacheDelta_eq (SkinWeightBuffer : FSkinWeightVertexBuffer)
    (Section : FSkelMeshRenderSection) (MorphValue : ℚ)
    (State : TSet × TMap Int (ℚ × FVector3f)) (Delta : FMorphTargetDelta) :
    CacheDelta SkinWeightBuffer Section MorphValue State Delta =
      if Section.InRange Delta.SourceIdx = true then
        CacheVisit SkinWeightBuffer MorphValue State (Section, Delta)
      else State := by
  unfold CacheDelta CacheVisit
  cases h : Section.InRange Delta.SourceIdx with
  | false => simp [h]
  | true => simp [h, CacheInfluence_foldl]

/-- The loops of `CacheTranslation` are one fold of `CacheVisit` over the visits. -/
theorem CacheMorphLOD_eq_foldl (LODRenderData : FSkeletalMeshLODRenderData)
    (MorphLOD0 : FMorphTargetLODModel) (MorphValue : ℚ)
    (State : TSet × TMap Int (ℚ × FVector3f)) :
    CacheMorphLOD LODRenderData MorphLOD0 MorphValue State =
      (Visits LODRenderData MorphLOD0).foldl
        (CacheVisit LODRenderData.SkinWeightVertexBuffer MorphValue) State := by
  unfold CacheMorphLOD Visits
  rw [foldl_flatMap]
  apply foldl_congr_fun
  intro s idx
  unfold CacheSection
  cases hc : MorphLOD0.SectionIndices.contains (idx : Int) with
  | false => simp
  | true =>
    cases hg : LODRenderData.RenderSections.get? idx with
    | none => simp [hg]
    | some Section =>
      simp only [Bool.not_true, Bool.false_eq_true, if_false, if_true, hg]
      rw [List.foldl_map, foldl_filter_eq]
      apply foldl_congr_fun
      intro s Delta
      rw [CacheDelta_eq]

/-! ## Key lists -/

theorem mem_InsertKey {K : Type} [DecidableEq K] (l : List K) (k x : K) :
    x ∈ InsertKey l k ↔ x ∈ l ∨ x = k := by
  unfold InsertKey
  split
  · constructor
    · intro h; exact Or.inl h
    · rintro (h | h)
      · exact h
      · subst h; assumption
  · simp

theorem mem_foldl_InsertKey {K : Type} [DecidableEq K] (L l : List K) (x : K) :
    x ∈ L.foldl InsertKey l ↔ x ∈ l ∨ x ∈ L := by
  induction L generalizing l with
  | nil => simp
  | cons k L ih =>
    simp only [List.foldl_cons, ih, mem_InsertKey, List.mem_cons]
    tauto

theorem foldl_InsertKey_of_subset {K : Type} [DecidableEq K] (L l : List K)
    (h : ∀ x ∈ L, x ∈ l) : L.foldl InsertKey l = l := by
  induction L with
  | nil => rfl
  | cons k L ih =>
    simp only [List.foldl_cons]
    have hk : k ∈ l := h k (List.mem_cons_self _ _)
    rw [show InsertKey l k = l from if_pos hk]
    exact ih (fun x hx => h x (List.mem_cons_of_mem _ hx))

theorem Nodup_InsertKey {K : Type} [DecidableEq K] (l : List K) (k : K) (h : l.Nodup) :
    (InsertKey l k).Nodup := by
  unfold InsertKey
  split
  · exact h
  · rename_i hk
    exact List.Nodup.append h (List.nodup_singleton k) (by simpa using hk)

theorem Nodup_foldl_InsertKey {K : Type} [DecidableEq K] (L l : List K) (h : l.Nodup) :
    (L.foldl InsertKey l).Nodup := by
  induction L generalizing l with
  | nil => exact h
  | cons k L ih => exact ih _ (Nodup_InsertKey l k h)

theorem foldl_InsertKey_idem {K : Type} [DecidableEq K] (L l : List K) :
    L.foldl InsertKey (L.foldl InsertKey l) = L.foldl InsertKey l :=
  foldl_InsertKey_of_subset L _ (fun x hx => (mem_foldl_InsertKey L l x).mpr (Or.inr hx))

theorem FindOrAdd_fst (s : TSet) (v : Nat) : (TSet.FindOrAdd s v).1 = InsertKey s v := by
  unfold TSet.FindOrAdd InsertKey
  split <;> rfl

theorem FindOrAdd_snd (s : TSet) (v : Nat) : (TSet.FindOrAdd s v).2 = decide (v ∈ s) := by
  unfold TSet.FindOrAdd
  split <;> simp_all

theorem Keys_AddToTotals_InsertKey (Totals : TMap Int (ℚ × FVector3f)) (Bone : Int)
    (bAddWeight : Bool) (Weight : ℚ) (TotalTransform : FVector3f) :
    TMap.Keys (AddToTotals Totals Bone bAddWeight Weight TotalTransform) =
      InsertKey (TMap.Keys Totals) Bone := by
  rw [Keys_AddToTotals]
  rfl

/-- Two maps with the same distinct keys and the same values under them are equal. -/
theorem TMap.ext_of_Keys {K V : Type} [DecidableEq K] (m m' : TMap K V)
    (hk : TMap.Keys m = TMap.Keys m') (hnd : (TMap.Keys m).Nodup)
    (hf : ∀ k ∈ TMap.Keys m, TMap.Find m k = TMap.Find m' k) : m = m' := by
  induction m generalizing m' with
  | nil =>
    cases m' with
    | nil => rfl
    | cons e m' => simp [TMap.Keys] at hk
  | cons e m ih =>
    cases m' with
    | nil => simp [TMap.Keys] at hk
    | cons e' m' =>
      obtain ⟨k1, v1⟩ := e
      obtain ⟨k2, v2⟩ := e'
      simp only [TMap.Keys, List.map_cons, List.cons.injEq] at hk
      obtain ⟨hk1, hk2⟩ := hk
      subst hk1
      simp only [TMap.Keys, List.map_cons, List.nodup_cons] at hnd
      have h1 := hf k1 (by simp [TMap.Keys])
      simp only [TMap.Find, if_true, Option.some.injEq] at h1
      subst h1
      congr 1
      apply ih m' hk2 hnd.2
      intro k hkm
      have h2 := hf k (by simp only [TMap.Keys, List.map_cons]; exact List.mem_cons_of_mem _ hkm)
      have hne : k1 ≠ k := fun e => hnd.1 (e ▸ hkm)
      simpa [TMap.Find, hne] using h2

theorem Find_eq_some_TotalsOf (Totals : TMap Int (ℚ × FVector3f)) (Bone : Int)
    (h : Bone ∈ TMap.Keys Totals) : Totals.Find Bone = some (TotalsOf Totals Bone) := by
  unfold TotalsOf
  cases hf : Totals.Find Bone with
  | none => exact absurd h ((TMap.Find_eq_none_iff _ _).mp hf)
  | some x => rfl

/-- Two accumulators with the same distinct keys and the same totals for every bone are
equal. -/
theorem Totals_ext (T T' : TMap Int (ℚ × FVector3f)) (hk : TMap.Keys T = TMap.Keys T')
    (hnd : (TMap.Keys T).Nodup)
    (hw : ∀ b, WeightOf T b = WeightOf T' b)
    (hd : ∀ b, DisplacementOf T b = DisplacementOf T' b) : T = T' := by
  apply TMap.ext_of_Keys T T' hk hnd
  intro k hkm
  rw [Find_eq_some_TotalsOf T k hkm, Find_eq_some_TotalsOf T' k (hk ▸ hkm)]
  congr 1
  exact Prod.ext (hw k) (hd k)

/-! ## One visit -/

theorem WeightOf_AddToTotals (Totals : TMap Int (ℚ × FVector3f)) (Bone Bone' : Int)
    (bAddWeight : Bool) (Weight : ℚ) (TotalTransform : FVector3f) :
    WeightOf (AddToTotals Totals Bone bAddWeight Weight TotalTransform) Bone' =
      WeightOf Totals Bone' + if Bone = Bone' ∧ bAddWeight = true then Weight else 0 := by
  unfold WeightOf
  rw [TotalsOf_AddToTotals]
  by_cases h : Bone' = Bone
  · subst h
    cases bAddWeight <;> simp
  · have h' : ¬ Bone = Bone' := fun e => h e.symm
    simp [h, h']

theorem DisplacementOf_AddToTotals (Totals : TMap Int (ℚ × FVector3f)) (Bone Bone' : Int)
    (bAddWeight : Bool) (Weight : ℚ) (TotalTransform : FVector3f) :
    DisplacementOf (AddToTotals Totals Bone bAddWeight Weight TotalTransform) Bone' =
      DisplacementOf Totals Bone' + if Bone = Bone' then TotalTransform else 0 := by
  unfold DisplacementOf
  rw [TotalsOf_AddToTotals]
  by_cases h : Bone' = Bone
  · subst h
    simp
  · have h' : ¬ Bone = Bone' := fun e => h e.symm
    simp [h, h']

theorem Keys_foldl_AddToTotals (L : List (Int × ℚ)) (bAddWeight : Bool)
    (d : Int × ℚ → FVector3f) (Totals : TMap Int (ℚ × FVector3f)) :
    TMap.Keys (L.foldl (fun T bw => AddToTotals T bw.1 bAddWeight bw.2 (d bw)) Totals) =
      (L.map Prod.fst).foldl InsertKey (TMap.Keys Totals) := by
  induction L generalizing Totals with
  | nil => rfl
  | cons x L ih =>
    simp only [List.foldl_cons, List.map_cons]
    rw [ih, Keys_AddToTotals_InsertKey]

theorem WeightOf_foldl_AddToTotals (L : List (Int × ℚ)) (bAddWeight : Bool)
    (d : Int × ℚ → FVector3f) (Totals : TMap Int (ℚ × FVector3f)) (Bone : Int) :
    WeightOf (L.foldl (fun T bw => AddToTotals T bw.1 bAddWeight bw.2 (d bw)) Totals) Bone =
      WeightOf Totals Bone +
        if bAddWeight = true then (L.map (fun bw => if bw.1 = Bone then bw.2 else 0)).sum
        else 0 := by
  induction L generalizing Totals with
  | nil => simp
  | cons x L ih =>
    simp only [List.foldl_cons, List.map_cons, List.sum_cons]
    rw [ih, WeightOf_AddToTotals]
    cases bAddWeight
    · simp
    · by_cases h : x.1 = Bone
      · simp [h, add_assoc]
      · simp [h]

theorem DisplacementOf_foldl_AddToTotals (L : List (Int × ℚ)) (bAddWeight : Bool)
    (PositionDelta : FVector3f) (Totals : TMap Int (ℚ × FVector3f)) (Bone : Int) :
    DisplacementOf
      (L.foldl (fun T bw => AddToTotals T bw.1 bAddWeight bw.2 (bw.2 • PositionDelta)) Totals)
      Bone =
      DisplacementOf Totals Bone +
        (L.map (fun bw => if bw.1 = Bone then bw.2 else 0)).sum • PositionDelta := by
  induction L generalizing Totals with
  | nil => simp
  | cons x L ih =>
    simp only [List.foldl_cons, List.map_cons, List.sum_cons]
    rw [ih, DisplacementOf_AddToTotals]
    by_cases h : x.1 = Bone
    · simp only [h, if_true, add_smul, add_assoc]
    · simp only [h, if_false, add_zero, zero_add]

theorem CacheVisit_fst (SkinWeightBuffer : FSkinWeightVertexBuffer) (MorphValue : ℚ)
    (State : TSet × TMap Int (ℚ × FVector3f))
    (Visit : FSkelMeshRenderSection × FMorphTargetDelta) :
    (CacheVisit SkinWeightBuffer MorphValue State Visit).1 =
      InsertKey State.1 Visit.2.SourceIdx := by
  unfold CacheVisit
  exact FindOrAdd_fst _ _

theorem Keys_CacheVisit (SkinWeightBuffer : FSkinWeightVertexBuffer) (MorphValue : ℚ)
    (State : TSet × TMap Int (ℚ × FVector3f))
    (Visit : FSkelMeshRenderSection × FMorphTargetDelta) :
    TMap.Keys (CacheVisit SkinWeightBuffer MorphValue State Visit).2 =
      ((Influences SkinWeightBuffer Visit.1 Visit.2.SourceIdx).map Prod.fst).foldl InsertKey
        (TMap.Keys State.2) := by
  unfold CacheVisit
  exact Keys_foldl_AddToTotals _ _ _ _

theorem WeightOf_CacheVisit (SkinWeightBuffer : FSkinWeightVertexBuffer) (MorphValue : ℚ)
    (State : TSet × TMap Int (ℚ × FVector3f))
    (Visit : FSkelMeshRenderSection × FMorphTargetDelta) (Bone : Int) :
    WeightOf (CacheVisit SkinWeightBuffer MorphValue State Visit).2 Bone =
      WeightOf State.2 Bone +
        if Visit.2.SourceIdx ∈ State.1 then 0
        else SlotWeight SkinWeightBuffer Visit.1 Visit.2.SourceIdx Bone := by
  unfold CacheVisit SlotWeight
  simp only []
  rw [WeightOf_foldl_AddToTotals, FindOrAdd_snd]
  by_cases h : Visit.2.SourceIdx ∈ State.1 <;> simp [h]

theorem DisplacementOf_CacheVisit (SkinWeightBuffer : FSkinWeightVertexBuffer)
    (MorphValue : ℚ) (State : TSet × TMap Int (ℚ × FVector3f))
    (Visit : FSkelMeshRenderSection × FMorphTargetDelta) (Bone : Int) :
    DisplacementOf (CacheVisit SkinWeightBuffer MorphValue State Visit).2 Bone =
      DisplacementOf State.2 Bone +
        MorphValue • (SlotWeight SkinWeightBuffer Visit.1 Visit.2.SourceIdx Bone •
          Visit.2.PositionDelta) := by
  unfold CacheVisit SlotWeight
  simp only []
  rw [DisplacementOf_foldl_AddToTotals, smul_comm]

/-! ## A whole morph target -/

theorem FirstTouchWeight_of_subset (SkinWeightBuffer : FSkinWeightVertexBuffer) (Bone : Int)
    (L : List (FSkelMeshRenderSection × FMorphTargetDelta)) (Affected : TSet)
    (h : ∀ V ∈ L, V.2.SourceIdx ∈ Affected) :
    FirstTouchWeight SkinWeightBuffer Bone Affected L = 0 := by
  induction L generalizing Affected with
  | nil => rfl
  | cons V L ih =>
    have hV : V.2.SourceIdx ∈ Affected := h V (List.mem_cons_self _ _)
    simp only [FirstTouchWeight, hV, if_true, zero_add]
    apply ih
    intro V' hV'
    exact (mem_InsertKey _ _ _).mpr (Or.inl (h V' (List.mem_cons_of_mem _ hV')))

theorem foldl_CacheVisit_fst (SkinWeightBuffer : FSkinWeightVertexBuffer) (MorphValue : ℚ)
    (L : List (FSkelMeshRenderSection × FMorphTargetDelta))
    (State : TSet × TMap Int (ℚ × FVector3f)) :
    (L.foldl (CacheVisit SkinWeightBuffer MorphValue) State).1 =
      (L.map fun V => V.2.SourceIdx).foldl InsertKey State.1 := by
  induction L generalizing State with
  | nil => rfl
  | cons V L ih =>
    simp only [List.foldl_cons, List.map_cons]
    rw [ih, CacheVisit_fst]

theorem Keys_foldl_CacheVisit (SkinWeightBuffer : FSkinWeightVertexBuffer) (MorphValue : ℚ)
    (L : List (FSkelMeshRenderSection × FMorphTargetDelta))
    (State : TSet × TMap Int (ℚ × FVector3f)) :
    TMap.Keys (L.foldl (CacheVisit SkinWeightBuffer MorphValue) State).2 =
      (L.flatMap fun V =>
        (Influences SkinWeightBuffer V.1 V.2.SourceIdx).map Prod.fst).foldl InsertKey
        (TMap.Keys State.2) := by
  induction L generalizing State with
  | nil => rfl
  | cons V L ih =>
    simp only [List.foldl_cons, List.flatMap_cons, List.foldl_append]
    rw [ih, Keys_CacheVisit]

theorem WeightOf_foldl_CacheVisit (SkinWeightBuffer : FSkinWeightVertexBuffer)
    (MorphValue : ℚ) (L : List (FSkelMeshRenderSection × FMorphTargetDelta))
    (State : TSet × TMap Int (ℚ × FVector3f)) (Bone : Int) :
    WeightOf (L.foldl (CacheVisit SkinWeightBuffer MorphValue) State).2 Bone =
      WeightOf State.2 Bone + FirstTouchWeight SkinWeightBuffer Bone State.1 L := by
  induction L generalizing State with
  | nil => simp [FirstTouchWeight]
  | cons V L ih =>
    simp only [List.foldl_cons, FirstTouchWeight]
    rw [ih, WeightOf_CacheVisit, CacheVisit_fst, add_assoc]

theorem DisplacementOf_foldl_CacheVisit (SkinWeightBuffer : FSkinWeightVertexBuffer)
    (MorphValue : ℚ) (L : List (FSkelMeshRenderSection × FMorphTargetDelta))
    (State : TSet × TMap Int (ℚ × FVector3f)) (Bone : Int) :
    DisplacementOf (L.foldl (CacheVisit SkinWeightBuffer MorphValue) State).2 Bone =
      DisplacementOf State.2 Bone +
        MorphValue • (L.map fun V =>
          SlotWeight SkinWeightBuffer V.1 V.2.SourceIdx Bone • V.2.PositionDelta).sum := by
  induction L generalizing State with
  | nil => simp
  | cons V L ih =>
    simp only [List.foldl_cons, List.map_cons, List.sum_cons]
    rw [ih, DisplacementOf_CacheVisit, smul_add, add_assoc]

theorem CacheMorphLOD_fst (LODRenderData : FSkeletalMeshLODRenderData)
    (MorphLOD0 : FMorphTargetLODModel) (MorphValue : ℚ)
    (State : TSet × TMap Int (ℚ × FVector3f)) :
    (CacheMorphLOD LODRenderData MorphLOD0 MorphValue State).1 =
      (VisitedVertices LODRenderData MorphLOD0).foldl InsertKey State.1 := by
  rw [CacheMorphLOD_eq_foldl, foldl_CacheVisit_fst]
  rfl

theorem Keys_CacheMorphLOD (LODRenderData : FSkeletalMeshLODRenderData)
    (MorphLOD0 : FMorphTargetLODModel) (MorphValue : ℚ)
    (State : TSet × TMap Int (ℚ × FVector3f)) :
    TMap.Keys (CacheMorphLOD LODRenderData MorphLOD0 MorphValue State).2 =
      (VisitedBones LODRenderData MorphLOD0).foldl InsertKey (TMap.Keys State.2) := by
  rw [CacheMorphLOD_eq_foldl, Keys_foldl_CacheVisit]
  rfl

theorem WeightOf_CacheMorphLOD (LODRenderData : FSkeletalMeshLODRenderData)
    (MorphLOD0 : FMorphTargetLODModel) (MorphValue : ℚ)
    (State : TSet × TMap Int (ℚ × FVector3f)) (Bone : Int) :
    WeightOf (CacheMorphLOD LODRenderData MorphLOD0 MorphValue State).2 Bone =
      WeightOf State.2 Bone +
        FirstTouchWeight LODRenderData.SkinWeightVertexBuffer Bone State.1
          (Visits LODRenderData MorphLOD0) := by
  rw [CacheMorphLOD_eq_foldl, WeightOf_foldl_CacheVisit]

theorem DisplacementOf_CacheMorphLOD (LODRenderData : FSkeletalMeshLODRenderData)
    (MorphLOD0 : FMorphTargetLODModel) (MorphValue : ℚ)
    (State : TSet × TMap Int (ℚ × FVector3f)) (Bone : Int) :
    DisplacementOf (CacheMorphLOD LODRenderData MorphLOD0 MorphValue State).2 Bone =
      DisplacementOf State.2 Bone +
        MorphValue • UnitDisplacement LODRenderData MorphLOD0 Bone := by
  rw [CacheMorphLOD_eq_foldl, DisplacementOf_foldl_CacheVisit]
  rfl

/-- The three early returns and the loops of `CacheTranslation`, in one case split. -/
theorem CacheTranslation_eq (self : UMorphToSkeletonComponent)
    (Component : USkeletalMeshComponent) (MorphTarget : FName) (MorphValue : ℚ) :
    CacheTranslation self Component MorphTarget MorphValue =
      if IsNearlyZero MorphValue = true then self
      else
        match FindMorphLOD0 Component MorphTarget with
        | none => self
        | some MorphLOD0 =>
          { self with
            CachedAffectedVertices :=
              (CacheMorphLOD Component.GetSkeletalMeshAsset.LODRenderData MorphLOD0 MorphValue
                (self.CachedAffectedVertices, self.CachedTotalTranslations)).1
            CachedTotalTranslations :=
              (CacheMorphLOD Component.GetSkeletalMeshAsset.LODRenderData MorphLOD0 MorphValue
                (self.CachedAffectedVertices, self.CachedTotalTranslations)).2 } := by
  unfold CacheTranslation FindMorphLOD0
  by_cases h0 : IsNearlyZero MorphValue = true
  · simp [h0]
  · simp only [h0, Bool.false_eq_true, if_false]
    cases hm : Component.GetSkeletalMeshAsset.FindMorphTarget MorphTarget with
    | none => rfl
    | some Morph =>
      cases hl : Morph.GetMorphLODModels with
      | nil => simp [hl]
      | cons lod rest => simp [hl]

theorem Totals_CacheTranslation (self : UMorphToSkeletonComponent)
    (Component : USkeletalMeshComponent) (MorphTarget : FName) (MorphValue : ℚ) :
    (CacheTranslation self Component MorphTarget MorphValue).CachedTotalTranslations =
      if IsNearlyZero MorphValue = true then self.CachedTotalTranslations
      else
        match FindMorphLOD0 Component MorphTarget with
        | none => self.CachedTotalTranslations
        | some MorphLOD0 =>
          (CacheMorphLOD Component.GetSkeletalMeshAsset.LODRenderData MorphLOD0 MorphValue
            (self.CachedAffectedVertices, self.CachedTotalTranslations)).2 := by
  rw [CacheTranslation_eq]
  split
  · rfl
  · cases FindMorphLOD0 Component MorphTarget <;> rfl

theorem Affected_CacheTranslation (self : UMorphToSkeletonComponent)
    (Component : USkeletalMeshComponent) (MorphTarget : FName) (MorphValue : ℚ) :
    (CacheTranslation self Component MorphTarget MorphValue).CachedAffectedVertices =
      if IsNearlyZero MorphValue = true then self.CachedAffectedVertices
      else
        match FindMorphLOD0 Component MorphTarget with
        | none => self.CachedAffectedVertices
        | some MorphLOD0 =>
          (CacheMorphLOD Component.GetSkeletalMeshAsset.LODRenderData MorphLOD0 MorphValue
            (self.CachedAffectedVertices, self.CachedTotalTranslations)).1 := by
  rw [CacheTranslation_eq]
  split
  · rfl
  · cases FindMorphLOD0 Component MorphTarget <;> rfl

theorem Totals_SetMorph (self : UMorphToSkeletonComponent)
    (Component : USkeletalMeshComponent) (MorphTarget : FName) (MorphValue : ℚ) :
    (SetMorph self Component MorphTarget MorphValue).CachedTotalTranslations =
      if IsNearlyZero (MorphValue - (self.CachedMorphs.Find MorphTarget).getD 0) = true then
        self.CachedTotalTranslations
      else
        match FindMorphLOD0 Component MorphTarget with
        | none => self.CachedTotalTranslations
        | some MorphLOD0 =>
          (CacheMorphLOD Component.GetSkeletalMeshAsset.LODRenderData MorphLOD0
            (MorphValue - (self.CachedMorphs.Find MorphTarget).getD 0)
            (self.CachedAffectedVertices, self.CachedTotalTranslations)).2 := by
  unfold SetMorph
  rw [Totals_CacheTranslation]

theorem Affected_SetMorph (self : UMorphToSkeletonComponent)
    (Component : USkeletalMeshComponent) (MorphTarget : FName) (MorphValue : ℚ) :
    (SetMorph self Component MorphTarget MorphValue).CachedAffectedVertices =
      if IsNearlyZero (MorphValue - (self.CachedMorphs.Find MorphTarget).getD 0) = true then
        self.CachedAffectedVertices
      else
        match FindMorphLOD0 Component MorphTarget with
        | none => self.CachedAffectedVertices
        | some MorphLOD0 =>
          (CacheMorphLOD Component.GetSkeletalMeshAsset.LODRenderData MorphLOD0
            (MorphValue - (self.CachedMorphs.Find MorphTarget).getD 0)
            (self.CachedAffectedVertices, self.CachedTotalTranslations)).1 := by
  unfold SetMorph
  rw [Affected_CacheTranslation]

/-! ## Claim C2: incremental equivalence -/

/-- Claim C2 fails as stated: with w1 = 1 and w2 = 0 the second `SetMorph` takes the
displacement back but keeps the entry of bone 0 with its weight, while a single
`SetMorph(target, 0)` on a clean instance returns at the `IsNearlyZero` guard and leaves
the accumulator empty. -/
theorem incremental_equivalence_counterexample :
    (SetMorph (SetMorph UMorphToSkeletonComponent.Clean DilutionComponent "Move" 1)
      DilutionComponent "Move" 0).CachedTotalTranslations = [(0, (3 / 5, (0, 0, 0)))] ∧
    (SetMorph UMorphToSkeletonComponent.Clean DilutionComponent "Move" 0).CachedTotalTranslations =
      [] ∧
    (SetMorph (SetMorph UMorphToSkeletonComponent.Clean DilutionComponent "Move" 1)
      DilutionComponent "Move" 0).CachedTotalTranslations ≠
    (SetMorph UMorphToSkeletonComponent.Clean DilutionComponent "Move" 0).CachedTotalTranslations :=
  ⟨by decide!, by decide!, by decide!⟩

/-- Claim C2 as amended: when w2 is not nearly zero and each of w1 and w2 - w1 is exactly
zero or not nearly zero, `SetMorph(target, w1)` followed by `SetMorph(target, w2)` on a
clean instance leaves the same per-bone accumulator (the same bones in the same order with
the same total weight and total displacement) as a single `SetMorph(target, w2)` on a
clean instance. -/
theorem incremental_equivalence (Component : USkeletalMeshComponent) (MorphTarget : FName)
    (w1 w2 : ℚ) (h2 : IsNearlyZero w2 = false)
    (h1 : w1 = 0 ∨ IsNearlyZero w1 = false)
    (h21 : w2 - w1 = 0 ∨ IsNearlyZero (w2 - w1) = false) :
    (SetMorph (SetMorph UMorphToSkeletonComponent.Clean Component MorphTarget w1)
      Component MorphTarget w2).CachedTotalTranslations =
    (SetMorph UMorphToSkeletonComponent.Clean Component MorphTarget w2).CachedTotalTranslations := by
  have hm1 : (SetMorph UMorphToSkeletonComponent.Clean Component MorphTarget w1).CachedMorphs.Find
      MorphTarget = some w1 := by
    rw [CachedMorphs_SetMorph, TMap.Find_Add_self]
  have hc : (UMorphToSkeletonComponent.Clean.CachedMorphs.Find MorphTarget).getD 0 = (0 : ℚ) := rfl
  have hT : ∀ w, (SetMorph UMorphToSkeletonComponent.Clean Component MorphTarget
      w).CachedTotalTranslations =
      if IsNearlyZero w = true then []
      else
        match FindMorphLOD0 Component MorphTarget with
        | none => []
        | some lod =>
          (CacheMorphLOD Component.GetSkeletalMeshAsset.LODRenderData lod w ([], [])).2 := by
    intro w
    rw [Totals_SetMorph, hc, sub_zero]
    rfl
  have hA : ∀ w, (SetMorph UMorphToSkeletonComponent.Clean Component MorphTarget
      w).CachedAffectedVertices =
      if IsNearlyZero w = true then []
      else
        match FindMorphLOD0 Component MorphTarget with
        | none => []
        | some lod =>
          (CacheMorphLOD Component.GetSkeletalMeshAsset.LODRenderData lod w ([], [])).1 := by
    intro w
    rw [Affected_SetMorph, hc, sub_zero]
    rfl
  rw [Totals_SetMorph (SetMorph _ _ _ _), hm1, Option.getD_some, hT w2, hT w1, hA w1]
  cases hlod : FindMorphLOD0 Component MorphTarget with
  | none => simp
  | some lod =>
    simp only [h2, Bool.false_eq_true, if_false]
    rcases h1 with h1 | h1
    · subst h1
      simp [IsNearlyZero_zero, h2]
    · simp only [h1, Bool.false_eq_true, if_false]
      rcases h21 with h21 | h21
      · have hw : w2 = w1 := by linarith
        subst hw
        simp [IsNearlyZero_zero]
      · simp only [h21, Bool.false_eq_true, if_false]
        apply Totals_ext
        · rw [Keys_CacheMorphLOD, Keys_CacheMorphLOD, Keys_CacheMorphLOD, foldl_InsertKey_idem]
        · rw [Keys_CacheMorphLOD]
          apply Nodup_foldl_InsertKey
          rw [Keys_CacheMorphLOD]
          exact Nodup_foldl_InsertKey _ _ List.nodup_nil
        · intro b
          rw [WeightOf_CacheMorphLOD, WeightOf_CacheMorphLOD, WeightOf_CacheMorphLOD,
            FirstTouchWeight_of_subset _ _ _ (CacheMorphLOD _ _ _ _).1, add_zero]
          intro V hV
          rw [CacheMorphLOD_fst]
          exact (mem_foldl_InsertKey _ _ _).mpr (Or.inr (List.mem_map.mpr ⟨V, hV, rfl⟩))
        · intro b
          rw [DisplacementOf_CacheMorphLOD, DisplacementOf_CacheMorphLOD,
            DisplacementOf_CacheMorphLOD, add_assoc, ← add_smul]
          congr 2
          ring

/-- Witness of claim C2 as amended: with w1 = 1/2 and w2 = 1 both sequences leave bone 0
with total weight 3/5 and total displacement (3/5,0,0). -/
theorem incremental_equivalence_witness :
    IsNearlyZero 1 = false ∧ IsNearlyZero (1 / 2) = false ∧ IsNearlyZero (1 - 1 / 2) = false ∧
    (SetMorph (SetMorph UMorphToSkeletonComponent.Clean DilutionComponent "Move" (1 / 2))
      DilutionComponent "Move" 1).CachedTotalTranslations = [(0, (3 / 5, (3 / 5, 0, 0)))] ∧
    (SetMorph UMorphToSkeletonComponent.Clean DilutionComponent "Move" 1).CachedTotalTranslations =
      [(0, (3 / 5, (3 / 5, 0, 0)))] :=
  ⟨by decide!, by decide!, by decide!,
    (incremental_equivalence DilutionComponent "Move" (1 / 2) 1 (by decide!)
      (Or.inr (by decide!)) (Or.inr (by decide!))).trans (by decide!),
    by decide!⟩

/-! ## The zero-dilution pass on the totals -/

theorem sum_map_ite_eq_of_nodup {α : Type} [DecidableEq α] (L : List α) (a : α) (f : α → ℚ)
    (h : L.Nodup) : (L.map fun x => if x = a then f x else 0).sum = if a ∈ L then f a else 0 := by
  induction L with
  | nil => simp
  | cons x L ih =>
    simp only [List.nodup_cons] at h
    simp only [List.map_cons, List.sum_cons, ih h.2, List.mem_cons]
    by_cases hx : x = a
    · subst hx
      simp [h.1]
    · have hx' : ¬ a = x := fun e => hx e.symm
      simp [hx, hx']

theorem WeightOf_foldl_DiluteVertex (Affected : TSet) (Bone Bone' : Int) (L : List (Nat × ℚ))
    (Totals : TMap Int (ℚ × FVector3f)) :
    WeightOf (L.foldl (DiluteVertex Affected Bone) Totals) Bone' =
      WeightOf Totals Bone' +
        if Bone = Bone' then (L.map fun vw => if vw.1 ∈ Affected then 0 else vw.2).sum
        else 0 := by
  induction L generalizing Totals with
  | nil => simp
  | cons x L ih =>
    simp only [List.foldl_cons, List.map_cons, List.sum_cons]
    rw [ih]
    unfold DiluteVertex TSet.Contains
    by_cases hx : x.1 ∈ Affected
    · simp [hx]
    · simp only [hx, decide_False, Bool.false_eq_true, if_false, WeightOf_AddToTotals]
      by_cases hb : Bone = Bone'
      · simp [hb, add_assoc]
      · simp [hb]

theorem DisplacementOf_foldl_DiluteVertex (Affected : TSet) (Bone Bone' : Int)
    (L : List (Nat × ℚ)) (Totals : TMap Int (ℚ × FVector3f)) :
    DisplacementOf (L.foldl (DiluteVertex Affected Bone) Totals) Bone' =
      DisplacementOf Totals Bone' := by
  induction L generalizing Totals with
  | nil => rfl
  | cons x L ih =>
    simp only [List.foldl_cons]
    rw [ih]
    unfold DiluteVertex
    split
    · rfl
    · rw [DisplacementOf_AddToTotals]
      simp

theorem WeightOf_DiluteBone (Cache : BoneWeightMapCache) (Mesh : Nat) (Affected : TSet)
    (Totals : TMap Int (ℚ × FVector3f)) (Bone Bone' : Int) :
    WeightOf (DiluteBone Cache Mesh Affected Totals Bone) Bone' =
      WeightOf Totals Bone' +
        if Bone = Bone' then DilutionWeight Cache Mesh Affected Bone else 0 := by
  unfold DiluteBone DilutionWeight
  cases hC : Cache.Find Mesh with
  | none => simp
  | some Index =>
    cases hB : Index.Find Bone with
    | none => simp [hB]
    | some WM =>
      simp only [hB]
      exact WeightOf_foldl_DiluteVertex _ _ _ _ _

theorem DisplacementOf_DiluteBone (Cache : BoneWeightMapCache) (Mesh : Nat) (Affected : TSet)
    (Totals : TMap Int (ℚ × FVector3f)) (Bone Bone' : Int) :
    DisplacementOf (DiluteBone Cache Mesh Affected Totals Bone) Bone' =
      DisplacementOf Totals Bone' := by
  unfold DiluteBone
  cases hC : Cache.Find Mesh with
  | none => rfl
  | some Index =>
    cases hB : Index.Find Bone with
    | none => simp only [hB]
    | some WM =>
      simp only [hB]
      exact DisplacementOf_foldl_DiluteVertex _ _ _ _ _

theorem WeightOf_foldl_DiluteBone (Cache : BoneWeightMapCache) (Mesh : Nat) (Affected : TSet)
    (L : List Int) (Totals : TMap Int (ℚ × FVector3f)) (Bone' : Int) :
    WeightOf (L.foldl (DiluteBone Cache Mesh Affected) Totals) Bone' =
      WeightOf Totals Bone' +
        (L.map fun b => if b = Bone' then DilutionWeight Cache Mesh Affected b else 0).sum := by
  induction L generalizing Totals with
  | nil => simp
  | cons x L ih =>
    simp only [List.foldl_cons, List.map_cons, List.sum_cons]
    rw [ih, WeightOf_DiluteBone, add_assoc]

theorem DisplacementOf_foldl_DiluteBone (Cache : BoneWeightMapCache) (Mesh : Nat)
    (Affected : TSet) (L : List Int) (Totals : TMap Int (ℚ × FVector3f)) (Bone' : Int) :
    DisplacementOf (L.foldl (DiluteBone Cache Mesh Affected) Totals) Bone' =
      DisplacementOf Totals Bone' := by
  induction L generalizing Totals with
  | nil => rfl
  | cons x L ih =>
    simp only [List.foldl_cons]
    rw [ih, DisplacementOf_DiluteBone]

/-- The zero-dilution pass adds to every bone with an accumulator entry the index weights
of its vertices outside the affected vertex set, and nothing to any other bone. -/
theorem WeightOf_ZeroDilutionPass (Cache : BoneWeightMapCache) (Mesh : Nat) (Affected : TSet)
    (Totals : TMap Int (ℚ × FVector3f)) (Bone : Int) (hnd : (TMap.Keys Totals).Nodup) :
    WeightOf (ZeroDilutionPass Cache Mesh Affected Totals) Bone =
      WeightOf Totals Bone +
        if Bone ∈ TMap.Keys Totals then DilutionWeight Cache Mesh Affected Bone else 0 := by
  unfold ZeroDilutionPass
  rw [WeightOf_foldl_DiluteBone, sum_map_ite_eq_of_nodup _ _ _ hnd]

/-- The zero-dilution pass leaves every total displacement as it was. -/
theorem DisplacementOf_ZeroDilutionPass (Cache : BoneWeightMapCache) (Mesh : Nat)
    (Affected : TSet) (Totals : TMap Int (ℚ × FVector3f)) (Bone : Int) :
    DisplacementOf (ZeroDilutionPass Cache Mesh Affected Totals) Bone =
      DisplacementOf Totals Bone := by
  unfold ZeroDilutionPass
  rw [DisplacementOf_foldl_DiluteBone]

theorem FirstTouchWeight_of_nodup (SkinWeightBuffer : FSkinWeightVertexBuffer) (Bone : Int)
    (L : List (FSkelMeshRenderSection × FMorphTargetDelta)) (Affected : TSet)
    (hnd : (L.map fun V => V.2.SourceIdx).Nodup)
    (hdis : ∀ V ∈ L, V.2.SourceIdx ∉ Affected) :
    FirstTouchWeight SkinWeightBuffer Bone Affected L =
      (L.map fun V => SlotWeight SkinWeightBuffer V.1 V.2.SourceIdx Bone).sum := by
  induction L generalizing Affected with
  | nil => rfl
  | cons V L ih =>
    simp only [List.map_cons, List.nodup_cons, List.mem_map, not_exists, not_and] at hnd
    have hV : V.2.SourceIdx ∉ Affected := hdis V (List.mem_cons_self _ _)
    simp only [FirstTouchWeight, hV, if_false, List.map_cons, List.sum_cons]
    congr 1
    apply ih _ hnd.2
    intro V' hV' hmem
    rcases (mem_InsertKey _ _ _).mp hmem with h | h
    · exact hdis V' (List.mem_cons_of_mem _ hV') h
    · exact hnd.1 V' hV' h

theorem Find_PreMorphInitialize (Cache : BoneWeightMapCache) (Component : USkeletalMeshComponent)
    (hvalid : Component.GetSkeletalMeshAsset.IsValidLowLevelFast = true)
    (hnew : Cache.Contains Component.GetSkeletalMeshAsset.Id = false) :
    (PreMorphInitialize Cache Component).Find Component.GetSkeletalMeshAsset.Id =
      some (BuildBoneMapVertexWeights Component.GetSkeletalMeshAsset.LODRenderData) := by
  unfold PreMorphInitialize SaveBoneWeightMap
  simp [hvalid, hnew, TMap.Find_Add_self]

theorem mem_Influences_of_EntryFromSlot (SkinWeightBuffer : FSkinWeightVertexBuffer)
    (Section : FSkelMeshRenderSection) (VertexIndex InfluenceIndex : Nat) (Bone : Int)
    (Weight : ℚ)
    (h : EntryFromSlot SkinWeightBuffer Section VertexIndex InfluenceIndex Bone Weight) :
    (Bone, Weight) ∈ Influences SkinWeightBuffer Section VertexIndex := by
  unfold Influences
  rw [List.mem_filterMap]
  exact ⟨InfluenceIndex, List.mem_range.mpr h.1,
    (ResolveInfluence_eq_some_iff _ _ _ _ _ _).mpr h.2⟩

/-! ## Claims C5 and C6: the end-to-end scenario -/

theorem IsNearlyZero_one : IsNearlyZero 1 = false := by
  simp only [IsNearlyZero, UE_SMALL_NUMBER, decide_eq_false_iff_not, not_le]
  norm_num

theorem sum_map_eq_zero {α M : Type} [AddMonoid M] (L : List α) (f : α → M)
    (h : ∀ x ∈ L, f x = 0) : (L.map f).sum = 0 := by
  induction L with
  | nil => rfl
  | cons x L ih =>
    simp only [List.map_cons, List.sum_cons, h x (List.mem_cons_self _ _), zero_add]
    exact ih (fun y hy => h y (List.mem_cons_of_mem _ hy))

theorem sum_map_smul_const {α : Type} (L : List α) (w : α → ℚ) (d : α → FVector3f)
    (c : FVector3f) (h : ∀ x ∈ L, d x = c) :
    (L.map fun x => w x • d x).sum = (L.map w).sum • c := by
  induction L with
  | nil => simp
  | cons x L ih =>
    simp only [List.map_cons, List.sum_cons, h x (List.mem_cons_self _ _), add_smul]
    rw [ih (fun y hy => h y (List.mem_cons_of_mem _ hy))]

theorem sum_map_one_pos {α : Type} (L : List α) (w : α → ℚ) (hne : L ≠ [])
    (h : ∀ x ∈ L, w x = 1) : 0 < (L.map w).sum := by
  have key : (L.map w).sum = (L.length : ℚ) := by
    induction L with
    | nil => simp
    | cons x L ih =>
      simp only [List.map_cons, List.sum_cons, h x (List.mem_cons_self _ _), List.length_cons,
        Nat.cast_add, Nat.cast_one]
      by_cases hL : L = []
      · subst hL
        simp
      · rw [ih hL (fun y hy => h y (List.mem_cons_of_mem _ hy))]
        ring
  rw [key]
  have : 0 < L.length := List.length_pos.mpr hne
  exact_mod_cast this

theorem WeightedTransform_smul (w : ℚ) (c : FVector3f) (hw : 0 < w) :
    WeightedTransform (w, w • c) = c := by
  unfold WeightedTransform
  simp only [gt_iff_lt, hw, if_true, smul_smul, one_div]
  rw [inv_mul_cancel₀ (ne_of_gt hw), one_smul]

theorem WeightedTransform_zero (w : ℚ) : WeightedTransform (w, 0) = 0 := by
  unfold WeightedTransform
  split
  · simp
  · rfl

theorem TotalsOf_eq (Totals : TMap Int (ℚ × FVector3f)) (Bone : Int) :
    TotalsOf Totals Bone = (WeightOf Totals Bone, DisplacementOf Totals Bone) := rfl

/-- The accumulator after `MorphToSkeleton(instance, {"Open": 1.0})` in the end-to-end
scenario: its keys are the bones named by the displaced vertices, bone 0 has no
displacement, and bone 1 has an entry with positive weight W and displacement
W * (0,0,10). -/
theorem open_scenario_totals (Component : USkeletalMeshComponent)
    (MorphLOD0 : FMorphTargetLODModel) (Cache : BoneWeightMapCache) (NewObject : Nat)
    (hS : OpenScenario Component MorphLOD0)
    (hvalid : Component.GetSkeletalMeshAsset.IsValidLowLevelFast = true)
    (hnew : Cache.Contains Component.GetSkeletalMeshAsset.Id = false) :
    (TMap.Keys (MorphToSkeleton UMorphToSkeletonComponent.Clean
      (PreMorphInitialize Cache Component) Component [("Open", 1)]
      NewObject).1.CachedTotalTranslations).Nodup ∧
    TMap.Keys (MorphToSkeleton UMorphToSkeletonComponent.Clean
      (PreMorphInitialize Cache Component) Component [("Open", 1)]
      NewObject).1.CachedTotalTranslations =
      (VisitedBones Component.GetSkeletalMeshAsset.LODRenderData MorphLOD0).foldl InsertKey [] ∧
    DisplacementOf (MorphToSkeleton UMorphToSkeletonComponent.Clean
      (PreMorphInitialize Cache Component) Component [("Open", 1)]
      NewObject).1.CachedTotalTranslations 0 = 0 ∧
    0 < WeightOf (MorphToSkeleton UMorphToSkeletonComponent.Clean
      (PreMorphInitialize Cache Component) Component [("Open", 1)]
      NewObject).1.CachedTotalTranslations 1 ∧
    DisplacementOf (MorphToSkeleton UMorphToSkeletonComponent.Clean
      (PreMorphInitialize Cache Component) Component [("Open", 1)]
      NewObject).1.CachedTotalTranslations 1 =
      WeightOf (MorphToSkeleton UMorphToSkeletonComponent.Clean
        (PreMorphInitialize Cache Component) Component [("Open", 1)]
        NewObject).1.CachedTotalTranslations 1 • ((0, 0, 10) : FVector3f) ∧
    (1 : Int) ∈ TMap.Keys (MorphToSkeleton UMorphToSkeletonComponent.Clean
      (PreMorphInitialize Cache Component) Component [("Open", 1)]
      NewObject).1.CachedTotalTranslations := by
  obtain ⟨-, -, -, hlod, hne, hnd, hvis, hall⟩ := hS
  have hc : (UMorphToSkeletonComponent.Clean.CachedMorphs.Find "Open").getD 0 = (0 : ℚ) := rfl
  have hT : (SetMorph UMorphToSkeletonComponent.Clean Component "Open" 1).CachedTotalTranslations =
      (CacheMorphLOD Component.GetSkeletalMeshAsset.LODRenderData MorphLOD0 1 ([], [])).2 := by
    rw [Totals_SetMorph, hc, sub_zero, hlod]
    simp only [IsNearlyZero_one, Bool.false_eq_true, if_false]
    rfl
  have hA : (SetMorph UMorphToSkeletonComponent.Clean Component "Open" 1).CachedAffectedVertices =
      (CacheMorphLOD Component.GetSkeletalMeshAsset.LODRenderData MorphLOD0 1 ([], [])).1 := by
    rw [Affected_SetMorph, hc, sub_zero, hlod]
    simp only [IsNearlyZero_one, Bool.false_eq_true, if_false]
    rfl
  have hM : (MorphToSkeleton UMorphToSkeletonComponent.Clean
      (PreMorphInitialize Cache Component) Component [("Open", 1)]
      NewObject).1.CachedTotalTranslations =
      ZeroDilutionPass (PreMorphInitialize Cache Component) Component.GetSkeletalMeshAsset.Id
        (CacheMorphLOD Component.GetSkeletalMeshAsset.LODRenderData MorphLOD0 1 ([], [])).1
        (CacheMorphLOD Component.GetSkeletalMeshAsset.LODRenderData MorphLOD0 1 ([], [])).2 := by
    rw [← hT, ← hA]
    rfl
  rw [hM]
  have hkeys : TMap.Keys
      (CacheMorphLOD Component.GetSkeletalMeshAsset.LODRenderData MorphLOD0 1 ([], [])).2 =
      (VisitedBones Component.GetSkeletalMeshAsset.LODRenderData MorphLOD0).foldl InsertKey [] :=
    Keys_CacheMorphLOD _ _ _ _
  have hnodup : (TMap.Keys
      (CacheMorphLOD Component.GetSkeletalMeshAsset.LODRenderData MorphLOD0 1 ([], [])).2).Nodup := by
    rw [hkeys]
    exact Nodup_foldl_InsertKey _ _ List.nodup_nil
  -- the weight of bone 1 before the zero-dilution pass
  have hW : WeightOf
      (CacheMorphLOD Component.GetSkeletalMeshAsset.LODRenderData MorphLOD0 1 ([], [])).2 1 =
      ((Visits Component.GetSkeletalMeshAsset.LODRenderData MorphLOD0).map fun V =>
        SlotWeight Component.GetSkeletalMeshAsset.LODRenderData.SkinWeightVertexBuffer V.1
          V.2.SourceIdx 1).sum := by
    rw [WeightOf_CacheMorphLOD, FirstTouchWeight_of_nodup _ _ _ _ hnd (fun _ _ h => by simp at h)]
    show (0 : ℚ) + _ = _
    rw [zero_add]
  have hWpos : 0 < WeightOf
      (CacheMorphLOD Component.GetSkeletalMeshAsset.LODRenderData MorphLOD0 1 ([], [])).2 1 := by
    rw [hW]
    exact sum_map_one_pos _ _ hne (fun V hV => (hvis V hV).2.1)
  have hD : ∀ b, DisplacementOf
      (CacheMorphLOD Component.GetSkeletalMeshAsset.LODRenderData MorphLOD0 1 ([], [])).2 b =
      ((Visits Component.GetSkeletalMeshAsset.LODRenderData MorphLOD0).map fun V =>
        SlotWeight Component.GetSkeletalMeshAsset.LODRenderData.SkinWeightVertexBuffer V.1
          V.2.SourceIdx b).sum • ((0, 0, 10) : FVector3f) := by
    intro b
    rw [DisplacementOf_CacheMorphLOD, one_smul]
    show (0 : FVector3f) + _ = _
    rw [zero_add]
    exact sum_map_smul_const _ _ _ _ (fun V hV => (hvis V hV).1)
  -- bone 1 is among the keys
  have h1mem : (1 : Int) ∈ TMap.Keys
      (CacheMorphLOD Component.GetSkeletalMeshAsset.LODRenderData MorphLOD0 1 ([], [])).2 := by
    by_contra hcon
    have hzero : WeightOf
        (CacheMorphLOD Component.GetSkeletalMeshAsset.LODRenderData MorphLOD0 1 ([], [])).2 1 =
        0 := by
      unfold WeightOf TotalsOf
      rw [(TMap.Find_eq_none_iff _ _).mpr hcon]
      rfl
    rw [hzero] at hWpos
    exact lt_irrefl _ hWpos
  -- the zero-dilution pass adds nothing to bone 1
  have hdil : DilutionWeight (PreMorphInitialize Cache Component)
      Component.GetSkeletalMeshAsset.Id
      (CacheMorphLOD Component.GetSkeletalMeshAsset.LODRenderData MorphLOD0 1 ([], [])).1 1 =
      0 := by
    unfold DilutionWeight
    rw [Find_PreMorphInitialize _ _ hvalid hnew]
    simp only []
    cases hf : TMap.Find
        (BuildBoneMapVertexWeights Component.GetSkeletalMeshAsset.LODRenderData) 1 with
    | none => rfl
    | some WM =>
      simp only []
      apply sum_map_eq_zero
      intro vw hvw
      obtain ⟨hpos, Section, hSec, hin, slot, hslot⟩ :=
        BuildBoneMapVertexWeights_sound _ 1 WM (TMap.mem_of_Find _ hf) vw.1 vw.2 hvw
      have hvisited := hall Section hSec vw.1 ((mem_VertexIndices _ _).mpr hin) (1, vw.2)
        (mem_Influences_of_EntryFromSlot _ _ _ _ _ _ hslot) rfl hpos
      have : vw.1 ∈
          (CacheMorphLOD Component.GetSkeletalMeshAsset.LODRenderData MorphLOD0 1 ([], [])).1 := by
        rw [CacheMorphLOD_fst]
        exact (mem_foldl_InsertKey _ _ _).mpr (Or.inr hvisited)
      simp [this]
  refine ⟨?_, ?_, ?_, ?_, ?_, ?_⟩
  · rw [Keys_ZeroDilutionPass]
    exact hnodup
  · rw [Keys_ZeroDilutionPass]
    exact hkeys
  · rw [DisplacementOf_ZeroDilutionPass, hD 0]
    have : ((Visits Component.GetSkeletalMeshAsset.LODRenderData MorphLOD0).map fun V =>
        SlotWeight Component.GetSkeletalMeshAsset.LODRenderData.SkinWeightVertexBuffer V.1
          V.2.SourceIdx 0).sum = 0 := by
      apply sum_map_eq_zero
      intro V hV
      unfold SlotWeight
      apply sum_map_eq_zero
      intro bw hbw
      rcases (hvis V hV).2.2 bw hbw with h | h
      · simp [h]
      · simp [h]
    rw [this, zero_smul]
  · rw [WeightOf_ZeroDilutionPass _ _ _ _ _ hnodup, if_pos h1mem, hdil, add_zero]
    exact hWpos
  · rw [DisplacementOf_ZeroDilutionPass, WeightOf_ZeroDilutionPass _ _ _ _ _ hnodup,
      if_pos h1mem, hdil, add_zero, hD 1, hW]
  · rw [Keys_ZeroDilutionPass]
    exact h1mem

theorem RelativeTranslations_CacheTranslation (self : UMorphToSkeletonComponent)
    (Component : USkeletalMeshComponent) (MorphTarget : FName) (MorphValue : ℚ) :
    (CacheTranslation self Component MorphTarget MorphValue).RelativeTranslations =
      self.RelativeTranslations := by
  rw [CacheTranslation_eq]
  split
  · rfl
  · cases FindMorphLOD0 Component MorphTarget <;> rfl

theorem foldl_ResolvePass_fst_eq (RefSkeleton : FReferenceSkeleton)
    (Totals : TMap Int (ℚ × FVector3f))
    (Out : TMap Int FVector3f × List FName × List FVector3f) :
    (ResolvePass RefSkeleton Totals Out).1 =
      Totals.foldl (fun m e => TMap.Add m e.1 (ResolvedTranslation RefSkeleton Totals e)) Out.1 := by
  unfold ResolvePass
  exact foldl_ResolveBone_fst _ _ _ _


/-- The map returned by `GetRelativeTransforms` after `MorphToSkeleton` with one target on
a clean instance is the result of the resolve pass on the final accumulator, started
from the empty map. -/
theorem RelativeTransforms_MorphToSkeleton_Clean (Cache : BoneWeightMapCache)
    (Component : USkeletalMeshComponent) (MorphTarget : FName) (MorphValue : ℚ)
    (NewObject : Nat) (Bone : Int) :
    (GetRelativeTransforms (MorphToSkeleton UMorphToSkeletonComponent.Clean Cache Component
      [(MorphTarget, MorphValue)] NewObject).1).Find Bone =
    (ResolvePass Component.GetSkeletalMeshAsset.RefSkeleton
      (MorphToSkeleton UMorphToSkeletonComponent.Clean Cache Component
        [(MorphTarget, MorphValue)] NewObject).1.CachedTotalTranslations
      (([] : TMap Int FVector3f), [], [])).1.Find Bone := by
  have h : (SetMorphs UMorphToSkeletonComponent.Clean Component
      [(MorphTarget, MorphValue)]).RelativeTranslations = [] :=
    RelativeTranslations_CacheTranslation _ _ _ _
  show (ResolvePass _ _ (_, _, _)).1.Find Bone = _
  rw [foldl_ResolvePass_fst_eq, h, foldl_ResolvePass_fst_eq]
  rfl

/-- Claim C5 (end-to-end, moved bone): in the end-to-end scenario, after
`PreMorphInitialize` and `MorphToSkeleton(instance, {"Open": 1.0})` on a clean instance,
the resolved translation returned for bone 1 is exactly (0,0,10). -/
theorem open_moves_child (Component : USkeletalMeshComponent)
    (MorphLOD0 : FMorphTargetLODModel) (Cache : BoneWeightMapCache) (NewObject : Nat)
    (hS : OpenScenario Component MorphLOD0)
    (hvalid : Component.GetSkeletalMeshAsset.IsValidLowLevelFast = true)
    (hnew : Cache.Contains Component.GetSkeletalMeshAsset.Id = false) :
    (GetRelativeTransforms (MorphToSkeleton UMorphToSkeletonComponent.Clean
      (PreMorphInitialize Cache Component) Component [("Open", 1)] NewObject).1).Find 1 =
      some (0, 0, 10) := by
  obtain ⟨hnd, -, hD0, hW1, hD1, h1⟩ :=
    open_scenario_totals Component MorphLOD0 Cache NewObject hS hvalid hnew
  rw [RelativeTransforms_MorphToSkeleton_Clean,
    Find_ResolvePass _ _ _ hnd (Find_eq_some_TotalsOf _ _ h1)]
  congr 1
  unfold ResolvedTranslation
  simp only [hS.2.1]
  have hc : WeightedTransform (TotalsOf (MorphToSkeleton UMorphToSkeletonComponent.Clean
      (PreMorphInitialize Cache Component) Component [("Open", 1)]
      NewObject).1.CachedTotalTranslations 1) = (0, 0, 10) := by
    rw [TotalsOf_eq, hD1]
    exact WeightedTransform_smul _ _ hW1
  have hp : WeightedTransform ((TMap.Find (MorphToSkeleton UMorphToSkeletonComponent.Clean
      (PreMorphInitialize Cache Component) Component [("Open", 1)]
      NewObject).1.CachedTotalTranslations 0).getD (0, 0)) = 0 := by
    show WeightedTransform (TotalsOf _ 0) = 0
    rw [TotalsOf_eq, hD0]
    exact WeightedTransform_zero _
  rw [hc, hp]
  split
  · simp
  · rfl

/-- Witness of claim C5: the scenario holds for `OpenComponent`, and bone 1 resolves to
(0,0,10). -/
theorem open_moves_child_witness :
    OpenScenario OpenComponent OpenMorphLOD ∧
    OpenComponent.GetSkeletalMeshAsset.IsValidLowLevelFast = true ∧
    TMap.Contains ([] : BoneWeightMapCache) OpenComponent.GetSkeletalMeshAsset.Id = false ∧
    (GetRelativeTransforms (MorphToSkeleton UMorphToSkeletonComponent.Clean
      (PreMorphInitialize [] OpenComponent) OpenComponent [("Open", 1)] 8).1).Find 1 =
      some (0, 0, 10) :=
  ⟨by decide!, by decide, by decide,
    open_moves_child OpenComponent OpenMorphLOD [] 8 (by decide!) (by decide) (by decide)⟩

/-- Claim C6 fails as stated: in the end-to-end scenario on `OpenComponent`, where the
section of the displaced vertices maps every influence slot to bone 1, bone 0 never gets
an accumulator entry and the map returned by `GetRelativeTransforms` has no entry for
bone 0 at all. -/
theorem open_root_counterexample :
    OpenScenario OpenComponent OpenMorphLOD ∧
    (GetRelativeTransforms (MorphToSkeleton UMorphToSkeletonComponent.Clean
      (PreMorphInitialize [] OpenComponent) OpenComponent [("Open", 1)] 8).1) =
      [(1, (0, 0, 10))] ∧
    (GetRelativeTransforms (MorphToSkeleton UMorphToSkeletonComponent.Clean
      (PreMorphInitialize [] OpenComponent) OpenComponent [("Open", 1)] 8).1).Find 0 = none ∧
    (GetRelativeTransforms (MorphToSkeleton UMorphToSkeletonComponent.Clean
      (PreMorphInitialize [] OpenComponent) OpenComponent [("Open", 1)] 8).1).Find 0 ≠
      some (0, 0, 0) :=
  ⟨by decide!, by decide!, by decide!, by decide!⟩

/-- Claim C6 as amended: in the end-to-end scenario, after
`MorphToSkeleton(instance, {"Open": 1.0})` on a clean instance, the map returned by
`GetRelativeTransforms` holds the translation (0,0,0) for bone 0 when some displaced
vertex has a valid influence slot that maps to bone 0, and holds no entry for bone 0
otherwise. -/
theorem open_root_entry (Component : USkeletalMeshComponent)
    (MorphLOD0 : FMorphTargetLODModel) (Cache : BoneWeightMapCache) (NewObject : Nat)
    (hS : OpenScenario Component MorphLOD0)
    (hvalid : Component.GetSkeletalMeshAsset.IsValidLowLevelFast = true)
    (hnew : Cache.Contains Component.GetSkeletalMeshAsset.Id = false) :
    (GetRelativeTransforms (MorphToSkeleton UMorphToSkeletonComponent.Clean
      (PreMorphInitialize Cache Component) Component [("Open", 1)] NewObject).1).Find 0 =
      if (0 : Int) ∈ VisitedBones Component.GetSkeletalMeshAsset.LODRenderData MorphLOD0 then
        some (0, 0, 0)
      else none := by
  obtain ⟨hnd, hkeys, hD0, -, -, -⟩ :=
    open_scenario_totals Component MorphLOD0 Cache NewObject hS hvalid hnew
  rw [RelativeTransforms_MorphToSkeleton_Clean]
  by_cases h0 : (0 : Int) ∈ VisitedBones Component.GetSkeletalMeshAsset.LODRenderData MorphLOD0
  · have hmem : (0 : Int) ∈ TMap.Keys (MorphToSkeleton UMorphToSkeletonComponent.Clean
        (PreMorphInitialize Cache Component) Component [("Open", 1)]
        NewObject).1.CachedTotalTranslations := by
      rw [hkeys]
      exact (mem_foldl_InsertKey _ _ _).mpr (Or.inr h0)
    rw [Find_ResolvePass _ _ _ hnd (Find_eq_some_TotalsOf _ _ hmem), if_pos h0]
    congr 1
    unfold ResolvedTranslation
    simp only [hS.1, ne_eq, not_true_eq_false, false_and, if_false]
    rw [TotalsOf_eq, hD0]
    exact WeightedTransform_zero _
  · have hnot : TMap.Find (MorphToSkeleton UMorphToSkeletonComponent.Clean
        (PreMorphInitialize Cache Component) Component [("Open", 1)]
        NewObject).1.CachedTotalTranslations 0 = none := by
      rw [TMap.Find_eq_none_iff, hkeys, mem_foldl_InsertKey]
      simpa using h0
    rw [Find_ResolvePass_of_not_mem _ _ _ hnot, if_neg h0]
    rfl

/-- Witness of claim C6 as amended: on `OpenSharedComponent` the second influence slot of
the displaced vertices maps to bone 0 with weight 0, and bone 0 resolves to (0,0,0). -/
theorem open_root_entry_witness :
    OpenScenario OpenSharedComponent ⟨[⟨(0, 0, 10), 2⟩, ⟨(0, 0, 10), 3⟩], [0]⟩ ∧
    OpenSharedComponent.GetSkeletalMeshAsset.IsValidLowLevelFast = true ∧
    TMap.Contains ([] : BoneWeightMapCache) OpenSharedComponent.GetSkeletalMeshAsset.Id = false ∧
    (GetRelativeTransforms (MorphToSkeleton UMorphToSkeletonComponent.Clean
      (PreMorphInitialize [] OpenSharedComponent) OpenSharedComponent [("Open", 1)] 8).1).Find 0 =
      some (0, 0, 0) :=
  ⟨by decide!, by decide, by decide,
    (open_root_entry OpenSharedComponent ⟨[⟨(0, 0, 10), 2⟩, ⟨(0, 0, 10), 3⟩], [0]⟩ [] 8
      (by decide!) (by decide) (by decide)).trans (by decide!)⟩

/-! ## The bone weight index agrees with the skin weight buffer -/

theorem SaveVertex_eq_foldl (SkinWeightBuffer : FSkinWeightVertexBuffer)
    (Section : FSkelMeshRenderSection) (m : TMap Int FBoneWeightMap) (i : Nat) :
    SaveVertex SkinWeightBuffer Section m i =
      (Influences SkinWeightBuffer Section i).foldl (SaveEntry i) m := by
  unfold SaveVertex Influences
  rw [foldl_filterMap_eq]
  apply foldl_congr_fun
  intro m slot
  unfold SaveInfluence SaveEntry
  split <;> simp_all

theorem IndexWeight_SaveEntry (i : Nat) (m : TMap Int FBoneWeightMap) (bw : Int × ℚ)
    (Bone : Int) (v : Nat) :
    IndexWeight (SaveEntry i m bw) Bone v =
      if 0 < bw.2 ∧ Bone = bw.1 ∧ v = i then bw.2 else IndexWeight m Bone v := by
  unfold SaveEntry
  by_cases hw : bw.2 ≤ 0
  · have hw' : ¬ 0 < bw.2 := not_lt.mpr hw
    simp [hw, hw']
  · have hw' : 0 < bw.2 := not_le.mp hw
    simp only [hw, if_false, hw', true_and]
    unfold IndexWeight
    rw [TMap.Find_Add]
    by_cases hb : Bone = bw.1
    · subst hb
      simp only [if_true, Option.some_bind, true_and]
      rw [TMap.Find_Add]
      by_cases hv : v = i
      · simp [hv]
      · simp only [hv, if_false]
        cases hm : TMap.Find m bw.1 with
        | none => simp [TMap.Find]
        | some WM => simp
    · simp [hb]

theorem Influences_nonneg (SkinWeightBuffer : FSkinWeightVertexBuffer)
    (Section : FSkelMeshRenderSection) (v : Nat) (bw : Int × ℚ)
    (h : bw ∈ Influences SkinWeightBuffer Section v) : 0 ≤ bw.2 := by
  unfold Influences at h
  rw [List.mem_filterMap] at h
  obtain ⟨slot, -, hres⟩ := h
  have := ((ResolveInfluence_eq_some_iff _ _ _ _ bw.1 bw.2).mp hres).2.2.2.2
  rw [this]
  positivity

/-- Folding the influences of vertex `i` into an index leaves the other vertices as they
were. -/
theorem IndexWeight_foldl_SaveEntry_ne (i : Nat) (L : List (Int × ℚ))
    (m : TMap Int FBoneWeightMap) (Bone : Int) (v : Nat) (hv : v ≠ i) :
    IndexWeight (L.foldl (SaveEntry i) m) Bone v = IndexWeight m Bone v := by
  induction L generalizing m with
  | nil => rfl
  | cons x L ih =>
    simp only [List.foldl_cons]
    rw [ih, IndexWeight_SaveEntry]
    simp [hv]

/-- Folding the influences of a vertex that is not yet in the index stores, under every
bone, the sum of the weights of the influences of that bone. -/
theorem IndexWeight_foldl_SaveEntry_self (i : Nat) (L : List (Int × ℚ))
    (m : TMap Int FBoneWeightMap) (Bone : Int)
    (hzero : ∀ b, IndexWeight m b i = 0)
    (hnn : ∀ bw ∈ L, 0 ≤ bw.2)
    (hpw : L.Pairwise fun bw bw' => bw.1 = bw'.1 → bw.2 ≤ 0 ∨ bw'.2 ≤ 0) :
    IndexWeight (L.foldl (SaveEntry i) m) Bone i =
      (L.map fun bw => if bw.1 = Bone then bw.2 else 0).sum := by
  induction L using List.reverseRecOn with
  | nil => simpa using hzero Bone
  | append_singleton L x ih =>
    rw [List.pairwise_append] at hpw
    obtain ⟨hpL, -, hcross⟩ := hpw
    have hnnL : ∀ bw ∈ L, 0 ≤ bw.2 := fun bw h => hnn bw (List.mem_append_left _ h)
    have hx : 0 ≤ x.2 := hnn x (List.mem_append_right _ (List.mem_singleton_self _))
    simp only [List.foldl_append, List.foldl_cons, List.foldl_nil, List.map_append,
      List.map_cons, List.map_nil, List.sum_append, List.sum_cons, List.sum_nil, add_zero]
    rw [IndexWeight_SaveEntry, ih hnnL hpL]
    by_cases hpos : 0 < x.2
    · by_cases hb : x.1 = Bone
      · subst hb
        have hz : (L.map fun bw => if bw.1 = x.1 then bw.2 else 0).sum = 0 := by
          apply sum_map_eq_zero
          intro bw hbw
          by_cases hbb : bw.1 = x.1
          · rcases hcross bw hbw x (List.mem_singleton_self _) hbb with h | h
            · simp only [hbb, if_true]
              exact le_antisymm h (hnnL bw hbw)
            · exact absurd hpos (not_lt.mpr h)
          · simp [hbb]
        simp [hpos, hz]
      · have hb' : ¬ Bone = x.1 := fun e => hb e.symm
        simp [hb, hb']
    · have hx0 : x.2 = 0 := le_antisymm (not_lt.mp hpos) hx
      simp [hpos, hx0]

theorem SlotWeight_eq (SkinWeightBuffer : FSkinWeightVertexBuffer)
    (Section : FSkelMeshRenderSection) (v : Nat) (Bone : Int) :
    SlotWeight SkinWeightBuffer Section v Bone =
      ((Influences SkinWeightBuffer Section v).map fun bw =>
        if bw.1 = Bone then bw.2 else 0).sum := rfl

theorem IndexWeight_SaveVertex_ne (SkinWeightBuffer : FSkinWeightVertexBuffer)
    (Section : FSkelMeshRenderSection) (m : TMap Int FBoneWeightMap) (i : Nat) (Bone : Int)
    (v : Nat) (hv : v ≠ i) :
    IndexWeight (SaveVertex SkinWeightBuffer Section m i) Bone v = IndexWeight m Bone v := by
  rw [SaveVertex_eq_foldl]
  exact IndexWeight_foldl_SaveEntry_ne _ _ _ _ _ hv

theorem IndexWeight_SaveVertex_self (SkinWeightBuffer : FSkinWeightVertexBuffer)
    (Section : FSkelMeshRenderSection) (m : TMap Int FBoneWeightMap) (i : Nat) (Bone : Int)
    (hzero : ∀ b, IndexWeight m b i = 0)
    (hpw : (Influences SkinWeightBuffer Section i).Pairwise
      fun bw bw' => bw.1 = bw'.1 → bw.2 ≤ 0 ∨ bw'.2 ≤ 0) :
    IndexWeight (SaveVertex SkinWeightBuffer Section m i) Bone i =
      SlotWeight SkinWeightBuffer Section i Bone := by
  rw [SaveVertex_eq_foldl, SlotWeight_eq]
  exact IndexWeight_foldl_SaveEntry_self _ _ _ _ hzero
    (fun bw h => Influences_nonneg _ _ _ _ h) hpw

theorem IndexWeight_foldl_SaveVertex_outside (SkinWeightBuffer : FSkinWeightVertexBuffer)
    (Section : FSkelMeshRenderSection) (Lv : List Nat) (m : TMap Int FBoneWeightMap)
    (Bone : Int) (v : Nat) (hv : v ∉ Lv) :
    IndexWeight (Lv.foldl (SaveVertex SkinWeightBuffer Section) m) Bone v =
      IndexWeight m Bone v := by
  induction Lv generalizing m with
  | nil => rfl
  | cons i Lv ih =>
    simp only [List.mem_cons, not_or] at hv
    simp only [List.foldl_cons]
    rw [ih _ hv.2, IndexWeight_SaveVertex_ne _ _ _ _ _ _ hv.1]

theorem IndexWeight_foldl_SaveVertex (SkinWeightBuffer : FSkinWeightVertexBuffer)
    (Section : FSkelMeshRenderSection) (Lv : List Nat) (m : TMap Int FBoneWeightMap)
    (hnd : Lv.Nodup) (hzero : ∀ i ∈ Lv, ∀ b, IndexWeight m b i = 0)
    (hpw : ∀ i ∈ Lv, (Influences SkinWeightBuffer Section i).Pairwise
      fun bw bw' => bw.1 = bw'.1 → bw.2 ≤ 0 ∨ bw'.2 ≤ 0)
    (Bone : Int) (v : Nat) (hv : v ∈ Lv) :
    IndexWeight (Lv.foldl (SaveVertex SkinWeightBuffer Section) m) Bone v =
      SlotWeight SkinWeightBuffer Section v Bone := by
  induction Lv generalizing m with
  | nil => simp at hv
  | cons i Lv ih =>
    simp only [List.nodup_cons] at hnd
    simp only [List.foldl_cons]
    rcases List.mem_cons.mp hv with h | h
    · subst h
      rw [IndexWeight_foldl_SaveVertex_outside _ _ _ _ _ _ hnd.1]
      exact IndexWeight_SaveVertex_self _ _ _ _ _ (hzero v (List.mem_cons_self _ _))
        (hpw v (List.mem_cons_self _ _))
    · apply ih _ hnd.2 _ (fun j hj => hpw j (List.mem_cons_of_mem _ hj)) h
      intro j hj b
      have hji : j ≠ i := fun e => hnd.1 (e ▸ hj)
      rw [IndexWeight_SaveVertex_ne _ _ _ _ _ _ hji]
      exact hzero j (List.mem_cons_of_mem _ hj) b

theorem Nodup_VertexIndices (Section : FSkelMeshRenderSection) : Section.VertexIndices.Nodup := by
  unfold FSkelMeshRenderSection.VertexIndices
  exact List.nodup_range' _ _

theorem IndexWeight_SaveSection_outside (SkinWeightBuffer : FSkinWeightVertexBuffer)
    (Section : FSkelMeshRenderSection) (m : TMap Int FBoneWeightMap) (Bone : Int) (v : Nat)
    (hv : Section.InRange v = false) :
    IndexWeight (SaveSection SkinWeightBuffer m Section) Bone v = IndexWeight m Bone v := by
  unfold SaveSection
  apply IndexWeight_foldl_SaveVertex_outside
  rw [mem_VertexIndices, hv]
  simp

theorem IndexWeight_SaveSection (SkinWeightBuffer : FSkinWeightVertexBuffer)
    (Section : FSkelMeshRenderSection) (m : TMap Int FBoneWeightMap)
    (hzero : ∀ i, Section.InRange i = true → ∀ b, IndexWeight m b i = 0)
    (hpw : ∀ i ∈ Section.VertexIndices, (Influences SkinWeightBuffer Section i).Pairwise
      fun bw bw' => bw.1 = bw'.1 → bw.2 ≤ 0 ∨ bw'.2 ≤ 0)
    (Bone : Int) (v : Nat) (hv : Section.InRange v = true) :
    IndexWeight (SaveSection SkinWeightBuffer m Section) Bone v =
      SlotWeight SkinWeightBuffer Section v Bone := by
  unfold SaveSection
  exact IndexWeight_foldl_SaveVertex _ _ _ _ (Nodup_VertexIndices _)
    (fun i hi => hzero i ((mem_VertexIndices _ _).mp hi)) hpw _ _ ((mem_VertexIndices _ _).mpr hv)

theorem IndexWeight_foldl_SaveSection_outside (SkinWeightBuffer : FSkinWeightVertexBuffer)
    (Sections : List FSkelMeshRenderSection) (m : TMap Int FBoneWeightMap) (Bone : Int)
    (v : Nat) (hv : ∀ S ∈ Sections, S.InRange v = false) :
    IndexWeight (Sections.foldl (SaveSection SkinWeightBuffer) m) Bone v =
      IndexWeight m Bone v := by
  induction Sections generalizing m with
  | nil => rfl
  | cons S Sections ih =>
    simp only [List.foldl_cons]
    rw [ih _ (fun S' h => hv S' (List.mem_cons_of_mem _ h)),
      IndexWeight_SaveSection_outside _ _ _ _ _ (hv S (List.mem_cons_self _ _))]

theorem IndexWeight_foldl_SaveSection (SkinWeightBuffer : FSkinWeightVertexBuffer)
    (Sections : List FSkelMeshRenderSection) (m : TMap Int FBoneWeightMap)
    (hdis : Sections.Pairwise fun Section Section' =>
      ∀ VertexIndex ∈ Section.VertexIndices, Section'.InRange VertexIndex = false)
    (hzero : ∀ S ∈ Sections, ∀ i, S.InRange i = true → ∀ b, IndexWeight m b i = 0)
    (hpw : ∀ S ∈ Sections, ∀ i ∈ S.VertexIndices, (Influences SkinWeightBuffer S i).Pairwise
      fun bw bw' => bw.1 = bw'.1 → bw.2 ≤ 0 ∨ bw'.2 ≤ 0)
    (Section : FSkelMeshRenderSection) (hS : Section ∈ Sections) (Bone : Int) (v : Nat)
    (hv : Section.InRange v = true) :
    IndexWeight (Sections.foldl (SaveSection SkinWeightBuffer) m) Bone v =
      SlotWeight SkinWeightBuffer Section v Bone := by
  induction Sections generalizing m with
  | nil => simp at hS
  | cons S0 Sections ih =>
    rw [List.pairwise_cons] at hdis
    simp only [List.foldl_cons]
    rcases List.mem_cons.mp hS with h | h
    · subst h
      rw [IndexWeight_foldl_SaveSection_outside _ _ _ _ _
        (fun S' hS' => hdis.1 S' hS' v ((mem_VertexIndices _ _).mpr hv))]
      exact IndexWeight_SaveSection _ _ _ (hzero Section (List.mem_cons_self _ _))
        (hpw Section (List.mem_cons_self _ _)) _ _ hv
    · apply ih _ hdis.2 _ (fun S' hS' => hpw S' (List.mem_cons_of_mem _ hS')) h
      intro S' hS' i hi b
      have hout : S0.InRange i = false := by
        by_contra hcon
        have hin : S0.InRange i = true := by simpa using hcon
        have := hdis.1 S' hS' i ((mem_VertexIndices _ _).mpr hin)
        rw [hi] at this
        exact Bool.noConfusion this
      rw [IndexWeight_SaveSection_outside _ _ _ _ _ hout]
      exact hzero S' (List.mem_cons_of_mem _ hS') i hi b

/-- With disjoint sections and no bone repeated among the non-zero influences of a vertex,
the index holds for every vertex of a section, under every bone, the skin weight
`w(b, v)` of the skin weight buffer. -/
theorem IndexWeight_Build (LODRenderData : FSkeletalMeshLODRenderData)
    (hsec : SectionsDisjoint LODRenderData) (hslots : NoRepeatedBone LODRenderData)
    (Section : FSkelMeshRenderSection) (hS : Section ∈ LODRenderData.RenderSections)
    (Bone : Int) (v : Nat) (hv : Section.InRange v = true) :
    IndexWeight (BuildBoneMapVertexWeights LODRenderData) Bone v =
      SlotWeight LODRenderData.SkinWeightVertexBuffer Section v Bone := by
  unfold BuildBoneMapVertexWeights
  exact IndexWeight_foldl_SaveSection _ _ [] hsec (fun _ _ _ _ _ => rfl) hslots Section hS Bone v hv

theorem IndexWF_SaveEntry (i : Nat) (m : TMap Int FBoneWeightMap) (bw : Int × ℚ)
    (h : IndexWF m) : IndexWF (SaveEntry i m bw) := by
  unfold SaveEntry
  split
  · exact h
  · refine ⟨TMap.Nodup_Keys_Add _ _ _ h.1, ?_⟩
    intro b WM hmem
    rcases TMap.mem_Add _ _ _ _ hmem with hm | hm
    · exact h.2 b WM hm
    · cases hm
      constructor
      · apply TMap.Nodup_Keys_Add
        cases hf : TMap.Find m bw.1 with
        | none => simp [TMap.Keys]
        | some WM0 => exact (h.2 bw.1 WM0 (TMap.mem_of_Find _ hf)).1
      · intro hcon
        have := TMap.Find_Add_self ((m.Find bw.1).getD ⟨[]⟩).VertexWeight i bw.2
        simp only [] at hcon
        rw [hcon] at this
        simp [TMap.Find] at this

theorem IndexWF_Build (LODRenderData : FSkeletalMeshLODRenderData) :
    IndexWF (BuildBoneMapVertexWeights LODRenderData) := by
  unfold BuildBoneMapVertexWeights
  apply foldl_invariant IndexWF
  · exact ⟨List.nodup_nil, fun b WM h => by simp at h⟩
  · intro m Section _ hm
    unfold SaveSection
    apply foldl_invariant IndexWF _ _ _ hm
    intro m i _ hm
    rw [SaveVertex_eq_foldl]
    apply foldl_invariant IndexWF _ _ _ hm
    intro m bw _ hm
    exact IndexWF_SaveEntry i m bw hm

/-! ## Sums over lists -/

theorem list_sum_map_add {α M : Type} [AddCommMonoid M] (L : List α) (f g : α → M) :
    (L.map fun x => f x + g x).sum = (L.map f).sum + (L.map g).sum := by
  induction L with
  | nil => simp
  | cons x L ih =>
    simp only [List.map_cons, List.sum_cons, ih]
    abel

theorem list_smul_sum {α : Type} (L : List α) (c : ℚ) (f : α → FVector3f) :
    c • (L.map f).sum = (L.map fun x => c • f x).sum := by
  induction L with
  | nil => simp
  | cons x L ih => simp only [List.map_cons, List.sum_cons, smul_add, ih]

theorem list_sum_comm {α β M : Type} [AddCommMonoid M] (X : List α) (Y : List β)
    (F : α → β → M) :
    (X.map fun x => (Y.map fun y => F x y).sum).sum =
      (Y.map fun y => (X.map fun x => F x y).sum).sum := by
  induction Y with
  | nil =>
    simp only [List.map_nil, List.sum_nil]
    exact sum_map_eq_zero _ _ (fun _ _ => rfl)
  | cons y Y ih =>
    simp only [List.map_cons, List.sum_cons]
    rw [list_sum_map_add, ih]

/-- Over a map with distinct keys, the weights stored under one key add up to the value
found under that key. -/
theorem sum_map_ite_key (VW : TMap Nat ℚ) (v : Nat) (hnd : (TMap.Keys VW).Nodup) :
    (VW.map fun vw => if vw.1 = v then vw.2 else 0).sum = (VW.Find v).getD 0 := by
  induction VW with
  | nil => rfl
  | cons e VW ih =>
    obtain ⟨v0, w0⟩ := e
    simp only [TMap.Keys, List.map_cons, List.nodup_cons] at hnd
    simp only [List.map_cons, List.sum_cons, TMap.Find]
    by_cases h : v0 = v
    · subst h
      have hz : (VW.map fun vw => if vw.1 = v0 then vw.2 else 0).sum = 0 := by
        apply sum_map_eq_zero
        intro vw hvw
        have hne : vw.1 ≠ v0 := fun e => hnd.1 (e ▸ List.mem_map.mpr ⟨vw, hvw, rfl⟩)
        simp [hne]
      simp [hz]
    · simp only [h, if_false, zero_add]
      exact ih hnd.2

theorem sum_smul_ite {α : Type} (X : List α) (c : α → ℚ) (p : α → Prop) [DecidablePred p]
    (d : FVector3f) :
    (X.map fun x => c x • (if p x then d else 0)).sum =
      (X.map fun x => if p x then c x else 0).sum • d := by
  induction X with
  | nil => simp
  | cons x X ih =>
    simp only [List.map_cons, List.sum_cons, ih, add_smul]
    by_cases h : p x <;> simp [h]

/-- The weighted displacement of the vertices of a bone per unit of morph weight, summed
over the index entry of the bone, is the sum over the visits of index weight times
delta. -/
theorem sum_index_VertexDelta (LODRenderData : FSkeletalMeshLODRenderData)
    (MorphLOD0 : FMorphTargetLODModel) (VW : TMap Nat ℚ) (hnd : (TMap.Keys VW).Nodup) :
    (VW.map fun vw => vw.2 • VertexDelta LODRenderData MorphLOD0 vw.1).sum =
      ((Visits LODRenderData MorphLOD0).map fun V =>
        (VW.Find V.2.SourceIdx).getD 0 • V.2.PositionDelta).sum := by
  unfold VertexDelta
  simp only [list_smul_sum]
  rw [list_sum_comm]
  congr 1
  apply List.map_congr_left
  intro V _
  rw [sum_smul_ite VW (fun vw => vw.2) (fun vw => V.2.SourceIdx = vw.1)]
  congr 1
  rw [← sum_map_ite_key VW V.2.SourceIdx hnd]
  congr 1
  apply List.map_congr_left
  intro vw _
  by_cases h : vw.1 = V.2.SourceIdx
  · simp [h]
  · have h' : ¬ V.2.SourceIdx = vw.1 := fun e => h e.symm
    simp [h, h']

/-- Over a duplicate-free affected vertex set and a map with distinct keys, the values
found for the affected vertices add up to the weights of the entries whose vertex is
affected. -/
theorem sum_affected_eq (Affected : TSet) (VW : TMap Nat ℚ) (haff : Affected.Nodup)
    (hnd : (TMap.Keys VW).Nodup) :
    (Affected.map fun v => (VW.Find v).getD 0).sum =
      (VW.map fun vw => if vw.1 ∈ Affected then vw.2 else 0).sum := by
  have h1 : (Affected.map fun v => (VW.Find v).getD 0).sum =
      (Affected.map fun v => (VW.map fun vw => if vw.1 = v then vw.2 else 0).sum).sum := by
    congr 1
    apply List.map_congr_left
    intro v _
    rw [sum_map_ite_key VW v hnd]
  rw [h1, list_sum_comm]
  congr 1
  apply List.map_congr_left
  intro vw _
  have := sum_map_ite_eq_of_nodup Affected vw.1 (fun _ => vw.2) haff
  rw [← this]
  congr 1
  apply List.map_congr_left
  intro v _
  by_cases h : vw.1 = v
  · simp [h]
  · have h' : ¬ v = vw.1 := fun e => h e.symm
    simp [h, h']

theorem sum_split_affected (Affected : TSet) (VW : TMap Nat ℚ) :
    (VW.map fun vw => if vw.1 ∈ Affected then vw.2 else 0).sum +
      (VW.map fun vw => if vw.1 ∈ Affected then 0 else vw.2).sum =
      (VW.map fun vw => vw.2).sum := by
  rw [← list_sum_map_add]
  congr 1
  apply List.map_congr_left
  intro vw _
  by_cases h : vw.1 ∈ Affected <;> simp [h]

/-! ## The accumulator after a batch of morph targets -/

theorem Visits_mem (LODRenderData : FSkeletalMeshLODRenderData)
    (MorphLOD0 : FMorphTargetLODModel) (V : FSkelMeshRenderSection × FMorphTargetDelta)
    (h : V ∈ Visits LODRenderData MorphLOD0) :
    V.1 ∈ LODRenderData.RenderSections ∧ V.1.InRange V.2.SourceIdx = true := by
  unfold Visits at h
  rw [List.mem_flatMap] at h
  obtain ⟨idx, -, hV⟩ := h
  split at hV
  · cases hg : LODRenderData.RenderSections.get? idx with
    | none =>
      rw [hg] at hV
      simp at hV
    | some Section =>
      rw [hg] at hV
      simp only [List.mem_map, List.mem_filter] at hV
      obtain ⟨Delta, ⟨-, hin⟩, rfl⟩ := hV
      exact ⟨List.get?_mem hg, hin⟩
  · simp at hV

theorem WeightInvariant_CacheVisit (Index : TMap Int FBoneWeightMap)
    (SkinWeightBuffer : FSkinWeightVertexBuffer) (MorphValue : ℚ)
    (State : TSet × TMap Int (ℚ × FVector3f))
    (V : FSkelMeshRenderSection × FMorphTargetDelta)
    (hV : ∀ b, SlotWeight SkinWeightBuffer V.1 V.2.SourceIdx b = IndexWeight Index b V.2.SourceIdx)
    (h : WeightInvariant Index State) :
    WeightInvariant Index (CacheVisit SkinWeightBuffer MorphValue State V) := by
  obtain ⟨h1, h2, h3⟩ := h
  refine ⟨?_, ?_, ?_⟩
  · rw [CacheVisit_fst]
    exact Nodup_InsertKey _ _ h1
  · rw [Keys_CacheVisit]
    exact Nodup_foldl_InsertKey _ _ h2
  · intro b
    rw [WeightOf_CacheVisit, CacheVisit_fst, h3 b, hV b]
    unfold InsertKey
    by_cases hmem : V.2.SourceIdx ∈ State.1
    · simp [hmem]
    · simp [hmem]

theorem WeightInvariant_CacheMorphLOD (LODRenderData : FSkeletalMeshLODRenderData)
    (hsec : SectionsDisjoint LODRenderData) (hslots : NoRepeatedBone LODRenderData)
    (MorphLOD0 : FMorphTargetLODModel) (MorphValue : ℚ)
    (State : TSet × TMap Int (ℚ × FVector3f))
    (h : WeightInvariant (BuildBoneMapVertexWeights LODRenderData) State) :
    WeightInvariant (BuildBoneMapVertexWeights LODRenderData)
      (CacheMorphLOD LODRenderData MorphLOD0 MorphValue State) := by
  rw [CacheMorphLOD_eq_foldl]
  apply foldl_invariant (WeightInvariant (BuildBoneMapVertexWeights LODRenderData)) _ _ _ h
  intro s V hV hs
  apply WeightInvariant_CacheVisit _ _ _ _ _ _ hs
  intro b
  obtain ⟨hS, hin⟩ := Visits_mem _ _ _ hV
  exact (IndexWeight_Build LODRenderData hsec hslots V.1 hS b V.2.SourceIdx hin).symm

theorem WeightInvariant_SetMorph (Component : USkeletalMeshComponent)
    (hsec : SectionsDisjoint Component.GetSkeletalMeshAsset.LODRenderData)
    (hslots : NoRepeatedBone Component.GetSkeletalMeshAsset.LODRenderData)
    (self : UMorphToSkeletonComponent) (MorphTarget : FName) (MorphValue : ℚ)
    (h : WeightInvariant (BuildBoneMapVertexWeights Component.GetSkeletalMeshAsset.LODRenderData)
      (self.CachedAffectedVertices, self.CachedTotalTranslations)) :
    WeightInvariant (BuildBoneMapVertexWeights Component.GetSkeletalMeshAsset.LODRenderData)
      ((SetMorph self Component MorphTarget MorphValue).CachedAffectedVertices,
        (SetMorph self Component MorphTarget MorphValue).CachedTotalTranslations) := by
  rw [Affected_SetMorph, Totals_SetMorph]
  split
  · exact h
  · cases FindMorphLOD0 Component MorphTarget with
    | none => exact h
    | some lod => exact WeightInvariant_CacheMorphLOD _ hsec hslots lod _ _ h

theorem SetMorphs_eq_foldl (self : UMorphToSkeletonComponent)
    (Component : USkeletalMeshComponent) (MorphTargets : TMap FName ℚ) :
    SetMorphs self Component MorphTargets =
      MorphTargets.foldl (fun s p => SetMorph s Component p.1 p.2) self := rfl

theorem WeightInvariant_SetMorphs (Component : USkeletalMeshComponent)
    (hsec : SectionsDisjoint Component.GetSkeletalMeshAsset.LODRenderData)
    (hslots : NoRepeatedBone Component.GetSkeletalMeshAsset.LODRenderData)
    (self : UMorphToSkeletonComponent) (MorphTargets : TMap FName ℚ)
    (h : WeightInvariant (BuildBoneMapVertexWeights Component.GetSkeletalMeshAsset.LODRenderData)
      (self.CachedAffectedVertices, self.CachedTotalTranslations)) :
    WeightInvariant (BuildBoneMapVertexWeights Component.GetSkeletalMeshAsset.LODRenderData)
      ((SetMorphs self Component MorphTargets).CachedAffectedVertices,
        (SetMorphs self Component MorphTargets).CachedTotalTranslations) := by
  rw [SetMorphs_eq_foldl]
  exact foldl_invariant
    (fun s : UMorphToSkeletonComponent =>
      WeightInvariant (BuildBoneMapVertexWeights Component.GetSkeletalMeshAsset.LODRenderData)
        (s.CachedAffectedVertices, s.CachedTotalTranslations))
    _ _ _ h (fun s p _ hs => WeightInvariant_SetMorph Component hsec hslots s p.1 p.2 hs)

theorem DisplacementOf_SetMorph_fresh (self : UMorphToSkeletonComponent)
    (Component : USkeletalMeshComponent) (p : FName × ℚ) (Bone : Int)
    (hfresh : self.CachedMorphs.Find p.1 = none) :
    DisplacementOf (SetMorph self Component p.1 p.2).CachedTotalTranslations Bone =
      DisplacementOf self.CachedTotalTranslations Bone + TargetDisplacement Component Bone p := by
  rw [Totals_SetMorph, hfresh]
  unfold TargetDisplacement
  simp only [Option.getD_none, sub_zero]
  split
  · simp
  · cases FindMorphLOD0 Component p.1 with
    | none => simp
    | some lod => exact DisplacementOf_CacheMorphLOD _ _ _ _ _

/-- On an instance that has not seen the names of the batch, `SetMorphs` adds to the total
displacement of every bone the displacement of every target of the batch. -/
theorem DisplacementOf_SetMorphs (Component : USkeletalMeshComponent)
    (MorphTargets : TMap FName ℚ) (self : UMorphToSkeletonComponent) (Bone : Int)
    (hnd : (TMap.Keys MorphTargets).Nodup)
    (hfresh : ∀ Name ∈ TMap.Keys MorphTargets, self.CachedMorphs.Find Name = none) :
    DisplacementOf (SetMorphs self Component MorphTargets).CachedTotalTranslations Bone =
      DisplacementOf self.CachedTotalTranslations Bone +
        (MorphTargets.map (TargetDisplacement Component Bone)).sum := by
  induction MorphTargets generalizing self with
  | nil => simp [SetMorphs]
  | cons p rest ih =>
    simp only [TMap.Keys, List.map_cons, List.nodup_cons] at hnd
    have hstep : SetMorphs self Component (p :: rest) =
        SetMorphs (SetMorph self Component p.1 p.2) Component rest := rfl
    rw [hstep, ih _ hnd.2, DisplacementOf_SetMorph_fresh _ _ _ _
      (hfresh p.1 (by simp [TMap.Keys]))]
    · simp only [List.map_cons, List.sum_cons, add_assoc]
    · intro Name hName
      rw [CachedMorphs_SetMorph]
      have hne : Name ≠ p.1 := fun e => hnd.1 (e ▸ hName)
      rw [TMap.Find_Add_ne _ _ hne]
      exact hfresh Name (by simp only [TMap.Keys, List.map_cons]; exact List.mem_cons_of_mem _ hName)

/-! ## Claim C1: the weighted average with zero-dilution -/

theorem sum_pos_of_pos {α : Type} (L : List α) (f : α → ℚ) (hne : L ≠ [])
    (h : ∀ x ∈ L, 0 < f x) : 0 < (L.map f).sum := by
  induction L with
  | nil => exact absurd rfl hne
  | cons x L ih =>
    simp only [List.map_cons, List.sum_cons]
    have hx := h x (List.mem_cons_self _ _)
    by_cases hL : L = []
    · subst hL
      simpa using hx
    · have := ih hL (fun y hy => h y (List.mem_cons_of_mem _ hy))
      linarith

theorem IndexWeight_of_Find (Index : TMap Int FBoneWeightMap) (Bone : Int)
    (WeightMap : FBoneWeightMap) (h : Index.Find Bone = some WeightMap) (v : Nat) :
    IndexWeight Index Bone v = (WeightMap.VertexWeight.Find v).getD 0 := by
  unfold IndexWeight
  rw [h]
  rfl

theorem UnitDisplacement_eq_index (LODRenderData : FSkeletalMeshLODRenderData)
    (hsec : SectionsDisjoint LODRenderData) (hslots : NoRepeatedBone LODRenderData)
    (MorphLOD0 : FMorphTargetLODModel) (Bone : Int) (WeightMap : FBoneWeightMap)
    (hidx : (BuildBoneMapVertexWeights LODRenderData).Find Bone = some WeightMap) :
    UnitDisplacement LODRenderData MorphLOD0 Bone =
      (WeightMap.VertexWeight.map fun vw =>
        vw.2 • VertexDelta LODRenderData MorphLOD0 vw.1).sum := by
  have hnd : (TMap.Keys WeightMap.VertexWeight).Nodup :=
    ((IndexWF_Build LODRenderData).2 Bone WeightMap (TMap.mem_of_Find _ hidx)).1
  rw [sum_index_VertexDelta _ _ _ hnd]
  unfold UnitDisplacement
  congr 1
  apply List.map_congr_left
  intro V hV
  obtain ⟨hS, hin⟩ := Visits_mem _ _ _ hV
  rw [← IndexWeight_Build LODRenderData hsec hslots V.1 hS Bone V.2.SourceIdx hin,
    IndexWeight_of_Find _ _ _ hidx]

theorem TargetDisplacement_eq_index (Component : USkeletalMeshComponent)
    (hsec : SectionsDisjoint Component.GetSkeletalMeshAsset.LODRenderData)
    (hslots : NoRepeatedBone Component.GetSkeletalMeshAsset.LODRenderData)
    (Bone : Int) (WeightMap : FBoneWeightMap)
    (hidx : (BuildBoneMapVertexWeights Component.GetSkeletalMeshAsset.LODRenderData).Find Bone =
      some WeightMap) (p : FName × ℚ) :
    TargetDisplacement Component Bone p =
      (WeightMap.VertexWeight.map fun vw =>
        vw.2 • (if IsNearlyZero p.2 = true then (0 : FVector3f)
          else
            match FindMorphLOD0 Component p.1 with
            | none => 0
            | some MorphLOD0 =>
              p.2 • VertexDelta Component.GetSkeletalMeshAsset.LODRenderData MorphLOD0 vw.1)).sum := by
  unfold TargetDisplacement
  split
  · symm
    apply sum_map_eq_zero
    intro vw _
    simp
  · cases FindMorphLOD0 Component p.1 with
    | none =>
      symm
      apply sum_map_eq_zero
      intro vw _
      simp
    | some lod =>
      simp only []
      rw [UnitDisplacement_eq_index _ hsec hslots lod Bone WeightMap hidx, list_smul_sum]
      congr 1
      apply List.map_congr_left
      intro vw _
      rw [smul_comm]

theorem sum_index_AppliedDisplacement (Component : USkeletalMeshComponent)
    (hsec : SectionsDisjoint Component.GetSkeletalMeshAsset.LODRenderData)
    (hslots : NoRepeatedBone Component.GetSkeletalMeshAsset.LODRenderData)
    (Bone : Int) (WeightMap : FBoneWeightMap)
    (hidx : (BuildBoneMapVertexWeights Component.GetSkeletalMeshAsset.LODRenderData).Find Bone =
      some WeightMap) (MorphTargets : TMap FName ℚ) :
    (WeightMap.VertexWeight.map fun vw =>
      vw.2 • AppliedDisplacement Component MorphTargets vw.1).sum =
      (MorphTargets.map (TargetDisplacement Component Bone)).sum := by
  unfold AppliedDisplacement
  simp only [list_smul_sum]
  rw [list_sum_comm]
  congr 1
  apply List.map_congr_left
  intro p _
  exact (TargetDisplacement_eq_index Component hsec hslots Bone WeightMap hidx p).symm

/-- Claim C1 (weighted average with zero-dilution): on a clean instance whose mesh has been
indexed by `PreMorphInitialize`, after `SetMorphs(targets)` and one run of
`ApplyTranslationsToSkeleton`, every bone with an accumulator entry and an index entry has
total weight equal to the sum of w(b,v) over all vertices v of index[b], total
displacement equal to the sum of w(b,v) * D(v) over the same vertices, and its average
is the quotient of the two; D(v) is the sum of the weight-scaled morph deltas applied to v.
The sections are disjoint (data model), no vertex names a bone in two non-zero influence
slots, and the target names are distinct (`TMap`). -/
theorem weighted_average_zero_dilution (Component : USkeletalMeshComponent)
    (Cache : BoneWeightMapCache) (MorphTargets : TMap FName ℚ) (NewObject : Nat)
    (Index : TMap Int FBoneWeightMap) (Bone : Int) (WeightMap : FBoneWeightMap)
    (BoneData : ℚ × FVector3f)
    (hvalid : Component.GetSkeletalMeshAsset.IsValidLowLevelFast = true)
    (hnew : Cache.Contains Component.GetSkeletalMeshAsset.Id = false)
    (hsec : SectionsDisjoint Component.GetSkeletalMeshAsset.LODRenderData)
    (hslots : NoRepeatedBone Component.GetSkeletalMeshAsset.LODRenderData)
    (htargets : (TMap.Keys MorphTargets).Nodup)
    (hb : (ApplyTranslationsToSkeleton
      (SetMorphs UMorphToSkeletonComponent.Clean Component MorphTargets)
      (PreMorphInitialize Cache Component) Component NewObject).1.CachedTotalTranslations.Find
      Bone = some BoneData)
    (hcache : (PreMorphInitialize Cache Component).Find Component.GetSkeletalMeshAsset.Id =
      some Index)
    (hidx : Index.Find Bone = some WeightMap) :
    BoneData.1 = (WeightMap.VertexWeight.map fun vw => vw.2).sum ∧
    BoneData.2 = (WeightMap.VertexWeight.map fun vw =>
      vw.2 • AppliedDisplacement Component MorphTargets vw.1).sum ∧
    0 < BoneData.1 ∧
    WeightedTransform BoneData =
      DivideBy
        (WeightMap.VertexWeight.map fun vw =>
          vw.2 • AppliedDisplacement Component MorphTargets vw.1).sum
        (WeightMap.VertexWeight.map fun vw => vw.2).sum := by
  have hIndex : Index = BuildBoneMapVertexWeights Component.GetSkeletalMeshAsset.LODRenderData := by
    rw [Find_PreMorphInitialize _ _ hvalid hnew] at hcache
    exact (Option.some.inj hcache).symm
  subst hIndex
  have hInv := WeightInvariant_SetMorphs Component hsec hslots UMorphToSkeletonComponent.Clean
    MorphTargets ⟨List.nodup_nil, List.nodup_nil, fun _ => rfl⟩
  obtain ⟨haff, hkeys, hweight⟩ := hInv
  have hApply : (ApplyTranslationsToSkeleton
      (SetMorphs UMorphToSkeletonComponent.Clean Component MorphTargets)
      (PreMorphInitialize Cache Component) Component NewObject).1.CachedTotalTranslations =
      ZeroDilutionPass (PreMorphInitialize Cache Component) Component.GetSkeletalMeshAsset.Id
        (SetMorphs UMorphToSkeletonComponent.Clean Component MorphTargets).CachedAffectedVertices
        (SetMorphs UMorphToSkeletonComponent.Clean Component
          MorphTargets).CachedTotalTranslations := rfl
  rw [hApply] at hb
  have hmem : Bone ∈ TMap.Keys
      (SetMorphs UMorphToSkeletonComponent.Clean Component MorphTargets).CachedTotalTranslations := by
    rw [← Keys_ZeroDilutionPass (PreMorphInitialize Cache Component)
      Component.GetSkeletalMeshAsset.Id
      (SetMorphs UMorphToSkeletonComponent.Clean Component MorphTargets).CachedAffectedVertices]
    by_contra hcon
    rw [(TMap.Find_eq_none_iff _ _).mpr hcon] at hb
    cases hb
  have hdata : BoneData = (WeightOf (ZeroDilutionPass (PreMorphInitialize Cache Component)
      Component.GetSkeletalMeshAsset.Id
      (SetMorphs UMorphToSkeletonComponent.Clean Component MorphTargets).CachedAffectedVertices
      (SetMorphs UMorphToSkeletonComponent.Clean Component
        MorphTargets).CachedTotalTranslations) Bone,
      DisplacementOf (ZeroDilutionPass (PreMorphInitialize Cache Component)
      Component.GetSkeletalMeshAsset.Id
      (SetMorphs UMorphToSkeletonComponent.Clean Component MorphTargets).CachedAffectedVertices
      (SetMorphs UMorphToSkeletonComponent.Clean Component
        MorphTargets).CachedTotalTranslations) Bone) := by
    rw [← TotalsOf_eq]
    unfold TotalsOf
    rw [hb]
    rfl
  have hnd : (TMap.Keys WeightMap.VertexWeight).Nodup :=
    ((IndexWF_Build _).2 Bone WeightMap (TMap.mem_of_Find _ hidx)).1
  have hne : WeightMap.VertexWeight ≠ [] :=
    ((IndexWF_Build _).2 Bone WeightMap (TMap.mem_of_Find _ hidx)).2
  have hW : BoneData.1 = (WeightMap.VertexWeight.map fun vw => vw.2).sum := by
    rw [hdata]
    simp only []
    rw [WeightOf_ZeroDilutionPass _ _ _ _ _ hkeys, if_pos hmem, hweight Bone]
    unfold DilutionWeight
    rw [hcache]
    simp only [hidx]
    rw [← sum_split_affected
      (SetMorphs UMorphToSkeletonComponent.Clean Component MorphTargets).CachedAffectedVertices
      WeightMap.VertexWeight,
      ← sum_affected_eq _ _ haff hnd]
    congr 2
    apply List.map_congr_left
    intro v _
    exact IndexWeight_of_Find _ _ _ hidx v
  have hD : BoneData.2 = (WeightMap.VertexWeight.map fun vw =>
      vw.2 • AppliedDisplacement Component MorphTargets vw.1).sum := by
    rw [hdata]
    simp only []
    rw [DisplacementOf_ZeroDilutionPass,
      DisplacementOf_SetMorphs Component MorphTargets UMorphToSkeletonComponent.Clean Bone
        htargets (fun _ _ => rfl),
      sum_index_AppliedDisplacement Component hsec hslots Bone WeightMap hidx]
    show (0 : FVector3f) + _ = _
    rw [zero_add]
  have hpos : 0 < (WeightMap.VertexWeight.map fun vw => vw.2).sum := by
    apply sum_pos_of_pos _ _ hne
    intro vw hvw
    exact (BuildBoneMapVertexWeights_sound _ Bone WeightMap (TMap.mem_of_Find _ hidx)
      vw.1 vw.2 hvw).1
  refine ⟨hW, hD, hW ▸ hpos, ?_⟩
  rw [WeightedTransform_eq_SpecAverage, hW, hD]
  unfold SpecAverage DivideBy
  rw [if_pos hpos]

/-- Witness of claim C1: bone 0 influences vertex 0 (weight 0.6, displaced by (1,0,0)) and
the untouched vertex 1 (weight 0.4). After `SetMorphs` and `ApplyTranslationsToSkeleton`
its totals are (1, (0.6,0,0)) and its average is (0.6,0,0), while the totals before the
zero-dilution pass would give (1,0,0). -/
theorem weighted_average_zero_dilution_witness :
    SectionsDisjoint DilutionComponent.GetSkeletalMeshAsset.LODRenderData ∧
    NoRepeatedBone DilutionComponent.GetSkeletalMeshAsset.LODRenderData ∧
    (ApplyTranslationsToSkeleton
      (SetMorphs UMorphToSkeletonComponent.Clean DilutionComponent [("Move", 1)])
      (PreMorphInitialize [] DilutionComponent) DilutionComponent 8).1.CachedTotalTranslations.Find
      0 = some (1, (3 / 5, 0, 0)) ∧
    WeightedTransform ((1 : ℚ), ((3 / 5, 0, 0) : FVector3f)) = (3 / 5, 0, 0) ∧
    WeightedTransform (TotalsOf
      (SetMorphs UMorphToSkeletonComponent.Clean DilutionComponent
        [("Move", 1)]).CachedTotalTranslations 0) = (1, 0, 0) :=
  ⟨by decide!, by decide!, by decide!,
    (weighted_average_zero_dilution DilutionComponent [] [("Move", 1)] 8
      [(0, ⟨[(0, 3 / 5), (1, 2 / 5)]⟩)] 0 ⟨[(0, 3 / 5), (1, 2 / 5)]⟩ (1, (3 / 5, 0, 0))
      (by decide) (by decide) (by decide!) (by decide!) (by decide) (by decide!) (by decide!)
      (by decide!)).2.2.2.trans (by decide!),
    by decide!⟩

/-! ## Claim C20: the batch form is the sequential form -/

/-- Claim C20 (batch equals sequential): `SetMorphs(targets)` yields the same instance
state (active morph set, per-bone accumulator, affected vertex set and every other field)
as calling `SetMorph(name, weight)` once for each pair of the mapping, in the iteration
order of the mapping. -/
theorem SetMorphs_eq_sequential (self : UMorphToSkeletonComponent)
    (Component : USkeletalMeshComponent) (MorphTargets : TMap FName ℚ) :
    SetMorphs self Component MorphTargets =
      MorphTargets.foldl
        (fun State MorphTargetPair =>
          SetMorph State Component MorphTargetPair.1 MorphTargetPair.2)
        self := by
  induction MorphTargets generalizing self with
  | nil => rfl
  | cons p rest ih =>
    have hstep : SetMorphs self Component (p :: rest) =
        SetMorphs (SetMorph self Component p.1 p.2) Component rest := rfl
    rw [hstep, ih]
    rfl

/-! ## Claim C19: the zero-dilution pass on a cache miss -/

/-- The zero-dilution pass keeps every accumulator entry and adds to its total weight the
dilution weight of the bone, which is zero on a cache miss. -/
theorem Find_ZeroDilutionPass (Cache : BoneWeightMapCache) (Mesh : Nat) (Affected : TSet)
    (Totals : TMap Int (ℚ × FVector3f)) (Bone : Int) (hnd : (TMap.Keys Totals).Nodup) :
    (ZeroDilutionPass Cache Mesh Affected Totals).Find Bone =
      (Totals.Find Bone).map fun Data =>
        (Data.1 + DilutionWeight Cache Mesh Affected Bone, Data.2) := by
  by_cases hmem : Bone ∈ TMap.Keys Totals
  · have hmem' : Bone ∈ TMap.Keys (ZeroDilutionPass Cache Mesh Affected Totals) := by
      rw [Keys_ZeroDilutionPass]
      exact hmem
    rw [Find_eq_some_TotalsOf _ _ hmem', Find_eq_some_TotalsOf _ _ hmem, TotalsOf_eq,
      WeightOf_ZeroDilutionPass _ _ _ _ _ hnd, if_pos hmem, DisplacementOf_ZeroDilutionPass]
    rfl
  · have hmem' : Bone ∉ TMap.Keys (ZeroDilutionPass Cache Mesh Affected Totals) := by
      rw [Keys_ZeroDilutionPass]
      exact hmem
    rw [(TMap.Find_eq_none_iff _ _).mpr hmem', (TMap.Find_eq_none_iff _ _).mpr hmem]
    rfl

theorem DilutionWeight_of_miss (Cache : BoneWeightMapCache) (Mesh : Nat) (Affected : TSet)
    (Bone : Int)
    (h : Cache.Find Mesh = none ∨ ∃ Index, Cache.Find Mesh = some Index ∧ Index.Find Bone = none) :
    DilutionWeight Cache Mesh Affected Bone = 0 := by
  unfold DilutionWeight
  rcases h with h | ⟨Index, h1, h2⟩
  · rw [h]
  · rw [h1]
    simp only [h2]

theorem DilutionWeight_of_entry (Cache : BoneWeightMapCache) (Mesh : Nat) (Affected : TSet)
    (Bone : Int) (Index : TMap Int FBoneWeightMap) (WeightMap : FBoneWeightMap)
    (h1 : Cache.Find Mesh = some Index) (h2 : Index.Find Bone = some WeightMap) :
    DilutionWeight Cache Mesh Affected Bone =
      (WeightMap.VertexWeight.map fun vw => if vw.1 ∈ Affected then 0 else vw.2).sum := by
  unfold DilutionWeight
  rw [h1]
  simp only [h2]

/-- Claim C19 (cache-miss degradation): in `ApplyTranslationsToSkeleton`, a bone of the
accumulator that has no entry in the cached index, or whose mesh has no cached index at
all, keeps its total weight and total displacement through the zero-dilution pass; a bone
with an index entry receives the index weights of its vertices outside the affected
vertex set and keeps its displacement; and the resolve step stores a translation for
every bone of the accumulator. -/
theorem cache_miss_degradation (self : UMorphToSkeletonComponent) (Cache : BoneWeightMapCache)
    (Component : USkeletalMeshComponent) (NewObject : Nat)
    (hnd : (TMap.Keys self.CachedTotalTranslations).Nodup) :
    (∀ Bone,
      (Cache.Find Component.GetSkeletalMeshAsset.Id = none ∨
        ∃ Index, Cache.Find Component.GetSkeletalMeshAsset.Id = some Index ∧
          Index.Find Bone = none) →
      (ApplyTranslationsToSkeleton self Cache Component
        NewObject).1.CachedTotalTranslations.Find Bone =
        self.CachedTotalTranslations.Find Bone) ∧
    (∀ Bone Index WeightMap Data,
      Cache.Find Component.GetSkeletalMeshAsset.Id = some Index →
      Index.Find Bone = some WeightMap →
      self.CachedTotalTranslations.Find Bone = some Data →
      (ApplyTranslationsToSkeleton self Cache Component
        NewObject).1.CachedTotalTranslations.Find Bone =
        some (Data.1 + (WeightMap.VertexWeight.map fun vw =>
          if vw.1 ∈ self.CachedAffectedVertices then 0 else vw.2).sum, Data.2)) ∧
    (∀ Bone Data,
      self.CachedTotalTranslations.Find Bone = some Data →
      ∃ Translation,
        (GetRelativeTransforms (ApplyTranslationsToSkeleton self Cache Component
          NewObject).1).Find Bone = some Translation) := by
  have hApply : (ApplyTranslationsToSkeleton self Cache Component
      NewObject).1.CachedTotalTranslations =
      ZeroDilutionPass Cache Component.GetSkeletalMeshAsset.Id self.CachedAffectedVertices
        self.CachedTotalTranslations := rfl
  refine ⟨?_, ?_, ?_⟩
  · intro Bone hmiss
    rw [hApply, Find_ZeroDilutionPass _ _ _ _ _ hnd, DilutionWeight_of_miss _ _ _ _ hmiss]
    cases self.CachedTotalTranslations.Find Bone with
    | none => rfl
    | some Data => simp
  · intro Bone Index WeightMap Data h1 h2 h3
    rw [hApply, Find_ZeroDilutionPass _ _ _ _ _ hnd, h3,
      DilutionWeight_of_entry _ _ _ _ _ _ h1 h2]
    rfl
  · intro Bone Data h
    have hfind : (ApplyTranslationsToSkeleton self Cache Component
        NewObject).1.CachedTotalTranslations.Find Bone =
        some (Data.1 + DilutionWeight Cache Component.GetSkeletalMeshAsset.Id
          self.CachedAffectedVertices Bone, Data.2) := by
      rw [hApply, Find_ZeroDilutionPass _ _ _ _ _ hnd, h]
      rfl
    exact ⟨_, Find_ResolvePass Component.GetSkeletalMeshAsset.RefSkeleton _
      (self.RelativeTranslations, self.PAIRTranslatedBoneNames,
        self.PAIRTranslatedBoneTranslations)
      (Nodup_Keys_Apply self Cache Component NewObject hnd) hfind⟩

/-- Witness of claim C19: on `CacheMissInstance` with the index of `DilutionComponent`,
bone 9 (no index entry) keeps its totals (1,(1,1,1)), bone 0 receives the weight 2/5 of
the untouched vertex 1, and both bones are resolved. -/
theorem cache_miss_degradation_witness :
    (TMap.Keys CacheMissInstance.CachedTotalTranslations).Nodup ∧
    (ApplyTranslationsToSkeleton CacheMissInstance (PreMorphInitialize [] DilutionComponent)
      DilutionComponent 8).1.CachedTotalTranslations.Find 9 = some (1, (1, 1, 1)) ∧
    (ApplyTranslationsToSkeleton CacheMissInstance (PreMorphInitialize [] DilutionComponent)
      DilutionComponent 8).1.CachedTotalTranslations.Find 0 = some (1, (3 / 5, 0, 0)) ∧
    (∃ Translation,
      (GetRelativeTransforms (ApplyTranslationsToSkeleton CacheMissInstance
        (PreMorphInitialize [] DilutionComponent) DilutionComponent 8).1).Find 9 =
        some Translation) :=
  ⟨by decide,
    ((cache_miss_degradation CacheMissInstance (PreMorphInitialize [] DilutionComponent)
      DilutionComponent 8 (by decide)).1 9
      (Or.inr ⟨[(0, ⟨[(0, 3 / 5), (1, 2 / 5)]⟩)], by decide!, by decide!⟩)).trans (by decide!),
    ((cache_miss_degradation CacheMissInstance (PreMorphInitialize [] DilutionComponent)
      DilutionComponent 8 (by decide)).2.1 0 [(0, ⟨[(0, 3 / 5), (1, 2 / 5)]⟩)]
      ⟨[(0, 3 / 5), (1, 2 / 5)]⟩ (3 / 5, (3 / 5, 0, 0)) (by decide!) (by decide!)
      (by decide!)).trans (by decide!),
    (cache_miss_degradation CacheMissInstance (PreMorphInitialize [] DilutionComponent)
      DilutionComponent 8 (by decide)).2.2 9 (1, (1, 1, 1)) (by decide!)⟩

/-! ## Claims C12 and C13: the translated-bone arrays -/

theorem foldl_ResolveBone_snd (RefSkeleton : FReferenceSkeleton)
    (Totals : TMap Int (ℚ × FVector3f)) (L : List (Int × (ℚ × FVector3f)))
    (Out : TMap Int FVector3f × List FName × List FVector3f) :
    (L.foldl (ResolveBone RefSkeleton Totals) Out).2.1 =
      Out.2.1 ++ L.map (fun e => RefSkeleton.GetBoneName e.1) ∧
    (L.foldl (ResolveBone RefSkeleton Totals) Out).2.2 =
      Out.2.2 ++ L.map (ResolvedTranslation RefSkeleton Totals) := by
  induction L generalizing Out with
  | nil => simp
  | cons x L ih =>
    simp only [List.foldl_cons, List.map_cons]
    obtain ⟨h1, h2⟩ := ih (ResolveBone RefSkeleton Totals Out x)
    rw [h1, h2]
    by_cases h : RefSkeleton.GetParentIndex x.1 ≠ INDEX_NONE ∧
        Totals.Contains (RefSkeleton.GetParentIndex x.1) = true
    · simp only [ResolveBone, ResolvedTranslation, if_pos h, List.append_assoc,
        List.singleton_append, and_self]
    · simp only [ResolveBone, ResolvedTranslation, if_neg h, List.append_assoc,
        List.singleton_append, and_self]

/-- Claim C12 fails as stated: after `MorphToSkeleton` on `OpenSharedComponent` the arrays
list the bone "root", whose resolved translation is the zero vector. -/
theorem translated_arrays_counterexample :
    GetTranslatedBoneNames OpenFirstRun.1 = ["child", "root"] ∧
    GetTranslatedBoneTranslations OpenFirstRun.1 = [(0, 0, 10), (0, 0, 0)] ∧
    OpenSharedComponent.GetSkeletalMeshAsset.RefSkeleton.GetBoneName 0 = "root" ∧
    (GetRelativeTransforms OpenFirstRun.1).Find 0 = some (0, 0, 0) :=
  ⟨by decide!, by decide!, by decide!, by decide!⟩

/-- Claim C12 as amended: every run of `ApplyTranslationsToSkeleton` appends to the
parallel arrays one entry for every bone that has an accumulator entry, in accumulator
order: the name of the bone and the resolved translation that `GetRelativeTransforms`
holds for it after the run, whether or not that translation is zero. -/
theorem translated_arrays_per_run (self : UMorphToSkeletonComponent)
    (Cache : BoneWeightMapCache) (Component : USkeletalMeshComponent) (NewObject : Nat)
    (hnd : (TMap.Keys self.CachedTotalTranslations).Nodup) :
    GetTranslatedBoneNames (ApplyTranslationsToSkeleton self Cache Component NewObject).1 =
      GetTranslatedBoneNames self ++
        (ApplyTranslationsToSkeleton self Cache Component NewObject).1.CachedTotalTranslations.map
          (fun Elem => Component.GetSkeletalMeshAsset.RefSkeleton.GetBoneName Elem.1) ∧
    GetTranslatedBoneTranslations (ApplyTranslationsToSkeleton self Cache Component NewObject).1 =
      GetTranslatedBoneTranslations self ++
        (ApplyTranslationsToSkeleton self Cache Component NewObject).1.CachedTotalTranslations.map
          (fun Elem =>
            ((GetRelativeTransforms
              (ApplyTranslationsToSkeleton self Cache Component NewObject).1).Find
                Elem.1).getD 0) ∧
    (∀ Elem ∈
      (ApplyTranslationsToSkeleton self Cache Component NewObject).1.CachedTotalTranslations,
      ∃ Translation,
        (GetRelativeTransforms (ApplyTranslationsToSkeleton self Cache Component
          NewObject).1).Find Elem.1 = some Translation) := by
  have hnd' := Nodup_Keys_Apply self Cache Component NewObject hnd
  have hsnd := foldl_ResolveBone_snd Component.GetSkeletalMeshAsset.RefSkeleton
    (ApplyTranslationsToSkeleton self Cache Component NewObject).1.CachedTotalTranslations
    (ApplyTranslationsToSkeleton self Cache Component NewObject).1.CachedTotalTranslations
    (self.RelativeTranslations, self.PAIRTranslatedBoneNames, self.PAIRTranslatedBoneTranslations)
  have hfind : ∀ Elem ∈
      (ApplyTranslationsToSkeleton self Cache Component NewObject).1.CachedTotalTranslations,
      (GetRelativeTransforms (ApplyTranslationsToSkeleton self Cache Component
        NewObject).1).Find Elem.1 =
      some (ResolvedTranslation Component.GetSkeletalMeshAsset.RefSkeleton
        (ApplyTranslationsToSkeleton self Cache Component NewObject).1.CachedTotalTranslations
        Elem) := by
    intro Elem hElem
    exact Find_ResolvePass Component.GetSkeletalMeshAsset.RefSkeleton _
      (self.RelativeTranslations, self.PAIRTranslatedBoneNames,
        self.PAIRTranslatedBoneTranslations) hnd' (TMap.Find_of_mem _ hnd' hElem)
  refine ⟨hsnd.1, ?_, fun Elem hElem => ⟨_, hfind Elem hElem⟩⟩
  refine hsnd.2.trans ?_
  congr 1
  apply List.map_congr_left
  intro Elem hElem
  rw [hfind Elem hElem]
  rfl

/-- Witness of claim C12 as amended: the run on `OpenSharedComponent` appends "child" with
(0,0,10) and "root" with (0,0,0) to the empty arrays. -/
theorem translated_arrays_per_run_witness :
    GetTranslatedBoneNames (ApplyTranslationsToSkeleton
      (SetMorphs UMorphToSkeletonComponent.Clean OpenSharedComponent [("Open", 1)])
      (PreMorphInitialize [] OpenSharedComponent) OpenSharedComponent 8).1 =
      ["child", "root"] ∧
    GetTranslatedBoneTranslations (ApplyTranslationsToSkeleton
      (SetMorphs UMorphToSkeletonComponent.Clean OpenSharedComponent [("Open", 1)])
      (PreMorphInitialize [] OpenSharedComponent) OpenSharedComponent 8).1 =
      [(0, 0, 10), (0, 0, 0)] :=
  ⟨(translated_arrays_per_run
      (SetMorphs UMorphToSkeletonComponent.Clean OpenSharedComponent [("Open", 1)])
      (PreMorphInitialize [] OpenSharedComponent) OpenSharedComponent 8
      (by decide!)).1.trans (by decide!),
   (translated_arrays_per_run
      (SetMorphs UMorphToSkeletonComponent.Clean OpenSharedComponent [("Open", 1)])
      (PreMorphInitialize [] OpenSharedComponent) OpenSharedComponent 8
      (by decide!)).2.1.trans (by decide!)⟩

/-- Claim C13, evaluated on two `MorphToSkeleton` calls on one instance (weights 1 and 2 of
"Open"): the arrays keep equal length, but the second run appends a second block, so the
names "child" and "root" occur twice and the translation at position 0 is still (0,0,10)
while `GetRelativeTransforms` now holds (0,0,20) for the bone named there. -/
theorem translated_arrays_second_run :
    GetTranslatedBoneNames OpenSecondRun.1 = ["child", "root", "child", "root"] ∧
    GetTranslatedBoneTranslations OpenSecondRun.1 =
      [(0, 0, 10), (0, 0, 0), (0, 0, 20), (0, 0, 0)] ∧
    GetRelativeTransforms OpenSecondRun.1 = [(1, (0, 0, 20)), (0, (0, 0, 0))] ∧
    OpenSecondRun.2.GetSkeletalMeshAsset.RefSkeleton.GetBoneName 1 = "child" :=
  ⟨by decide!, by decide!, by decide!, by decide!⟩

/-! ## Claims C14 and C15: the bake step -/

theorem getElem?_foldl_set_of_not_mem {α β : Type} (idx : α → Nat) (val : α → β) (L : List α)
    (R : List β) (i : Nat) (hi : i ∉ L.map idx) :
    (L.foldl (fun R x => R.set (idx x) (val x)) R)[i]? = R[i]? := by
  induction L generalizing R with
  | nil => rfl
  | cons x L ih =>
    simp only [List.map_cons, List.mem_cons, not_or] at hi
    simp only [List.foldl_cons]
    rw [ih _ hi.2, List.getElem?_set_ne (fun e => hi.1 e.symm)]

/-- Writing a list of (index, value) pairs with distinct indices into an array leaves, at
the index of every pair, the value of that pair. -/
theorem getElem?_foldl_set {α β : Type} (idx : α → Nat) (val : α → β) (L : List α)
    (R : List β) (hnd : (L.map idx).Nodup) (a : α) (ha : a ∈ L) (hlen : idx a < R.length) :
    (L.foldl (fun R x => R.set (idx x) (val x)) R)[idx a]? = some (val a) := by
  induction L generalizing R with
  | nil => simp at ha
  | cons x L ih =>
    simp only [List.map_cons, List.nodup_cons] at hnd
    simp only [List.foldl_cons]
    rcases List.mem_cons.mp ha with h | h
    · subst h
      rw [getElem?_foldl_set_of_not_mem _ _ _ _ _ hnd.1, List.getElem?_set_self hlen]
    · exact ih _ hnd.2 h (by simpa using hlen)

/-- After the bake pass, the raw reference pose holds, at every bone that has a resolved
translation, the transform computed for that bone. -/
theorem getElem?_BakePass (Component : USkeletalMeshComponent) (Pose : List FTransform)
    (RelativeTranslations : TMap Int FVector3f) (Raw : List FTransform)
    (hnd : (TMap.Keys RelativeTranslations).Nodup)
    (hnn : ∀ k ∈ TMap.Keys RelativeTranslations, 0 ≤ k)
    (Bone : Int) (Translation : FVector3f)
    (h : RelativeTranslations.Find Bone = some Translation) (hlen : Bone.toNat < Raw.length) :
    (BakePass Component Pose RelativeTranslations Raw)[Bone.toNat]? =
      some (FinalTransform Component Pose (Bone, Translation)) := by
  unfold BakePass
  have hnd' : (RelativeTranslations.map fun e => e.1.toNat).Nodup := by
    have h1 : (RelativeTranslations.map fun e => e.1.toNat) =
        (TMap.Keys RelativeTranslations).map Int.toNat := by
      simp [TMap.Keys, List.map_map, Function.comp_def]
    rw [h1]
    apply List.Nodup.map_on _ hnd
    intro x hx y hy hxy
    have hx0 := hnn x hx
    have hy0 := hnn y hy
    omega
  exact getElem?_foldl_set (fun e : Int × FVector3f => e.1.toNat)
    (fun e => FinalTransform Component Pose e) RelativeTranslations Raw hnd'
    (Bone, Translation) (TMap.mem_of_Find _ h) hlen

theorem DuplicatedMesh_Apply (self : UMorphToSkeletonComponent) (Cache : BoneWeightMapCache)
    (Component : USkeletalMeshComponent) (NewObject : Nat) :
    (ApplyTranslationsToSkeleton self Cache Component NewObject).1.DuplicatedMesh =
      some (ApplyTranslationsToSkeleton self Cache Component NewObject).2.GetSkeletalMeshAsset ∧
    (ApplyTranslationsToSkeleton self Cache Component
      NewObject).2.GetSkeletalMeshAsset.RefSkeleton.RawRefBonePose =
      BakePass Component (BakeMesh self Component NewObject).RefSkeleton.FinalRefBonePose
        (GetRelativeTransforms (ApplyTranslationsToSkeleton self Cache Component NewObject).1)
        (BakeMesh self Component NewObject).RefSkeleton.RawRefBonePose ∧
    (ApplyTranslationsToSkeleton self Cache Component
      NewObject).2.GetSkeletalMeshAsset.RefSkeleton.FinalRefBonePose =
      (ApplyTranslationsToSkeleton self Cache Component
        NewObject).2.GetSkeletalMeshAsset.RefSkeleton.RawRefBonePose := by
  unfold ApplyTranslationsToSkeleton BakeMesh GetRelativeTransforms
  cases self.DuplicatedMesh with
  | none => exact ⟨rfl, rfl, rfl⟩
  | some Mesh =>
    cases Mesh.IsValidLowLevelFast <;> exact ⟨rfl, rfl, rfl⟩

/-- Claim C14 (root bake): when the root bone 0 has the resolved translation (x,y,z), the
reference-pose local transform that the bake step of `ApplyTranslationsToSkeleton` writes
for it, and that the rebuilt skeleton of the duplicate then holds, has location exactly
(y,x,z) and the rotation of the root in the reference pose the bake step read, which on
the first bake of an instance is the reference pose of the source mesh. -/
theorem root_bake (self : UMorphToSkeletonComponent) (Cache : BoneWeightMapCache)
    (Component : USkeletalMeshComponent) (NewObject : Nat) (x y z : ℚ)
    (hnd : (TMap.Keys (GetRelativeTransforms
      (ApplyTranslationsToSkeleton self Cache Component NewObject).1)).Nodup)
    (hnn : ∀ k ∈ TMap.Keys (GetRelativeTransforms
      (ApplyTranslationsToSkeleton self Cache Component NewObject).1), 0 ≤ k)
    (hroot : (GetRelativeTransforms
      (ApplyTranslationsToSkeleton self Cache Component NewObject).1).Find 0 = some (x, y, z))
    (hlen : 0 < (BakeMesh self Component NewObject).RefSkeleton.RawRefBonePose.length) :
    FinalTransform Component (BakeMesh self Component NewObject).RefSkeleton.FinalRefBonePose
      (0, (x, y, z)) = ⟨(BakePose self Component NewObject 0).Rotation, (y, x, z)⟩ ∧
    (ApplyTranslationsToSkeleton self Cache Component
      NewObject).2.GetSkeletalMeshAsset.RefSkeleton.RawRefBonePose[0]? =
      some ⟨(BakePose self Component NewObject 0).Rotation, (y, x, z)⟩ ∧
    (ApplyTranslationsToSkeleton self Cache Component
      NewObject).2.GetSkeletalMeshAsset.RefSkeleton.FinalRefBonePose[0]? =
      some ⟨(BakePose self Component NewObject 0).Rotation, (y, x, z)⟩ ∧
    (self.DuplicatedMesh = none →
      BakePose self Component NewObject 0 =
        Component.GetSkeletalMeshAsset.RefSkeleton.FinalRefBonePose.getD 0 ⟨⟨0, 0, 0⟩, 0⟩) := by
  obtain ⟨-, hraw, hfinal⟩ := DuplicatedMesh_Apply self Cache Component NewObject
  have hFT : FinalTransform Component
      (BakeMesh self Component NewObject).RefSkeleton.FinalRefBonePose (0, (x, y, z)) =
      ⟨(BakePose self Component NewObject 0).Rotation, (y, x, z)⟩ := by
    simp [FinalTransform, BakePose]
  have hget := getElem?_BakePass Component
    (BakeMesh self Component NewObject).RefSkeleton.FinalRefBonePose _
    (BakeMesh self Component NewObject).RefSkeleton.RawRefBonePose hnd hnn 0 (x, y, z) hroot
    (by simpa using hlen)
  rw [hFT] at hget
  refine ⟨hFT, ?_, ?_, ?_⟩
  · rw [hraw]
    exact hget
  · rw [hfinal, hraw]
    exact hget
  · intro hnone
    unfold BakePose BakeMesh
    rw [hnone]
    rfl

/-- Witness of claim C14: with parent average (2,0,0) the root resolves to (2,0,0) and its
written location is (0,2,0), with the rotation of the source reference pose. -/
theorem root_bake_witness :
    (GetRelativeTransforms
      (ApplyTranslationsToSkeleton ParentChildInstance [] TwoBoneComponent 8).1).Find 0 =
      some (2, 0, 0) ∧
    (ApplyTranslationsToSkeleton ParentChildInstance [] TwoBoneComponent
      8).2.GetSkeletalMeshAsset.RefSkeleton.RawRefBonePose[0]? =
      some ⟨⟨0, 0, 0⟩, (0, 2, 0)⟩ :=
  ⟨by decide!,
    ((root_bake ParentChildInstance [] TwoBoneComponent 8 2 0 0 (by decide!) (by decide!)
      (by decide!) (by decide!)).2.1).trans (by decide!)⟩

/-- The bake step for a bone other than the root, over the pose the step reads: with
resolved translation (x,y,z) and parent p, the reference-pose local transform that the
bake step writes is `TransformToBoneSpace(p, L + (y,-x,z), R)` where `(L, R)` is
`TransformFromBoneSpace(p, .)` of the location and rotation of the bone in the pose the
step read from the duplicate. That pose is the reference pose of the source mesh only on
the first bake of an instance; on a later bake it is the pose the previous bake wrote. -/
theorem non_root_bake (self : UMorphToSkeletonComponent) (Cache : BoneWeightMapCache)
    (Component : USkeletalMeshComponent) (NewObject : Nat) (Bone : Int) (x y z : ℚ)
    (hbone : Bone ≠ 0)
    (hnd : (TMap.Keys (GetRelativeTransforms
      (ApplyTranslationsToSkeleton self Cache Component NewObject).1)).Nodup)
    (hnn : ∀ k ∈ TMap.Keys (GetRelativeTransforms
      (ApplyTranslationsToSkeleton self Cache Component NewObject).1), 0 ≤ k)
    (hfind : (GetRelativeTransforms
      (ApplyTranslationsToSkeleton self Cache Component NewObject).1).Find Bone =
      some (x, y, z))
    (hlen : Bone.toNat <
      (BakeMesh self Component NewObject).RefSkeleton.RawRefBonePose.length) :
    (ApplyTranslationsToSkeleton self Cache Component
      NewObject).2.GetSkeletalMeshAsset.RefSkeleton.RawRefBonePose[Bone.toNat]? =
      some ⟨(Component.TransformToBoneSpace
          (Component.GetBoneName
            (Component.GetSkeletalMeshAsset.RefSkeleton.GetParentIndex Bone))
          ((Component.TransformFromBoneSpace
            (Component.GetBoneName
              (Component.GetSkeletalMeshAsset.RefSkeleton.GetParentIndex Bone))
            (BakePose self Component NewObject Bone).Location
            (BakePose self Component NewObject Bone).Rotation).1 + (y, -x, z))
          (Component.TransformFromBoneSpace
            (Component.GetBoneName
              (Component.GetSkeletalMeshAsset.RefSkeleton.GetParentIndex Bone))
            (BakePose self Component NewObject Bone).Location
            (BakePose self Component NewObject Bone).Rotation).2).2,
        (Component.TransformToBoneSpace
          (Component.GetBoneName
            (Component.GetSkeletalMeshAsset.RefSkeleton.GetParentIndex Bone))
          ((Component.TransformFromBoneSpace
            (Component.GetBoneName
              (Component.GetSkeletalMeshAsset.RefSkeleton.GetParentIndex Bone))
            (BakePose self Component NewObject Bone).Location
            (BakePose self Component NewObject Bone).Rotation).1 + (y, -x, z))
          (Component.TransformFromBoneSpace
            (Component.GetBoneName
              (Component.GetSkeletalMeshAsset.RefSkeleton.GetParentIndex Bone))
            (BakePose self Component NewObject Bone).Location
            (BakePose self Component NewObject Bone).Rotation).2).1⟩ ∧
    ((∀ Name Location Rotation,
        Component.TransformFromBoneSpace Name Location Rotation = (Location, Rotation)) →
      (∀ Name Location Rotation,
        Component.TransformToBoneSpace Name Location Rotation = (Location, Rotation)) →
      (ApplyTranslationsToSkeleton self Cache Component
        NewObject).2.GetSkeletalMeshAsset.RefSkeleton.RawRefBonePose[Bone.toNat]? =
        some ⟨(BakePose self Component NewObject Bone).Rotation,
          (BakePose self Component NewObject Bone).Location + (y, -x, z)⟩) ∧
    (self.DuplicatedMesh = none →
      BakePose self Component NewObject Bone =
        Component.GetSkeletalMeshAsset.RefSkeleton.FinalRefBonePose.getD Bone.toNat
          ⟨⟨0, 0, 0⟩, 0⟩) := by
  obtain ⟨-, hraw, -⟩ := DuplicatedMesh_Apply self Cache Component NewObject
  have hget := getElem?_BakePass Component
    (BakeMesh self Component NewObject).RefSkeleton.FinalRefBonePose _
    (BakeMesh self Component NewObject).RefSkeleton.RawRefBonePose hnd hnn Bone (x, y, z) hfind
    hlen
  rw [← hraw] at hget
  have hFT : FinalTransform Component
      (BakeMesh self Component NewObject).RefSkeleton.FinalRefBonePose (Bone, (x, y, z)) =
      ⟨(Component.TransformToBoneSpace
          (Component.GetBoneName
            (Component.GetSkeletalMeshAsset.RefSkeleton.GetParentIndex Bone))
          ((Component.TransformFromBoneSpace
            (Component.GetBoneName
              (Component.GetSkeletalMeshAsset.RefSkeleton.GetParentIndex Bone))
            (BakePose self Component NewObject Bone).Location
            (BakePose self Component NewObject Bone).Rotation).1 + (y, -x, z))
          (Component.TransformFromBoneSpace
            (Component.GetBoneName
              (Component.GetSkeletalMeshAsset.RefSkeleton.GetParentIndex Bone))
            (BakePose self Component NewObject Bone).Location
            (BakePose self Component NewObject Bone).Rotation).2).2,
        (Component.TransformToBoneSpace
          (Component.GetBoneName
            (Component.GetSkeletalMeshAsset.RefSkeleton.GetParentIndex Bone))
          ((Component.TransformFromBoneSpace
            (Component.GetBoneName
              (Component.GetSkeletalMeshAsset.RefSkeleton.GetParentIndex Bone))
            (BakePose self Component NewObject Bone).Location
            (BakePose self Component NewObject Bone).Rotation).1 + (y, -x, z))
          (Component.TransformFromBoneSpace
            (Component.GetBoneName
              (Component.GetSkeletalMeshAsset.RefSkeleton.GetParentIndex Bone))
            (BakePose self Component NewObject Bone).Location
            (BakePose self Component NewObject Bone).Rotation).2).1⟩ := by
    simp [FinalTransform, BakePose, hbone]
  rw [hFT] at hget
  refine ⟨hget, ?_, ?_⟩
  · intro hfrom hto
    rw [hget, hto, hfrom]
  · intro hnone
    unfold BakePose BakeMesh
    rw [hnone]

/-- An instance of `non_root_bake` on a first bake: with identity conversions, the child
bone 1 with resolved translation (0,1,0) and reference location (0,0,0) is written at
(1,0,0), with its rotation unchanged. -/
theorem non_root_bake_witness :
    (GetRelativeTransforms
      (ApplyTranslationsToSkeleton ParentChildInstance [] TwoBoneComponent 8).1).Find 1 =
      some (0, 1, 0) ∧
    (ApplyTranslationsToSkeleton ParentChildInstance [] TwoBoneComponent
      8).2.GetSkeletalMeshAsset.RefSkeleton.RawRefBonePose[(1 : Int).toNat]? =
      some ⟨⟨0, 0, 0⟩, (1, 0, 0)⟩ :=
  ⟨by decide!,
    ((non_root_bake ParentChildInstance [] TwoBoneComponent 8 1 0 1 0 (by decide) (by decide!)
      (by decide!) (by decide!) (by decide!)).2.1 (fun _ _ _ => rfl)
      (fun _ _ _ => rfl)).trans (by decide!)⟩

/-- Claim C15, evaluated on later bakes of one instance on `OpenSharedComponent`, whose
bone space conversions are the identity and whose child bone 1 has the original reference
location (0,0,0). The first `MorphToSkeleton` call (weight 1 of "Open") resolves (0,0,10)
and writes the location (0,0,10), as the claim says. A second call with weight 2 resolves
(0,0,20) and writes (0,0,30), and a second call that repeats weight 1 resolves (0,0,10)
and writes (0,0,20): the offset is added to the location the previous bake wrote, not to
the original reference location. -/
theorem non_root_bake_later_bake :
    OpenSharedComponent.GetSkeletalMeshAsset.RefSkeleton.FinalRefBonePose[1]? =
      some ⟨⟨0, 0, 0⟩, (0, 0, 0)⟩ ∧
    ((GetRelativeTransforms OpenFirstRun.1).Find 1 = some (0, 0, 10) ∧
      OpenFirstRun.2.GetSkeletalMeshAsset.RefSkeleton.RawRefBonePose[1]? =
        some ⟨⟨0, 0, 0⟩, (0, 0, 10)⟩) ∧
    ((GetRelativeTransforms OpenSecondRun.1).Find 1 = some (0, 0, 20) ∧
      OpenSecondRun.2.GetSkeletalMeshAsset.RefSkeleton.RawRefBonePose[1]? =
        some ⟨⟨0, 0, 0⟩, (0, 0, 30)⟩) ∧
    ((GetRelativeTransforms OpenRepeatRun.1).Find 1 = some (0, 0, 10) ∧
      OpenRepeatRun.2.GetSkeletalMeshAsset.RefSkeleton.RawRefBonePose[1]? =
        some ⟨⟨0, 0, 0⟩, (0, 0, 20)⟩) :=
  ⟨by decide!, ⟨by decide!, by decide!⟩, ⟨by decide!, by decide!⟩,
    ⟨by decide!, by decide!⟩⟩

/-! ## The first-touch rule in closed form -/

theorem SectionOf_eq_of_mem (LODRenderData : FSkeletalMeshLODRenderData)
    (hsec : SectionsDisjoint LODRenderData) (Section : FSkelMeshRenderSection)
    (hS : Section ∈ LODRenderData.RenderSections) (v : Nat)
    (hv : Section.InRange v = true) : SectionOf LODRenderData v = some Section := by
  unfold SectionOf
  unfold SectionsDisjoint at hsec
  generalize LODRenderData.RenderSections = Sections at hsec hS
  induction Sections with
  | nil => simp at hS
  | cons S0 Sections ih =>
    rw [List.pairwise_cons] at hsec
    by_cases h0 : S0.InRange v = true
    · rcases List.mem_cons.mp hS with h | h
      · subst h
        simp [List.find?_cons, h0]
      · have := hsec.1 Section h v ((mem_VertexIndices _ _).mpr h0)
        rw [hv] at this
        exact Bool.noConfusion this
    · have hne : Section ≠ S0 := fun e => h0 (e ▸ hv)
      have hmem : Section ∈ Sections := by
        rcases List.mem_cons.mp hS with h | h
        · exact absurd h hne
        · exact h
      simp only [List.find?_cons, h0]
      exact ih hsec.2 hmem

theorem SkinWeight_of_mem (LODRenderData : FSkeletalMeshLODRenderData)
    (hsec : SectionsDisjoint LODRenderData) (Section : FSkelMeshRenderSection)
    (hS : Section ∈ LODRenderData.RenderSections) (Bone : Int) (v : Nat)
    (hv : Section.InRange v = true) :
    SkinWeight LODRenderData Bone v =
      SlotWeight LODRenderData.SkinWeightVertexBuffer Section v Bone := by
  unfold SkinWeight
  rw [SectionOf_eq_of_mem LODRenderData hsec Section hS v hv]

theorem toFinset_InsertKey (l : List Nat) (v : Nat) :
    (InsertKey l v).toFinset = insert v l.toFinset := by
  ext u
  simp only [List.mem_toFinset, mem_InsertKey, Finset.mem_insert]
  tauto

theorem toFinset_foldl_InsertKey (L l : List Nat) :
    (L.foldl InsertKey l).toFinset = l.toFinset ∪ L.toFinset := by
  ext u
  simp only [List.mem_toFinset, mem_foldl_InsertKey, Finset.mem_union]

/-- Under the first-touch rule a list of visits adds to a bone the weight of every distinct
visited vertex that was not yet affected, once. -/
theorem FirstTouchWeight_eq_sum (SkinWeightBuffer : FSkinWeightVertexBuffer) (Bone : Int)
    (W : Nat → ℚ) (L : List (FSkelMeshRenderSection × FMorphTargetDelta)) (Affected : TSet)
    (hW : ∀ V ∈ L, SlotWeight SkinWeightBuffer V.1 V.2.SourceIdx Bone = W V.2.SourceIdx) :
    FirstTouchWeight SkinWeightBuffer Bone Affected L =
      Finset.sum ((L.map fun V => V.2.SourceIdx).toFinset \ Affected.toFinset) W := by
  induction L generalizing Affected with
  | nil => simp [FirstTouchWeight]
  | cons V L ih =>
    simp only [FirstTouchWeight, List.map_cons, List.toFinset_cons]
    rw [ih _ (fun V' hV' => hW V' (List.mem_cons_of_mem _ hV')), toFinset_InsertKey,
      hW V (List.mem_cons_self _ _)]
    by_cases hmem : V.2.SourceIdx ∈ Affected
    · have hins : insert V.2.SourceIdx Affected.toFinset = Affected.toFinset :=
        Finset.insert_eq_of_mem (List.mem_toFinset.mpr hmem)
      have hsd : insert V.2.SourceIdx (L.map fun V => V.2.SourceIdx).toFinset \
          Affected.toFinset =
          (L.map fun V => V.2.SourceIdx).toFinset \ Affected.toFinset := by
        ext u
        simp only [Finset.mem_sdiff, Finset.mem_insert, List.mem_toFinset]
        constructor
        · rintro ⟨h1 | h1, h2⟩
          · exact absurd (h1 ▸ hmem) h2
          · exact ⟨h1, h2⟩
        · rintro ⟨h1, h2⟩
          exact ⟨Or.inr h1, h2⟩
      simp only [hmem, if_true, zero_add, hins, hsd]
    · have hsd : insert V.2.SourceIdx (L.map fun V => V.2.SourceIdx).toFinset \
          Affected.toFinset =
          insert V.2.SourceIdx ((L.map fun V => V.2.SourceIdx).toFinset \
            insert V.2.SourceIdx Affected.toFinset) := by
        ext u
        simp only [Finset.mem_sdiff, Finset.mem_insert, List.mem_toFinset, not_or]
        constructor
        · rintro ⟨h1 | h1, h2⟩
          · exact Or.inl h1
          · by_cases hu : u = V.2.SourceIdx
            · exact Or.inl hu
            · exact Or.inr ⟨h1, hu, h2⟩
        · rintro (h1 | ⟨h1, -, h3⟩)
          · exact ⟨Or.inl h1, h1 ▸ hmem⟩
          · exact ⟨Or.inr h1, h3⟩
      have hnot : V.2.SourceIdx ∉ (L.map fun V => V.2.SourceIdx).toFinset \
          insert V.2.SourceIdx Affected.toFinset := by
        simp
      simp only [hmem, if_false]
      rw [hsd, Finset.sum_insert hnot]

theorem mem_EffectiveVisits (Component : USkeletalMeshComponent) (MorphTarget : FName)
    (MorphValue : ℚ) (V : FSkelMeshRenderSection × FMorphTargetDelta)
    (h : V ∈ EffectiveVisits Component MorphTarget MorphValue) :
    V.1 ∈ Component.GetSkeletalMeshAsset.LODRenderData.RenderSections ∧
      V.1.InRange V.2.SourceIdx = true := by
  unfold EffectiveVisits at h
  split at h
  · simp at h
  · cases hl : FindMorphLOD0 Component MorphTarget with
    | none =>
      rw [hl] at h
      simp at h
    | some lod =>
      rw [hl] at h
      exact Visits_mem _ _ _ h

/-- The affected vertex set and the accumulator after `SetMorph` are the fold of
`CacheVisit`, with the net weight, over the visits the call makes. -/
theorem SetMorph_state (self : UMorphToSkeletonComponent) (Component : USkeletalMeshComponent)
    (MorphTarget : FName) (MorphValue : ℚ) :
    ((SetMorph self Component MorphTarget MorphValue).CachedAffectedVertices,
      (SetMorph self Component MorphTarget MorphValue).CachedTotalTranslations) =
      (EffectiveVisits Component MorphTarget
        (MorphValue - (self.CachedMorphs.Find MorphTarget).getD 0)).foldl
        (CacheVisit Component.GetSkeletalMeshAsset.LODRenderData.SkinWeightVertexBuffer
          (MorphValue - (self.CachedMorphs.Find MorphTarget).getD 0))
        (self.CachedAffectedVertices, self.CachedTotalTranslations) := by
  rw [Affected_SetMorph, Totals_SetMorph]
  unfold EffectiveVisits
  split
  · rfl
  · cases FindMorphLOD0 Component MorphTarget with
    | none => rfl
    | some lod =>
      simp only []
      rw [← CacheMorphLOD_eq_foldl]

/-! ## Claim C17: the first-touch weight rule -/

theorem smul_sum_ite_smul (I : List (Int × ℚ)) (Bone : Int) (MorphValue : ℚ)
    (Delta : FVector3f) :
    MorphValue • ((I.map fun bw => if bw.1 = Bone then bw.2 else 0).sum • Delta) =
      (I.map fun bw => if bw.1 = Bone then bw.2 • (MorphValue • Delta) else 0).sum := by
  induction I with
  | nil => simp
  | cons bw I ih =>
    simp only [List.map_cons, List.sum_cons, add_smul, smul_add, ih]
    by_cases h : bw.1 = Bone
    · simp only [h, if_true]
      rw [smul_comm]
    · simp [h]

theorem smul_sum_SlotWeight (SkinWeightBuffer : FSkinWeightVertexBuffer) (MorphValue : ℚ)
    (L : List (FSkelMeshRenderSection × FMorphTargetDelta)) (Bone : Int) :
    MorphValue • (L.map fun V =>
      SlotWeight SkinWeightBuffer V.1 V.2.SourceIdx Bone • V.2.PositionDelta).sum =
      (L.map fun V =>
        ((Influences SkinWeightBuffer V.1 V.2.SourceIdx).map fun bw =>
          if bw.1 = Bone then bw.2 • (MorphValue • V.2.PositionDelta) else 0).sum).sum := by
  rw [list_smul_sum]
  congr 1
  apply List.map_congr_left
  intro V _
  exact smul_sum_ite_smul _ _ _ _

/-- Claim C17: in one `CacheTranslation` call with a net weight that is not nearly zero,
on a mesh whose sections are disjoint, the total displacement of a bone grows by
`w * (net weight * delta)` for every visit (affected section, delta of a vertex in its
range) and every valid influence `(bone, w)` of the visited vertex, once per delta; the
total weight of the bone grows by the skin weight of every distinct visited vertex that
was not in the affected vertex set before the call, once per vertex however many deltas
name it, and by nothing for a vertex that was already affected; the skin weight of a
visited vertex for a bone is the sum of the weights of its influences naming that bone,
so each influence adds its own weight to its own bone. -/
theorem first_touch_weight_rule (self : UMorphToSkeletonComponent)
    (Component : USkeletalMeshComponent) (MorphTarget : FName) (MorphValue : ℚ)
    (MorphLOD0 : FMorphTargetLODModel) (hvalue : IsNearlyZero MorphValue = false)
    (hlod : FindMorphLOD0 Component MorphTarget = some MorphLOD0)
    (hsec : SectionsDisjoint Component.GetSkeletalMeshAsset.LODRenderData) (Bone : Int) :
    DisplacementOf
        (CacheTranslation self Component MorphTarget MorphValue).CachedTotalTranslations Bone =
      DisplacementOf self.CachedTotalTranslations Bone +
        ((Visits Component.GetSkeletalMeshAsset.LODRenderData MorphLOD0).map fun Visit =>
          ((Influences Component.GetSkeletalMeshAsset.LODRenderData.SkinWeightVertexBuffer
              Visit.1 Visit.2.SourceIdx).map fun bw =>
            if bw.1 = Bone then bw.2 • (MorphValue • Visit.2.PositionDelta) else 0).sum).sum ∧
    WeightOf
        (CacheTranslation self Component MorphTarget MorphValue).CachedTotalTranslations Bone =
      WeightOf self.CachedTotalTranslations Bone +
        Finset.sum
          ((VisitedVertices Component.GetSkeletalMeshAsset.LODRenderData MorphLOD0).toFinset \
            self.CachedAffectedVertices.toFinset)
          (SkinWeight Component.GetSkeletalMeshAsset.LODRenderData Bone) ∧
    (∀ Visit ∈ Visits Component.GetSkeletalMeshAsset.LODRenderData MorphLOD0,
      SkinWeight Component.GetSkeletalMeshAsset.LODRenderData Bone Visit.2.SourceIdx =
        ((Influences Component.GetSkeletalMeshAsset.LODRenderData.SkinWeightVertexBuffer
            Visit.1 Visit.2.SourceIdx).map fun bw => if bw.1 = Bone then bw.2 else 0).sum) := by
  have hW : ∀ Visit ∈ Visits Component.GetSkeletalMeshAsset.LODRenderData MorphLOD0,
      SlotWeight Component.GetSkeletalMeshAsset.LODRenderData.SkinWeightVertexBuffer Visit.1
        Visit.2.SourceIdx Bone =
      SkinWeight Component.GetSkeletalMeshAsset.LODRenderData Bone Visit.2.SourceIdx := by
    intro Visit hV
    obtain ⟨hS, hr⟩ := Visits_mem _ _ _ hV
    exact (SkinWeight_of_mem _ hsec _ hS Bone _ hr).symm
  have hT : (CacheTranslation self Component MorphTarget MorphValue).CachedTotalTranslations =
      ((Visits Component.GetSkeletalMeshAsset.LODRenderData MorphLOD0).foldl
        (CacheVisit Component.GetSkeletalMeshAsset.LODRenderData.SkinWeightVertexBuffer
          MorphValue) (self.CachedAffectedVertices, self.CachedTotalTranslations)).2 := by
    rw [Totals_CacheTranslation, hvalue, hlod]
    simp only [Bool.false_eq_true, if_false]
    rw [CacheMorphLOD_eq_foldl]
  refine ⟨?_, ?_, ?_⟩
  · rw [hT, DisplacementOf_foldl_CacheVisit, smul_sum_SlotWeight]
  · rw [hT, WeightOf_foldl_CacheVisit, FirstTouchWeight_eq_sum _ _ _ _ _ hW]
    rfl
  · intro Visit hV
    rw [← hW Visit hV]
    rfl

/-- Witness of claim C17 on `RepeatComponent`, whose morph target "Twice" holds two deltas
for vertex 0: from a clean instance bone 0 receives the weight 3/5 once and the
displacement 3/5 * ((1,0,0) + (0,1,0)), and bone 1 the weight 2/5 once and the
displacement 2/5 * ((1,0,0) + (0,1,0)); from an instance whose affected vertex set holds
vertex 0 already, bone 0 receives no weight. -/
theorem first_touch_weight_rule_witness :
    IsNearlyZero (1 : ℚ) = false ∧
    SectionsDisjoint RepeatComponent.GetSkeletalMeshAsset.LODRenderData ∧
    DisplacementOf (CacheTranslation UMorphToSkeletonComponent.Clean RepeatComponent "Twice"
      1).CachedTotalTranslations 0 = (3 / 5, 3 / 5, 0) ∧
    WeightOf (CacheTranslation UMorphToSkeletonComponent.Clean RepeatComponent "Twice"
      1).CachedTotalTranslations 0 = 3 / 5 ∧
    DisplacementOf (CacheTranslation UMorphToSkeletonComponent.Clean RepeatComponent "Twice"
      1).CachedTotalTranslations 1 = (2 / 5, 2 / 5, 0) ∧
    WeightOf (CacheTranslation UMorphToSkeletonComponent.Clean RepeatComponent "Twice"
      1).CachedTotalTranslations 1 = 2 / 5 ∧
    WeightOf (CacheTranslation
      { UMorphToSkeletonComponent.Clean with CachedAffectedVertices := [0] } RepeatComponent
      "Twice" 1).CachedTotalTranslations 0 = 0 :=
  ⟨by decide!, by decide,
    (first_touch_weight_rule UMorphToSkeletonComponent.Clean RepeatComponent "Twice" 1
      ⟨[⟨(1, 0, 0), 0⟩, ⟨(0, 1, 0), 0⟩], [0]⟩ (by decide!) (by decide!) (by decide)
      0).1.trans (by decide!),
    (first_touch_weight_rule UMorphToSkeletonComponent.Clean RepeatComponent "Twice" 1
      ⟨[⟨(1, 0, 0), 0⟩, ⟨(0, 1, 0), 0⟩], [0]⟩ (by decide!) (by decide!) (by decide)
      0).2.1.trans (by decide!),
    (first_touch_weight_rule UMorphToSkeletonComponent.Clean RepeatComponent "Twice" 1
      ⟨[⟨(1, 0, 0), 0⟩, ⟨(0, 1, 0), 0⟩], [0]⟩ (by decide!) (by decide!) (by decide)
      1).1.trans (by decide!),
    (first_touch_weight_rule UMorphToSkeletonComponent.Clean RepeatComponent "Twice" 1
      ⟨[⟨(1, 0, 0), 0⟩, ⟨(0, 1, 0), 0⟩], [0]⟩ (by decide!) (by decide!) (by decide)
      1).2.1.trans (by decide!),
    (first_touch_weight_rule
      { UMorphToSkeletonComponent.Clean with CachedAffectedVertices := [0] } RepeatComponent
      "Twice" 1 ⟨[⟨(1, 0, 0), 0⟩, ⟨(0, 1, 0), 0⟩], [0]⟩ (by decide!) (by decide!) (by decide)
      0).2.1.trans (by decide!)⟩

/-! ## Claim C11: order independence of `SetMorph` -/

theorem Find_eq_of_TotalsOf (T T' : TMap Int (ℚ × FVector3f)) (Bone : Int)
    (hk : Bone ∈ TMap.Keys T ↔ Bone ∈ TMap.Keys T')
    (hw : WeightOf T Bone = WeightOf T' Bone)
    (hd : DisplacementOf T Bone = DisplacementOf T' Bone) : T.Find Bone = T'.Find Bone := by
  by_cases h : Bone ∈ TMap.Keys T
  · rw [Find_eq_some_TotalsOf T Bone h, Find_eq_some_TotalsOf T' Bone (hk.mp h)]
    congr 1
    exact Prod.ext hw hd
  · rw [(TMap.Find_eq_none_iff _ _).mpr h,
      (TMap.Find_eq_none_iff _ _).mpr (fun h' => h (hk.mpr h'))]

theorem sum_sdiff_add_sum_sdiff_union (s t x : Finset Nat) (f : Nat → ℚ) :
    Finset.sum (s \ x) f + Finset.sum (t \ (x ∪ s)) f = Finset.sum ((s ∪ t) \ x) f := by
  rw [← Finset.sum_union]
  · congr 1
    ext u
    simp only [Finset.mem_union, Finset.mem_sdiff, not_or]
    tauto
  · rw [Finset.disjoint_left]
    intro u hu hu'
    simp only [Finset.mem_union, Finset.mem_sdiff, not_or] at hu hu'
    exact hu'.2.2 hu.1

/-- Two lists of visits over the same skin weights commute: folding one and then the other
gives the same affected vertices and the same accumulator entries in either order. -/
theorem foldl_CacheVisit_swap (SkinWeightBuffer : FSkinWeightVertexBuffer) (ValueA ValueB : ℚ)
    (LA LB : List (FSkelMeshRenderSection × FMorphTargetDelta)) (W : Int → Nat → ℚ)
    (hA : ∀ Bone, ∀ V ∈ LA, SlotWeight SkinWeightBuffer V.1 V.2.SourceIdx Bone =
      W Bone V.2.SourceIdx)
    (hB : ∀ Bone, ∀ V ∈ LB, SlotWeight SkinWeightBuffer V.1 V.2.SourceIdx Bone =
      W Bone V.2.SourceIdx)
    (State : TSet × TMap Int (ℚ × FVector3f)) :
    (∀ v, v ∈ (LB.foldl (CacheVisit SkinWeightBuffer ValueB)
          (LA.foldl (CacheVisit SkinWeightBuffer ValueA) State)).1 ↔
        v ∈ (LA.foldl (CacheVisit SkinWeightBuffer ValueA)
          (LB.foldl (CacheVisit SkinWeightBuffer ValueB) State)).1) ∧
    (∀ Bone, (LB.foldl (CacheVisit SkinWeightBuffer ValueB)
          (LA.foldl (CacheVisit SkinWeightBuffer ValueA) State)).2.Find Bone =
        (LA.foldl (CacheVisit SkinWeightBuffer ValueA)
          (LB.foldl (CacheVisit SkinWeightBuffer ValueB) State)).2.Find Bone) := by
  refine ⟨fun v => ?_, fun Bone => ?_⟩
  · simp only [foldl_CacheVisit_fst, mem_foldl_InsertKey]
    tauto
  · apply Find_eq_of_TotalsOf
    · simp only [Keys_foldl_CacheVisit, mem_foldl_InsertKey]
      tauto
    · simp only [WeightOf_foldl_CacheVisit, foldl_CacheVisit_fst]
      rw [FirstTouchWeight_eq_sum _ _ (W Bone) LA _ (hA Bone),
        FirstTouchWeight_eq_sum _ _ (W Bone) LB _ (hB Bone),
        FirstTouchWeight_eq_sum _ _ (W Bone) LB _ (hB Bone),
        FirstTouchWeight_eq_sum _ _ (W Bone) LA _ (hA Bone)]
      simp only [toFinset_foldl_InsertKey]
      rw [add_assoc, add_assoc, sum_sdiff_add_sum_sdiff_union, sum_sdiff_add_sum_sdiff_union,
        Finset.union_comm]
    · simp only [DisplacementOf_foldl_CacheVisit]
      rw [add_right_comm]

/-- Claim C11: on a mesh whose sections are disjoint, for every instance state, distinct
morph targets A and B and weights a and b, `SetMorph(A, a)` followed by `SetMorph(B, b)`
and `SetMorph(B, b)` followed by `SetMorph(A, a)` give the same weight for every name in
`CachedMorphs`, the same members of `CachedAffectedVertices` and the same entry (total
weight and total displacement) for every bone in `CachedTotalTranslations`. -/
theorem SetMorph_order_independent (self : UMorphToSkeletonComponent)
    (Component : USkeletalMeshComponent) (A B : FName) (a b : ℚ) (hAB : A ≠ B)
    (hsec : SectionsDisjoint Component.GetSkeletalMeshAsset.LODRenderData) :
    (∀ Name, (SetMorph (SetMorph self Component A a) Component B b).CachedMorphs.Find Name =
      (SetMorph (SetMorph self Component B b) Component A a).CachedMorphs.Find Name) ∧
    (∀ VertexIndex,
      VertexIndex ∈
          (SetMorph (SetMorph self Component A a) Component B b).CachedAffectedVertices ↔
        VertexIndex ∈
          (SetMorph (SetMorph self Component B b) Component A a).CachedAffectedVertices) ∧
    (∀ Bone,
      (SetMorph (SetMorph self Component A a) Component B b).CachedTotalTranslations.Find
          Bone =
        (SetMorph (SetMorph self Component B b) Component A a).CachedTotalTranslations.Find
          Bone) := by
  have hW : ∀ (MorphTarget : FName) (MorphValue : ℚ) (Bone : Int),
      ∀ V ∈ EffectiveVisits Component MorphTarget MorphValue,
        SlotWeight Component.GetSkeletalMeshAsset.LODRenderData.SkinWeightVertexBuffer V.1
          V.2.SourceIdx Bone =
        SkinWeight Component.GetSkeletalMeshAsset.LODRenderData Bone V.2.SourceIdx := by
    intro MorphTarget MorphValue Bone V hV
    obtain ⟨hS, hr⟩ := mem_EffectiveVisits _ _ _ _ hV
    exact (SkinWeight_of_mem _ hsec _ hS Bone _ hr).symm
  have h1 := SetMorph_state (SetMorph self Component A a) Component B b
  have h2 := SetMorph_state (SetMorph self Component B b) Component A a
  rw [SetMorph_state self Component A a, CachedMorphs_SetMorph,
    TMap.Find_Add_ne _ _ (Ne.symm hAB)] at h1
  rw [SetMorph_state self Component B b, CachedMorphs_SetMorph,
    TMap.Find_Add_ne _ _ hAB] at h2
  have hswap := foldl_CacheVisit_swap
    Component.GetSkeletalMeshAsset.LODRenderData.SkinWeightVertexBuffer
    (a - (self.CachedMorphs.Find A).getD 0) (b - (self.CachedMorphs.Find B).getD 0)
    (EffectiveVisits Component A (a - (self.CachedMorphs.Find A).getD 0))
    (EffectiveVisits Component B (b - (self.CachedMorphs.Find B).getD 0))
    (SkinWeight Component.GetSkeletalMeshAsset.LODRenderData)
    (fun Bone => hW A _ Bone) (fun Bone => hW B _ Bone)
    (self.CachedAffectedVertices, self.CachedTotalTranslations)
  rw [← h1, ← h2] at hswap
  refine ⟨fun Name => ?_, hswap.1, hswap.2⟩
  simp only [CachedMorphs_SetMorph, TMap.Find_Add]
  by_cases hA : Name = A
  · by_cases hB : Name = B
    · exact absurd (hA.symm.trans hB) hAB
    · simp [hA, hAB]
  · simp [hA]

/-- Witness of claim C11 on `OverlapComponent`, where "A" and "B" both displace vertex 0:
in either order bone 0 ends with total weight 6/5 and total displacement
(3/5, 3/10, 3/10), and both names are recorded with their weights. -/
theorem SetMorph_order_independent_witness :
    SectionsDisjoint OverlapComponent.GetSkeletalMeshAsset.LODRenderData ∧
    (SetMorph (SetMorph UMorphToSkeletonComponent.Clean OverlapComponent "B" (1 / 2))
      OverlapComponent "A" 1).CachedTotalTranslations.Find 0 =
      some (6 / 5, (3 / 5, 3 / 10, 3 / 10)) ∧
    (SetMorph (SetMorph UMorphToSkeletonComponent.Clean OverlapComponent "B" (1 / 2))
      OverlapComponent "A" 1).CachedMorphs.Find "A" = some 1 :=
  ⟨by decide,
    ((SetMorph_order_independent UMorphToSkeletonComponent.Clean OverlapComponent "A" "B" 1
      (1 / 2) (by decide) (by decide)).2.2 0).symm.trans (by decide!),
    ((SetMorph_order_independent UMorphToSkeletonComponent.Clean OverlapComponent "A" "B" 1
      (1 / 2) (by decide) (by decide)).1 "A").symm.trans (by decide!)⟩

/-! ## Claim C18: completeness of the bone weight index -/

theorem EntryFromSlot_of_mem_Influences (SkinWeightBuffer : FSkinWeightVertexBuffer)
    (Section : FSkelMeshRenderSection) (VertexIndex : Nat) (bw : Int × ℚ)
    (h : bw ∈ Influences SkinWeightBuffer Section VertexIndex) :
    ∃ InfluenceIndex,
      EntryFromSlot SkinWeightBuffer Section VertexIndex InfluenceIndex bw.1 bw.2 := by
  unfold Influences at h
  rw [List.mem_filterMap] at h
  obtain ⟨slot, hslot, hres⟩ := h
  exact ⟨slot, List.mem_range.mp hslot, (ResolveInfluence_eq_some_iff _ _ _ _ _ _).mp hres⟩

/-- Writing influences that agree on the weight of (bone, vertex) keeps that weight. -/
theorem IndexWeight_foldl_SaveEntry_stable (i : Nat) (L : List (Int × ℚ))
    (m : TMap Int FBoneWeightMap) (Bone : Int) (v : Nat) (w : ℚ)
    (hL : i = v → ∀ bw ∈ L, bw.1 = Bone → 0 < bw.2 → bw.2 = w)
    (hm : IndexWeight m Bone v = w) :
    IndexWeight (L.foldl (SaveEntry i) m) Bone v = w := by
  induction L generalizing m with
  | nil => exact hm
  | cons x L ih =>
    simp only [List.foldl_cons]
    apply ih _ (fun e bw hbw => hL e bw (List.mem_cons_of_mem _ hbw))
    rw [IndexWeight_SaveEntry]
    split
    · rename_i hc
      exact hL hc.2.2.symm x (List.mem_cons_self _ _) hc.2.1.symm hc.1
    · exact hm

/-- Writing the influences of a vertex stores the weight of an influence of positive weight
when every influence naming the same bone with positive weight carries that weight. -/
theorem IndexWeight_foldl_SaveEntry_mem (v : Nat) (L : List (Int × ℚ))
    (m : TMap Int FBoneWeightMap) (Bone : Int) (w : ℚ)
    (hL : ∀ bw ∈ L, bw.1 = Bone → 0 < bw.2 → bw.2 = w)
    (hmem : (Bone, w) ∈ L) (hw : 0 < w) :
    IndexWeight (L.foldl (SaveEntry v) m) Bone v = w := by
  induction L generalizing m with
  | nil => simp at hmem
  | cons x L ih =>
    simp only [List.foldl_cons]
    rcases List.mem_cons.mp hmem with h | h
    · apply IndexWeight_foldl_SaveEntry_stable _ _ _ _ _ _
        (fun _ bw hbw => hL bw (List.mem_cons_of_mem _ hbw))
      rw [IndexWeight_SaveEntry, ← h]
      simp [hw]
    · exact ih _ (fun bw hbw => hL bw (List.mem_cons_of_mem _ hbw)) h

theorem IndexWeight_foldl_SaveVertex_stable (SkinWeightBuffer : FSkinWeightVertexBuffer)
    (Section : FSkelMeshRenderSection) (Lv : List Nat) (m : TMap Int FBoneWeightMap)
    (Bone : Int) (v : Nat) (w : ℚ)
    (hL : ∀ bw ∈ Influences SkinWeightBuffer Section v, bw.1 = Bone → 0 < bw.2 → bw.2 = w)
    (hm : IndexWeight m Bone v = w) :
    IndexWeight (Lv.foldl (SaveVertex SkinWeightBuffer Section) m) Bone v = w := by
  induction Lv generalizing m with
  | nil => exact hm
  | cons i Lv ih =>
    simp only [List.foldl_cons]
    apply ih
    rw [SaveVertex_eq_foldl]
    apply IndexWeight_foldl_SaveEntry_stable _ _ _ _ _ _ _ hm
    intro e
    rw [e]
    exact hL

theorem IndexWeight_foldl_SaveVertex_mem (SkinWeightBuffer : FSkinWeightVertexBuffer)
    (Section : FSkelMeshRenderSection) (Lv : List Nat) (m : TMap Int FBoneWeightMap)
    (Bone : Int) (v : Nat) (w : ℚ)
    (hL : ∀ bw ∈ Influences SkinWeightBuffer Section v, bw.1 = Bone → 0 < bw.2 → bw.2 = w)
    (hv : v ∈ Lv) (hmem : (Bone, w) ∈ Influences SkinWeightBuffer Section v) (hw : 0 < w) :
    IndexWeight (Lv.foldl (SaveVertex SkinWeightBuffer Section) m) Bone v = w := by
  induction Lv generalizing m with
  | nil => simp at hv
  | cons i Lv ih =>
    simp only [List.foldl_cons]
    rcases List.mem_cons.mp hv with h | h
    · subst h
      apply IndexWeight_foldl_SaveVertex_stable _ _ _ _ _ _ _ hL
      rw [SaveVertex_eq_foldl]
      exact IndexWeight_foldl_SaveEntry_mem _ _ _ _ _ hL hmem hw
    · exact ih _ h

theorem IndexWeight_SaveSection_stable (SkinWeightBuffer : FSkinWeightVertexBuffer)
    (Section : FSkelMeshRenderSection) (m : TMap Int FBoneWeightMap) (Bone : Int) (v : Nat)
    (w : ℚ)
    (hL : Section.InRange v = true →
      ∀ bw ∈ Influences SkinWeightBuffer Section v, bw.1 = Bone → 0 < bw.2 → bw.2 = w)
    (hm : IndexWeight m Bone v = w) :
    IndexWeight (SaveSection SkinWeightBuffer m Section) Bone v = w := by
  by_cases hr : Section.InRange v = true
  · unfold SaveSection
    exact IndexWeight_foldl_SaveVertex_stable _ _ _ _ _ _ _ (hL hr) hm
  · rw [IndexWeight_SaveSection_outside _ _ _ _ _ (by simpa using hr)]
    exact hm

theorem IndexWeight_foldl_SaveSection_stable (SkinWeightBuffer : FSkinWeightVertexBuffer)
    (Sections : List FSkelMeshRenderSection) (m : TMap Int FBoneWeightMap) (Bone : Int)
    (v : Nat) (w : ℚ)
    (hL : ∀ S ∈ Sections, S.InRange v = true →
      ∀ bw ∈ Influences SkinWeightBuffer S v, bw.1 = Bone → 0 < bw.2 → bw.2 = w)
    (hm : IndexWeight m Bone v = w) :
    IndexWeight (Sections.foldl (SaveSection SkinWeightBuffer) m) Bone v = w := by
  induction Sections generalizing m with
  | nil => exact hm
  | cons S Sections ih =>
    simp only [List.foldl_cons]
    apply ih _ (fun S' hS' => hL S' (List.mem_cons_of_mem _ hS'))
    exact IndexWeight_SaveSection_stable _ _ _ _ _ _ (hL S (List.mem_cons_self _ _)) hm

theorem IndexWeight_foldl_SaveSection_mem (SkinWeightBuffer : FSkinWeightVertexBuffer)
    (Sections : List FSkelMeshRenderSection) (m : TMap Int FBoneWeightMap) (Bone : Int)
    (v : Nat) (w : ℚ)
    (hL : ∀ S ∈ Sections, S.InRange v = true →
      ∀ bw ∈ Influences SkinWeightBuffer S v, bw.1 = Bone → 0 < bw.2 → bw.2 = w)
    (Section : FSkelMeshRenderSection) (hS : Section ∈ Sections)
    (hv : Section.InRange v = true)
    (hmem : (Bone, w) ∈ Influences SkinWeightBuffer Section v) (hw : 0 < w) :
    IndexWeight (Sections.foldl (SaveSection SkinWeightBuffer) m) Bone v = w := by
  induction Sections generalizing m with
  | nil => simp at hS
  | cons S Sections ih =>
    simp only [List.foldl_cons]
    rcases List.mem_cons.mp hS with h | h
    · subst h
      apply IndexWeight_foldl_SaveSection_stable _ _ _ _ _ _
        (fun S' hS' => hL S' (List.mem_cons_of_mem _ hS'))
      unfold SaveSection
      exact IndexWeight_foldl_SaveVertex_mem _ _ _ _ _ _ _
        (hL Section (List.mem_cons_self _ _) hv) ((mem_VertexIndices _ _).mpr hv) hmem hw
    · exact ih _ (fun S' hS' => hL S' (List.mem_cons_of_mem _ hS')) h

/-- A non-zero index weight is an entry of the index. -/
theorem Find_of_IndexWeight (Index : TMap Int FBoneWeightMap) (Bone : Int) (v : Nat) (w : ℚ)
    (h : IndexWeight Index Bone v = w) (hw : w ≠ 0) :
    ∃ WeightMap, Index.Find Bone = some WeightMap ∧
      WeightMap.VertexWeight.Find v = some w := by
  unfold IndexWeight at h
  cases hf : Index.Find Bone with
  | none =>
    rw [hf] at h
    exact absurd h.symm hw
  | some WeightMap =>
    rw [hf] at h
    refine ⟨WeightMap, rfl, ?_⟩
    cases hg : WeightMap.VertexWeight.Find v with
    | none =>
      simp only [Option.some_bind, hg, Option.getD_none] at h
      exact absurd h.symm hw
    | some w' =>
      simp only [Option.some_bind, hg, Option.getD_some] at h
      rw [h]

/-- Claim C18 (indexer completeness): for a valid mesh that is not yet cached, a section of
the mesh, a vertex in the section's vertex range and an influence slot of the vertex whose
section-local bone index lies within the section's bone map and whose raw weight is not
zero, `SaveBoneWeightMap` stores under the mesh the built index, and that index holds the
vertex under the global bone `BoneMap[local index]` with weight `raw / 65535`, provided
every slot of the vertex that names that global bone with non-zero weight, in a section
holding the vertex, carries that same weight (as it does when the vertex names the bone
in only one slot). -/
theorem index_complete (Cache : BoneWeightMapCache) (Component : USkeletalMeshComponent)
    (Section : FSkelMeshRenderSection) (VertexIndex InfluenceIndex : Nat) (Bone : Int)
    (Weight : ℚ)
    (hvalid : Component.GetSkeletalMeshAsset.IsValidLowLevelFast = true)
    (hnew : Cache.Contains Component.GetSkeletalMeshAsset.Id = false)
    (hS : Section ∈ Component.GetSkeletalMeshAsset.LODRenderData.RenderSections)
    (hv : Section.InRange VertexIndex = true)
    (hslot : EntryFromSlot Component.GetSkeletalMeshAsset.LODRenderData.SkinWeightVertexBuffer
      Section VertexIndex InfluenceIndex Bone Weight)
    (hraw : Component.GetSkeletalMeshAsset.LODRenderData.SkinWeightVertexBuffer.GetBoneWeight
      VertexIndex InfluenceIndex ≠ 0)
    (hone : ∀ Section' ∈ Component.GetSkeletalMeshAsset.LODRenderData.RenderSections,
      Section'.InRange VertexIndex = true → ∀ InfluenceIndex' Weight',
        EntryFromSlot Component.GetSkeletalMeshAsset.LODRenderData.SkinWeightVertexBuffer
          Section' VertexIndex InfluenceIndex' Bone Weight' →
        0 < Weight' → Weight' = Weight) :
    (SaveBoneWeightMap Cache Component).Find Component.GetSkeletalMeshAsset.Id =
      some (BuildBoneMapVertexWeights Component.GetSkeletalMeshAsset.LODRenderData) ∧
    ∃ WeightMap,
      (BuildBoneMapVertexWeights Component.GetSkeletalMeshAsset.LODRenderData).Find Bone =
        some WeightMap ∧
      WeightMap.VertexWeight.Find VertexIndex =
        some ((Component.GetSkeletalMeshAsset.LODRenderData.SkinWeightVertexBuffer.GetBoneWeight
          VertexIndex InfluenceIndex : ℚ) / 65535) := by
  have hW : Weight =
      (Component.GetSkeletalMeshAsset.LODRenderData.SkinWeightVertexBuffer.GetBoneWeight
        VertexIndex InfluenceIndex : ℚ) / 65535 := hslot.2.2.2.2.2
  have hpos : 0 < Weight := by
    rw [hW]
    have : (0 : ℚ) <
        (Component.GetSkeletalMeshAsset.LODRenderData.SkinWeightVertexBuffer.GetBoneWeight
          VertexIndex InfluenceIndex : ℚ) := by
      exact_mod_cast Nat.pos_of_ne_zero hraw
    positivity
  refine ⟨Find_PreMorphInitialize Cache Component hvalid hnew, ?_⟩
  rw [← hW]
  apply Find_of_IndexWeight _ _ _ _ _ (ne_of_gt hpos)
  unfold BuildBoneMapVertexWeights
  apply IndexWeight_foldl_SaveSection_mem _ _ _ _ _ _ _ Section hS hv
    (mem_Influences_of_EntryFromSlot _ _ _ _ _ _ hslot) hpos
  intro S' hS' hr bw hbw hb hbpos
  obtain ⟨j, hj⟩ := EntryFromSlot_of_mem_Influences _ _ _ _ hbw
  rw [hb] at hj
  exact hone S' hS' hr j bw.2 hj hbpos

/-- Witness of claim C18 on the mesh of `RepeatComponent`: slot 1 of vertex 1 names local
bone 1 of section 0 with raw weight 26214, and the stored index holds vertex 1 under bone 1
with weight 26214 / 65535. -/
theorem index_complete_witness :
    RepeatComponent.GetSkeletalMeshAsset.IsValidLowLevelFast = true ∧
    TMap.Contains ([] : BoneWeightMapCache) RepeatComponent.GetSkeletalMeshAsset.Id = false ∧
    ((SaveBoneWeightMap [] RepeatComponent).Find RepeatComponent.GetSkeletalMeshAsset.Id =
      some (BuildBoneMapVertexWeights RepeatComponent.GetSkeletalMeshAsset.LODRenderData) ∧
    ∃ WeightMap,
      (BuildBoneMapVertexWeights RepeatComponent.GetSkeletalMeshAsset.LODRenderData).Find 1 =
        some WeightMap ∧
      WeightMap.VertexWeight.Find 1 =
        some ((RepeatComponent.GetSkeletalMeshAsset.LODRenderData.SkinWeightVertexBuffer.GetBoneWeight
          1 1 : ℚ) / 65535)) :=
  ⟨by decide, by decide,
    index_complete [] RepeatComponent ⟨0, 2, [0, 1]⟩ 1 1 1 (2 / 5) (by decide) (by decide)
      (by decide) (by decide)
      ⟨by decide, by decide, by decide, by decide, by decide, by decide!⟩ (by decide)
      (by
        intro S' hS' _ j w' hj _
        have hSeq : S' = ⟨0, 2, [0, 1]⟩ := List.mem_singleton.mp hS'
        subst hSeq
        obtain ⟨-, -, -, hlt, hmap, hw'⟩ := hj
        have hidx : RepeatComponent.GetSkeletalMeshAsset.LODRenderData.SkinWeightVertexBuffer.GetBoneIndex
            1 j = (j : Int) := rfl
        have hwt : RepeatComponent.GetSkeletalMeshAsset.LODRenderData.SkinWeightVertexBuffer.GetBoneWeight
            1 j = if j = 0 then 39321 else 26214 := rfl
        rw [hidx] at hlt hmap
        rw [hw', hwt]
        have hj2 : j < 2 := by exact_mod_cast hlt
        interval_cases j
        · exact absurd hmap (by decide)
        · norm_num)⟩

/-! ## Claim C16: one dilution across two bakes -/

/-- On a clean instance whose mesh has been indexed, after `SetMorphs` the zero-dilution
pass brings the total weight of a bone to the sum of the index weights of its vertices. -/
theorem WeightOf_first_dilution (Component : USkeletalMeshComponent)
    (Cache : BoneWeightMapCache) (MorphTargets : TMap FName ℚ) (Bone : Int)
    (WeightMap : FBoneWeightMap)
    (hvalid : Component.GetSkeletalMeshAsset.IsValidLowLevelFast = true)
    (hnew : Cache.Contains Component.GetSkeletalMeshAsset.Id = false)
    (hsec : SectionsDisjoint Component.GetSkeletalMeshAsset.LODRenderData)
    (hslots : NoRepeatedBone Component.GetSkeletalMeshAsset.LODRenderData)
    (hmem : Bone ∈ TMap.Keys
      (SetMorphs UMorphToSkeletonComponent.Clean Component MorphTargets).CachedTotalTranslations)
    (hidx : (BuildBoneMapVertexWeights Component.GetSkeletalMeshAsset.LODRenderData).Find Bone =
      some WeightMap) :
    WeightOf (ZeroDilutionPass (PreMorphInitialize Cache Component)
      Component.GetSkeletalMeshAsset.Id
      (SetMorphs UMorphToSkeletonComponent.Clean Component MorphTargets).CachedAffectedVertices
      (SetMorphs UMorphToSkeletonComponent.Clean Component
        MorphTargets).CachedTotalTranslations) Bone =
      (WeightMap.VertexWeight.map fun vw => vw.2).sum := by
  obtain ⟨haff, hkeys, hweight⟩ :=
    WeightInvariant_SetMorphs Component hsec hslots UMorphToSkeletonComponent.Clean
      MorphTargets ⟨List.nodup_nil, List.nodup_nil, fun _ => rfl⟩
  have hnd : (TMap.Keys WeightMap.VertexWeight).Nodup :=
    ((IndexWF_Build _).2 Bone WeightMap (TMap.mem_of_Find _ hidx)).1
  rw [WeightOf_ZeroDilutionPass _ _ _ _ _ hkeys, if_pos hmem, hweight Bone]
  unfold DilutionWeight
  rw [Find_PreMorphInitialize _ _ hvalid hnew]
  simp only [hidx]
  rw [← sum_split_affected
    (SetMorphs UMorphToSkeletonComponent.Clean Component MorphTargets).CachedAffectedVertices
    WeightMap.VertexWeight,
    ← sum_affected_eq _ _ haff hnd]
  congr 2
  apply List.map_congr_left
  intro v _
  exact IndexWeight_of_Find _ _ _ hidx v

/-- The zero-dilution pass changes nothing when the mesh has no index in the cache. -/
theorem ZeroDilutionPass_of_miss (Cache : BoneWeightMapCache) (Mesh : Nat) (Affected : TSet)
    (Totals : TMap Int (ℚ × FVector3f)) (h : Cache.Find Mesh = none) :
    ZeroDilutionPass Cache Mesh Affected Totals = Totals := by
  unfold ZeroDilutionPass
  apply foldl_invariant (fun T => T = Totals) _ _ _ rfl
  intro T Bone _ hT
  unfold DiluteBone
  rw [h]
  exact hT

theorem FirstTouchWeight_eq_zero (SkinWeightBuffer : FSkinWeightVertexBuffer) (Bone : Int)
    (L : List (FSkelMeshRenderSection × FMorphTargetDelta)) (Affected : TSet)
    (h : ∀ V ∈ L, V.2.SourceIdx ∈ Affected ∨
      SlotWeight SkinWeightBuffer V.1 V.2.SourceIdx Bone = 0) :
    FirstTouchWeight SkinWeightBuffer Bone Affected L = 0 := by
  induction L generalizing Affected with
  | nil => rfl
  | cons V L ih =>
    simp only [FirstTouchWeight]
    rw [ih (InsertKey Affected V.2.SourceIdx), add_zero]
    · rcases h V (List.mem_cons_self _ _) with hV | hV
      · rw [if_pos hV]
      · rw [hV, ite_self]
    · intro V' hV'
      rcases h V' (List.mem_cons_of_mem _ hV') with hV | hV
      · exact Or.inl ((mem_InsertKey _ _ _).mpr (Or.inl hV))
      · exact Or.inr hV

theorem mem_EffectiveVisits_lod (Component : USkeletalMeshComponent) (MorphTarget : FName)
    (MorphValue : ℚ) (V : FSkelMeshRenderSection × FMorphTargetDelta)
    (h : V ∈ EffectiveVisits Component MorphTarget MorphValue) :
    ∃ MorphLOD0, FindMorphLOD0 Component MorphTarget = some MorphLOD0 ∧
      V ∈ Visits Component.GetSkeletalMeshAsset.LODRenderData MorphLOD0 := by
  unfold EffectiveVisits at h
  split at h
  · simp at h
  · cases hl : FindMorphLOD0 Component MorphTarget with
    | none =>
      rw [hl] at h
      simp at h
    | some lod =>
      rw [hl] at h
      exact ⟨lod, rfl, h⟩

/-- A batch whose visits are of vertices that are already affected or carry no skin weight
for a bone leaves the total weight of the bone as it was. -/
theorem WeightOf_SetMorphs_unrelated (Component : USkeletalMeshComponent) (Bone : Int)
    (MorphTargets : TMap FName ℚ) (Affected : TSet)
    (h : ∀ p ∈ MorphTargets, ∀ MorphValue, ∀ V ∈ EffectiveVisits Component p.1 MorphValue,
      V.2.SourceIdx ∈ Affected ∨
      SlotWeight Component.GetSkeletalMeshAsset.LODRenderData.SkinWeightVertexBuffer V.1
        V.2.SourceIdx Bone = 0)
    (self : UMorphToSkeletonComponent)
    (hsub : ∀ v ∈ Affected, v ∈ self.CachedAffectedVertices) :
    WeightOf (SetMorphs self Component MorphTargets).CachedTotalTranslations Bone =
      WeightOf self.CachedTotalTranslations Bone := by
  rw [SetMorphs_eq_foldl]
  induction MorphTargets generalizing self with
  | nil => rfl
  | cons p rest ih =>
    simp only [List.foldl_cons]
    have hfst := congrArg Prod.fst (SetMorph_state self Component p.1 p.2)
    have hsnd := congrArg Prod.snd (SetMorph_state self Component p.1 p.2)
    simp only [] at hfst hsnd
    rw [ih (fun q hq => h q (List.mem_cons_of_mem _ hq))]
    · rw [hsnd, WeightOf_foldl_CacheVisit, FirstTouchWeight_eq_zero, add_zero]
      intro V hV
      rcases h p (List.mem_cons_self _ _) _ V hV with hA | hA
      · exact Or.inl (hsub _ hA)
      · exact Or.inr hA
    · intro v hv
      rw [hfst, foldl_CacheVisit_fst, mem_foldl_InsertKey]
      exact Or.inl (hsub v hv)

theorem CacheTranslation_congr (self : UMorphToSkeletonComponent)
    (Component Component' : USkeletalMeshComponent) (MorphTarget : FName) (MorphValue : ℚ)
    (hF : Component'.GetSkeletalMeshAsset.FindMorphTarget =
      Component.GetSkeletalMeshAsset.FindMorphTarget)
    (hL : Component'.GetSkeletalMeshAsset.LODRenderData =
      Component.GetSkeletalMeshAsset.LODRenderData) :
    CacheTranslation self Component' MorphTarget MorphValue =
      CacheTranslation self Component MorphTarget MorphValue := by
  unfold CacheTranslation
  rw [hF, hL]

/-- `SetMorphs` reads the component only through the morph targets and the LOD render data
of the mesh it shows. -/
theorem SetMorphs_congr (self : UMorphToSkeletonComponent)
    (Component Component' : USkeletalMeshComponent) (MorphTargets : TMap FName ℚ)
    (hF : Component'.GetSkeletalMeshAsset.FindMorphTarget =
      Component.GetSkeletalMeshAsset.FindMorphTarget)
    (hL : Component'.GetSkeletalMeshAsset.LODRenderData =
      Component.GetSkeletalMeshAsset.LODRenderData) :
    SetMorphs self Component' MorphTargets = SetMorphs self Component MorphTargets := by
  unfold SetMorphs
  congr 1
  funext s p
  exact CacheTranslation_congr _ _ _ _ _ hF hL

theorem DuplicatedMesh_CacheTranslation (self : UMorphToSkeletonComponent)
    (Component : USkeletalMeshComponent) (MorphTarget : FName) (MorphValue : ℚ) :
    (CacheTranslation self Component MorphTarget MorphValue).DuplicatedMesh =
      self.DuplicatedMesh := by
  rw [CacheTranslation_eq]
  split
  · rfl
  · cases FindMorphLOD0 Component MorphTarget <;> rfl

theorem DuplicatedMesh_SetMorphs (self : UMorphToSkeletonComponent)
    (Component : USkeletalMeshComponent) (MorphTargets : TMap FName ℚ) :
    (SetMorphs self Component MorphTargets).DuplicatedMesh = self.DuplicatedMesh := by
  rw [SetMorphs_eq_foldl]
  apply foldl_invariant (fun s : UMorphToSkeletonComponent =>
    s.DuplicatedMesh = self.DuplicatedMesh) _ _ _ rfl
  intro s p _ hs
  unfold SetMorph
  rw [DuplicatedMesh_CacheTranslation]
  exact hs

theorem ApplyMorphTargets_mesh (Component : USkeletalMeshComponent)
    (MorphTargets : TMap FName ℚ) :
    (ApplyMorphTargetsToDuplicateMesh Component MorphTargets).GetSkeletalMeshAsset =
      Component.GetSkeletalMeshAsset := by
  unfold ApplyMorphTargetsToDuplicateMesh
  exact foldl_invariant (fun C : USkeletalMeshComponent =>
    C.GetSkeletalMeshAsset = Component.GetSkeletalMeshAsset) _ _ _ rfl
    (fun C p _ hC => hC)

/-- The mesh a component shows after the first bake of an instance: a new object with the
morph targets and the LOD render data of the mesh it showed before. -/
theorem first_bake_mesh (self : UMorphToSkeletonComponent) (Cache : BoneWeightMapCache)
    (Component : USkeletalMeshComponent) (MorphTargets : TMap FName ℚ) (NewObject : Nat)
    (h : self.DuplicatedMesh = none) :
    (MorphToSkeleton self Cache Component MorphTargets NewObject).2.GetSkeletalMeshAsset.Id =
      NewObject ∧
    (MorphToSkeleton self Cache Component MorphTargets
      NewObject).2.GetSkeletalMeshAsset.FindMorphTarget =
      Component.GetSkeletalMeshAsset.FindMorphTarget ∧
    (MorphToSkeleton self Cache Component MorphTargets
      NewObject).2.GetSkeletalMeshAsset.LODRenderData =
      Component.GetSkeletalMeshAsset.LODRenderData := by
  have hd := DuplicatedMesh_SetMorphs self Component MorphTargets
  rw [h] at hd
  unfold MorphToSkeleton
  simp only [ApplyMorphTargets_mesh]
  unfold ApplyTranslationsToSkeleton
  simp only [hd]
  exact ⟨trivial, trivial, trivial⟩

/-- Claim C16, evaluated on two `MorphToSkeleton` calls of one instance on
`SameBoneComponent`, where bone 0 has the index weights 3/5 (vertex 0) and 2/5 (vertex 1),
the earlier morph "Move" displaces vertex 0 and the later morph "Other" displaces
vertex 1. The first call counts vertex 1 in the zero-dilution pass (total weight 1); the
second call counts it again at its first touch, so the total weight of bone 0 is 7/5
while the index weights of its vertices sum to 1, and the resolved translation is
(3/7,2/7,0). One call with the same final morph set gives the total weight 1 and the
translation (3/5,2/5,0). -/
theorem single_dilution_second_call :
    (BuildBoneMapVertexWeights SameBoneComponent.GetSkeletalMeshAsset.LODRenderData).Find 0 =
      some ⟨[(0, 3 / 5), (1, 2 / 5)]⟩ ∧
    (([(0, 3 / 5), (1, 2 / 5)] : TMap Nat ℚ).map fun vw => vw.2).sum = 1 ∧
    WeightOf SameBoneFirstRun.1.CachedTotalTranslations 0 = 1 ∧
    (SameBoneSecondRun.1.CachedMorphs = [("Move", 1), ("Other", 1)] ∧
      WeightOf SameBoneSecondRun.1.CachedTotalTranslations 0 = 7 / 5 ∧
      (GetRelativeTransforms SameBoneSecondRun.1).Find 0 = some (3 / 7, 2 / 7, 0)) ∧
    (SameBoneSingleRun.1.CachedMorphs = [("Move", 1), ("Other", 1)] ∧
      WeightOf SameBoneSingleRun.1.CachedTotalTranslations 0 = 1 ∧
      (GetRelativeTransforms SameBoneSingleRun.1).Find 0 = some (3 / 5, 2 / 5, 0)) :=
  ⟨by decide!, by decide!, by decide!, ⟨by decide!, by decide!, by decide!⟩,
    ⟨by decide!, by decide!, by decide!⟩⟩

/-- The case in which two calls do keep the total weight of a bone at the sum of its index
weights: a clean instance whose mesh has been indexed by `PreMorphInitialize` runs
`MorphToSkeleton` for a first batch and then, on the same component and with the cache as
it was, `MorphToSkeleton` for a second batch that displaces no vertex of the index list of
the bone other than vertices the first batch displaced. The component then shows the
duplicate made by the first call, which has no index in the cache, so the zero-dilution
pass of the second call takes its cache-miss branch and adds nothing. The sections are
disjoint (data model) and no vertex names a bone in two non-zero influence slots. -/
theorem single_dilution_across_bakes (Component : USkeletalMeshComponent)
    (Cache : BoneWeightMapCache) (First Second : TMap FName ℚ) (NewObject NewObject' : Nat)
    (Bone : Int) (WeightMap : FBoneWeightMap)
    (hvalid : Component.GetSkeletalMeshAsset.IsValidLowLevelFast = true)
    (hnew : Cache.Contains Component.GetSkeletalMeshAsset.Id = false)
    (hsec : SectionsDisjoint Component.GetSkeletalMeshAsset.LODRenderData)
    (hslots : NoRepeatedBone Component.GetSkeletalMeshAsset.LODRenderData)
    (hdup : (PreMorphInitialize Cache Component).Contains NewObject = false)
    (hb : Bone ∈ TMap.Keys
      (SetMorphs UMorphToSkeletonComponent.Clean Component First).CachedTotalTranslations)
    (hidx : (BuildBoneMapVertexWeights Component.GetSkeletalMeshAsset.LODRenderData).Find Bone =
      some WeightMap)
    (hunrelated : ∀ p ∈ Second, ∀ MorphLOD0, FindMorphLOD0 Component p.1 = some MorphLOD0 →
      ∀ v ∈ VisitedVertices Component.GetSkeletalMeshAsset.LODRenderData MorphLOD0,
        v ∈ (SetMorphs UMorphToSkeletonComponent.Clean Component
          First).CachedAffectedVertices ∨
        WeightMap.VertexWeight.Find v = none) :
    WeightOf (MorphToSkeleton UMorphToSkeletonComponent.Clean
      (PreMorphInitialize Cache Component) Component First
      NewObject).1.CachedTotalTranslations Bone =
      (WeightMap.VertexWeight.map fun vw => vw.2).sum ∧
    WeightOf (MorphToSkeleton
      (MorphToSkeleton UMorphToSkeletonComponent.Clean (PreMorphInitialize Cache Component)
        Component First NewObject).1
      (PreMorphInitialize Cache Component)
      (MorphToSkeleton UMorphToSkeletonComponent.Clean (PreMorphInitialize Cache Component)
        Component First NewObject).2
      Second NewObject').1.CachedTotalTranslations Bone =
      (WeightMap.VertexWeight.map fun vw => vw.2).sum := by
  have hfirst : WeightOf (MorphToSkeleton UMorphToSkeletonComponent.Clean
      (PreMorphInitialize Cache Component) Component First
      NewObject).1.CachedTotalTranslations Bone =
      (WeightMap.VertexWeight.map fun vw => vw.2).sum :=
    WeightOf_first_dilution Component Cache First Bone WeightMap hvalid hnew hsec hslots hb hidx
  refine ⟨hfirst, ?_⟩
  obtain ⟨hId, hF, hL⟩ := first_bake_mesh UMorphToSkeletonComponent.Clean
    (PreMorphInitialize Cache Component) Component First NewObject rfl
  have hmiss : (PreMorphInitialize Cache Component).Find
      (MorphToSkeleton UMorphToSkeletonComponent.Clean (PreMorphInitialize Cache Component)
        Component First NewObject).2.GetSkeletalMeshAsset.Id = none := by
    rw [hId]
    unfold TMap.Contains at hdup
    cases hf : TMap.Find (PreMorphInitialize Cache Component) NewObject with
    | none => rfl
    | some x =>
      rw [hf] at hdup
      exact Bool.noConfusion hdup
  have hsecond : (MorphToSkeleton
      (MorphToSkeleton UMorphToSkeletonComponent.Clean (PreMorphInitialize Cache Component)
        Component First NewObject).1
      (PreMorphInitialize Cache Component)
      (MorphToSkeleton UMorphToSkeletonComponent.Clean (PreMorphInitialize Cache Component)
        Component First NewObject).2
      Second NewObject').1.CachedTotalTranslations =
      ZeroDilutionPass (PreMorphInitialize Cache Component)
        (MorphToSkeleton UMorphToSkeletonComponent.Clean (PreMorphInitialize Cache Component)
          Component First NewObject).2.GetSkeletalMeshAsset.Id
        (SetMorphs (MorphToSkeleton UMorphToSkeletonComponent.Clean
          (PreMorphInitialize Cache Component) Component First NewObject).1
          (MorphToSkeleton UMorphToSkeletonComponent.Clean (PreMorphInitialize Cache Component)
            Component First NewObject).2 Second).CachedAffectedVertices
        (SetMorphs (MorphToSkeleton UMorphToSkeletonComponent.Clean
          (PreMorphInitialize Cache Component) Component First NewObject).1
          (MorphToSkeleton UMorphToSkeletonComponent.Clean (PreMorphInitialize Cache Component)
            Component First NewObject).2 Second).CachedTotalTranslations := rfl
  rw [hsecond, ZeroDilutionPass_of_miss _ _ _ _ hmiss, SetMorphs_congr _ Component _ _ hF hL,
    WeightOf_SetMorphs_unrelated Component Bone Second
      (SetMorphs UMorphToSkeletonComponent.Clean Component First).CachedAffectedVertices _
      (MorphToSkeleton UMorphToSkeletonComponent.Clean (PreMorphInitialize Cache Component)
        Component First NewObject).1
      (fun v hv => hv),
    hfirst]
  intro p hp MorphValue V hV
  obtain ⟨lod, hlod, hVis⟩ := mem_EffectiveVisits_lod _ _ _ _ hV
  obtain ⟨hS, hr⟩ := Visits_mem _ _ _ hVis
  rcases hunrelated p hp lod hlod V.2.SourceIdx (List.mem_map_of_mem _ hVis) with hA | hA
  · exact Or.inl hA
  · right
    rw [← IndexWeight_Build _ hsec hslots V.1 hS Bone V.2.SourceIdx hr,
      IndexWeight_of_Find _ _ _ hidx, hA]
    rfl

/-- An instance of `single_dilution_across_bakes` on `TwoMorphComponent`: after
`MorphToSkeleton` for "Move" and then `MorphToSkeleton` for "Other", which displaces
vertex 2 of bone 1 only, bone 0 has total weight 3/5 + 2/5 = 1, the weight 2/5 of its
untouched vertex 1 counted once. -/
theorem single_dilution_across_bakes_witness :
    SectionsDisjoint TwoMorphComponent.GetSkeletalMeshAsset.LODRenderData ∧
    NoRepeatedBone TwoMorphComponent.GetSkeletalMeshAsset.LODRenderData ∧
    (PreMorphInitialize [] TwoMorphComponent).Contains 8 = false ∧
    WeightOf (MorphToSkeleton
      (MorphToSkeleton UMorphToSkeletonComponent.Clean (PreMorphInitialize [] TwoMorphComponent)
        TwoMorphComponent [("Move", 1)] 8).1
      (PreMorphInitialize [] TwoMorphComponent)
      (MorphToSkeleton UMorphToSkeletonComponent.Clean (PreMorphInitialize [] TwoMorphComponent)
        TwoMorphComponent [("Move", 1)] 8).2
      [("Other", 1)] 9).1.CachedTotalTranslations 0 = 1 :=
  ⟨by decide, by decide, by decide,
    (single_dilution_across_bakes TwoMorphComponent [] [("Move", 1)] [("Other", 1)] 8 9 0
      ⟨[(0, 3 / 5), (1, 2 / 5)]⟩ (by decide) (by decide) (by decide) (by decide) (by decide)
      (by decide!) (by decide!)
      (by
        intro p hp lod hlod v hv
        have hpe : p = ("Other", 1) := List.mem_singleton.mp hp
        subst hpe
        have hlode : lod = ⟨[⟨(0, 0, 5), 2⟩], [1]⟩ :=
          (Option.some.inj hlod).symm
        subst hlode
        have hve : v = 2 := List.mem_singleton.mp hv
        subst hve
        exact Or.inr (by decide!))).2.trans (by decide!)⟩

/-- The zero-dilution pass run a second time, evaluated on `TwoMorphComponent`: when
`PreMorphInitialize` is called again on the component after the first call, the duplicate
it then shows is indexed, the second call runs the zero-dilution pass against that index,
and the weight 2/5 of the untouched vertex 1 enters the total weight of bone 0 a second
time: 3/5 + 2/5 + 2/5 = 7/5. -/
theorem reindexed_duplicate_is_diluted_again :
    WeightOf (MorphToSkeleton
      (MorphToSkeleton UMorphToSkeletonComponent.Clean (PreMorphInitialize [] TwoMorphComponent)
        TwoMorphComponent [("Move", 1)] 8).1
      (PreMorphInitialize (PreMorphInitialize [] TwoMorphComponent)
        (MorphToSkeleton UMorphToSkeletonComponent.Clean
          (PreMorphInitialize [] TwoMorphComponent) TwoMorphComponent [("Move", 1)] 8).2)
      (MorphToSkeleton UMorphToSkeletonComponent.Clean (PreMorphInitialize [] TwoMorphComponent)
        TwoMorphComponent [("Move", 1)] 8).2
      [("Other", 1)] 9).1.CachedTotalTranslations 0 = 7 / 5 := by
  decide!

/-! ## Claim C21: the accumulator tracks the active morph set -/

theorem sum_map_flatMap {α β : Type} (L : List α) (g : α → List β) (F : β → FVector3f) :
    ((L.flatMap g).map F).sum = (L.map fun a => ((g a).map F).sum).sum := by
  induction L with
  | nil => rfl
  | cons a L ih =>
    simp only [List.flatMap_cons, List.map_append, List.sum_append, List.map_cons,
      List.sum_cons, ih]

theorem sum_map_filter {α : Type} (L : List α) (p : α → Bool) (F : α → FVector3f) :
    ((L.filter p).map F).sum = (L.map fun a => if p a = true then F a else 0).sum := by
  induction L with
  | nil => rfl
  | cons a L ih =>
    by_cases h : p a = true
    · simp only [List.filter_cons, h, if_true, List.map_cons, List.sum_cons, ih]
    · have h' : p a = false := by simpa using h
      simp only [List.filter_cons, h', Bool.false_eq_true, if_false, List.map_cons,
        List.sum_cons, zero_add]
      exact ih

/-- A condition that holds for at most one member of a duplicate-free list selects at most
one term of a sum. -/
theorem sum_map_ite_unique (L : List Nat) (hnd : L.Nodup) (c : Nat → Bool)
    (huniq : ∀ i j, c i = true → c j = true → i = j) (X : FVector3f) :
    (L.map fun i => if c i = true then X else 0).sum = if L.any c = true then X else 0 := by
  induction L with
  | nil => rfl
  | cons i L ih =>
    rw [List.nodup_cons] at hnd
    simp only [List.map_cons, List.sum_cons, List.any_cons, Bool.or_eq_true]
    by_cases hi : c i = true
    · have hrest : (L.map fun j => if c j = true then X else 0).sum = 0 := by
        apply sum_map_eq_zero
        intro j hj
        have hcj : ¬ c j = true := fun h => hnd.1 (huniq i j hi h ▸ hj)
        simp [hcj]
      simp [hi, hrest]
    · rw [ih hnd.2]
      simp [hi]

theorem SectionAffects_unique (LODRenderData : FSkeletalMeshLODRenderData)
    (hsec : SectionsDisjoint LODRenderData) (MorphLOD0 : FMorphTargetLODModel) (v i j : Nat)
    (hi : SectionAffects LODRenderData MorphLOD0 v i = true)
    (hj : SectionAffects LODRenderData MorphLOD0 v j = true) : i = j := by
  unfold SectionsDisjoint at hsec
  rw [List.pairwise_iff_getElem] at hsec
  unfold SectionAffects at hi hj
  rw [Bool.and_eq_true] at hi hj
  have key : ∀ a b : Nat, a < b →
      (match LODRenderData.RenderSections.get? a with
        | none => false
        | some Section => Section.InRange v) = true →
      (match LODRenderData.RenderSections.get? b with
        | none => false
        | some Section => Section.InRange v) = true → False := by
    intro a b hab ha hb
    cases hga : LODRenderData.RenderSections.get? a with
    | none =>
      rw [hga] at ha
      exact Bool.noConfusion ha
    | some Sa =>
      cases hgb : LODRenderData.RenderSections.get? b with
      | none =>
        rw [hgb] at hb
        exact Bool.noConfusion hb
      | some Sb =>
        rw [hga] at ha
        rw [hgb] at hb
        simp only [] at ha hb
        rw [List.get?_eq_getElem?] at hga hgb
        obtain ⟨hla, hea⟩ := List.getElem?_eq_some_iff.mp hga
        obtain ⟨hlb, heb⟩ := List.getElem?_eq_some_iff.mp hgb
        have := hsec a b hla hlb hab v
          ((mem_VertexIndices _ _).mpr (by rw [hea]; exact ha))
        rw [heb, hb] at this
        exact Bool.noConfusion this
  rcases Nat.lt_trichotomy i j with h | h | h
  · exact (key i j h hi.2 hj.2).elim
  · exact h
  · exact (key j i h hj.2 hi.2).elim

/-- On a mesh with disjoint sections the displacement the loops of `CacheTranslation` give
to a bone per unit of morph weight is the sum, over the deltas whose vertex lies in an
affected section, of `w(b, v) * d`. -/
theorem UnitDisplacement_eq_spec (LODRenderData : FSkeletalMeshLODRenderData)
    (hsec : SectionsDisjoint LODRenderData) (MorphLOD0 : FMorphTargetLODModel) (Bone : Int) :
    UnitDisplacement LODRenderData MorphLOD0 Bone =
      SpecUnitDisplacement LODRenderData MorphLOD0 Bone := by
  unfold UnitDisplacement SpecUnitDisplacement Visits
  rw [sum_map_flatMap, sum_map_filter]
  have hstep : ∀ i ∈ List.range LODRenderData.RenderSections.length,
      ((if MorphLOD0.SectionIndices.contains (i : Int) = true then
          match LODRenderData.RenderSections.get? i with
          | none => []
          | some Section =>
            (MorphLOD0.Vertices.filter fun Delta => Section.InRange Delta.SourceIdx).map
              fun Delta => (Section, Delta)
        else []).map fun Visit =>
        SlotWeight LODRenderData.SkinWeightVertexBuffer Visit.1 Visit.2.SourceIdx Bone •
          Visit.2.PositionDelta).sum =
      (MorphLOD0.Vertices.map fun Delta =>
        if SectionAffects LODRenderData MorphLOD0 Delta.SourceIdx i = true then
          SkinWeight LODRenderData Bone Delta.SourceIdx • Delta.PositionDelta
        else 0).sum := by
    intro i _
    unfold SectionAffects
    by_cases hc : MorphLOD0.SectionIndices.contains (i : Int) = true
    · cases hg : LODRenderData.RenderSections.get? i with
      | none =>
        simp only [hc, if_true, Bool.true_and, List.map_nil, List.sum_nil]
        exact (sum_map_eq_zero _ _ (fun _ _ => by simp)).symm
      | some Section =>
        simp only [hc, if_true, Bool.true_and, List.map_map]
        rw [sum_map_filter]
        congr 1
        apply List.map_congr_left
        intro Delta _
        by_cases hr : Section.InRange Delta.SourceIdx = true
        · simp only [hr, if_true, Function.comp]
          rw [SkinWeight_of_mem _ hsec Section (List.get?_mem hg) Bone _ hr]
        · simp only [hr, if_false]
          simp
    · simp only [hc, if_false, Bool.false_and, List.map_nil, List.sum_nil]
      exact (sum_map_eq_zero _ _ (fun _ _ => by simp)).symm
  rw [List.map_congr_left hstep, list_sum_comm]
  congr 1
  apply List.map_congr_left
  intro Delta _
  unfold InAffectedSection
  exact sum_map_ite_unique _ (List.nodup_range _) _
    (fun i j hi hj => SectionAffects_unique _ hsec _ _ i j hi hj) _

theorem RunCalls_eq_foldl (self : UMorphToSkeletonComponent)
    (Component : USkeletalMeshComponent) (Calls : List MorphCall) :
    RunCalls self Component Calls =
      (Calls.flatMap MorphCall.Pairs).foldl (fun s p => SetMorph s Component p.1 p.2) self := by
  unfold RunCalls
  induction Calls generalizing self with
  | nil => rfl
  | cons Call Calls ih =>
    simp only [List.foldl_cons, List.flatMap_cons, List.foldl_append]
    rw [ih]
    cases Call with
    | SetMorph MorphTarget MorphValue => rfl
    | SetMorphs MorphTargets => rfl

/-- Writing a weight into the active morph set changes its displacement by the net weight
times the unit displacement of the name. -/
theorem sum_map_Add (m : TMap FName ℚ) (k : FName) (v : ℚ) (U : FName → FVector3f) :
    ((m.Add k v).map fun Entry => Entry.2 • U Entry.1).sum =
      (m.map fun Entry => Entry.2 • U Entry.1).sum + (v - (m.Find k).getD 0) • U k := by
  induction m with
  | nil => simp [TMap.Add, TMap.Find]
  | cons e m ih =>
    obtain ⟨k1, v1⟩ := e
    by_cases h : k1 = k
    · subst h
      simp only [TMap.Add, TMap.Find, if_true, List.map_cons, List.sum_cons, Option.getD_some,
        sub_smul]
      abel
    · simp only [TMap.Add, TMap.Find, h, if_false, List.map_cons, List.sum_cons]
      rw [ih, add_assoc]

/-- One `SetMorph` whose net weight is exactly zero or not nearly zero adds the net weight
times the unit displacement of the name to the total displacement of every bone. -/
theorem DisplacementOf_SetMorph_net (self : UMorphToSkeletonComponent)
    (Component : USkeletalMeshComponent)
    (hsec : SectionsDisjoint Component.GetSkeletalMeshAsset.LODRenderData)
    (MorphTarget : FName) (MorphValue : ℚ) (Bone : Int)
    (hnet : MorphValue - (self.CachedMorphs.Find MorphTarget).getD 0 = 0 ∨
      IsNearlyZero (MorphValue - (self.CachedMorphs.Find MorphTarget).getD 0) = false) :
    DisplacementOf (SetMorph self Component MorphTarget MorphValue).CachedTotalTranslations
        Bone =
      DisplacementOf self.CachedTotalTranslations Bone +
        (MorphValue - (self.CachedMorphs.Find MorphTarget).getD 0) •
          SpecTargetDisplacement Component MorphTarget Bone := by
  rw [Totals_SetMorph]
  unfold SpecTargetDisplacement
  rcases hnet with h0 | hnz
  · rw [h0, IsNearlyZero_zero]
    simp
  · rw [hnz]
    simp only [Bool.false_eq_true, if_false]
    cases FindMorphLOD0 Component MorphTarget with
    | none => simp
    | some lod =>
      simp only []
      rw [DisplacementOf_CacheMorphLOD, UnitDisplacement_eq_spec _ hsec]

theorem ActiveDisplacement_foldl_SetMorph (Component : USkeletalMeshComponent)
    (hsec : SectionsDisjoint Component.GetSkeletalMeshAsset.LODRenderData)
    (Pairs : List (FName × ℚ)) (self : UMorphToSkeletonComponent)
    (hnet : NetWeightsExact Component self Pairs) (Bone : Int)
    (hself : DisplacementOf self.CachedTotalTranslations Bone =
      ActiveDisplacement Component self.CachedMorphs Bone) :
    DisplacementOf
        (Pairs.foldl (fun s p => SetMorph s Component p.1 p.2) self).CachedTotalTranslations
        Bone =
      ActiveDisplacement Component
        (Pairs.foldl (fun s p => SetMorph s Component p.1 p.2) self).CachedMorphs Bone := by
  induction Pairs generalizing self with
  | nil => exact hself
  | cons p rest ih =>
    simp only [List.foldl_cons]
    obtain ⟨hp, hrest⟩ := hnet
    apply ih _ hrest
    rw [DisplacementOf_SetMorph_net self Component hsec p.1 p.2 Bone hp, CachedMorphs_SetMorph,
      hself]
    unfold ActiveDisplacement
    rw [sum_map_Add _ _ _ (fun Name => SpecTargetDisplacement Component Name Bone)]

/-- Claim C21: after any sequence of `SetMorph` / `SetMorphs` calls on a clean instance in
which every net weight change is exactly zero or not nearly zero, on a mesh whose sections
are disjoint (data model), the total displacement of every bone in the accumulator is the
sum over the names `t` of the active morph set of `active[t]` times the sum, over the
deltas `(v, d)` of `t` whose vertex lies in one of the affected sections of `t`, of
`w(b, v) * d`; a name the mesh does not know contributes zero. -/
theorem accumulator_tracks_active_morphs (Component : USkeletalMeshComponent)
    (Calls : List MorphCall)
    (hsec : SectionsDisjoint Component.GetSkeletalMeshAsset.LODRenderData)
    (hnet : NetWeightsExact Component UMorphToSkeletonComponent.Clean
      (Calls.flatMap MorphCall.Pairs))
    (Bone : Int) :
    DisplacementOf
        (RunCalls UMorphToSkeletonComponent.Clean Component Calls).CachedTotalTranslations
        Bone =
      ActiveDisplacement Component
        (RunCalls UMorphToSkeletonComponent.Clean Component Calls).CachedMorphs Bone := by
  rw [RunCalls_eq_foldl]
  exact ActiveDisplacement_foldl_SetMorph Component hsec _ _ hnet Bone rfl

/-- Witness of claim C21 on `OverlapComponent`: after `SetMorph("A", 1)`,
`SetMorphs({"B": 1/2, "A": 2})` and `SetMorph("Missing", 3)` the active morph set holds
A with 2, B with 1/2 and the unknown name with 3, and bone 0 has the total displacement
2 * 3/5 * (1,0,0) + 1/2 * (3/5 * (0,1,0) + 3/5 * (0,0,1)). -/
theorem accumulator_tracks_active_morphs_witness :
    SectionsDisjoint OverlapComponent.GetSkeletalMeshAsset.LODRenderData ∧
    (RunCalls UMorphToSkeletonComponent.Clean OverlapComponent
      [.SetMorph "A" 1, .SetMorphs [("B", 1 / 2), ("A", 2)],
        .SetMorph "Missing" 3]).CachedMorphs = [("A", 2), ("B", 1 / 2), ("Missing", 3)] ∧
    DisplacementOf (RunCalls UMorphToSkeletonComponent.Clean OverlapComponent
      [.SetMorph "A" 1, .SetMorphs [("B", 1 / 2), ("A", 2)],
        .SetMorph "Missing" 3]).CachedTotalTranslations 0 = (6 / 5, 3 / 10, 3 / 10) :=
  ⟨by decide, by decide!,
    (accumulator_tracks_active_morphs OverlapComponent
      [.SetMorph "A" 1, .SetMorphs [("B", 1 / 2), ("A", 2)], .SetMorph "Missing" 3]
      (by decide)
      ⟨Or.inr (by decide!), Or.inr (by decide!), Or.inr (by decide!), Or.inr (by decide!),
        trivial⟩ 0).trans (by decide!)⟩

/-! ## Claim C22: accumulator bones and indexed bones -/

theorem foldl_of_mem {α β : Type} (P : β → Prop) (f : β → α → β) (L : List α) (b : β) (a0 : α)
    (ha : a0 ∈ L) (hstable : ∀ b a, P b → P (f b a)) (hest : ∀ b, P (f b a0)) :
    P (L.foldl f b) := by
  induction L generalizing b with
  | nil => simp at ha
  | cons x L ih =>
    simp only [List.foldl_cons]
    rcases List.mem_cons.mp ha with h | h
    · subst h
      exact foldl_invariant P f L _ (hest b) (fun b a _ hb => hstable b a hb)
    · exact ih _ h

theorem mem_Keys_SaveEntry (i : Nat) (m : TMap Int FBoneWeightMap) (bw : Int × ℚ) (Bone : Int)
    (h : Bone ∈ TMap.Keys m) : Bone ∈ TMap.Keys (SaveEntry i m bw) := by
  unfold SaveEntry
  split
  · exact h
  · rw [TMap.Keys_Add]
    split
    · exact h
    · exact List.mem_append_left _ h

theorem mem_Keys_SaveEntry_self (i : Nat) (m : TMap Int FBoneWeightMap) (bw : Int × ℚ)
    (hw : 0 < bw.2) : bw.1 ∈ TMap.Keys (SaveEntry i m bw) := by
  unfold SaveEntry
  rw [if_neg (not_le.mpr hw), TMap.Keys_Add]
  split
  · assumption
  · exact List.mem_append_right _ (List.mem_singleton_self _)

/-- A bone that a valid influence slot of non-zero weight maps to, for a vertex in the
range of a section, has an entry in the built index. -/
theorem mem_Keys_Build (LODRenderData : FSkeletalMeshLODRenderData)
    (Section : FSkelMeshRenderSection) (hS : Section ∈ LODRenderData.RenderSections)
    (v : Nat) (hv : Section.InRange v = true) (Bone : Int) (w : ℚ)
    (hmem : (Bone, w) ∈ Influences LODRenderData.SkinWeightVertexBuffer Section v)
    (hw : 0 < w) : Bone ∈ TMap.Keys (BuildBoneMapVertexWeights LODRenderData) := by
  unfold BuildBoneMapVertexWeights
  apply foldl_of_mem (fun m => Bone ∈ TMap.Keys m) _ _ _ Section hS
  · intro m S hm
    unfold SaveSection
    apply foldl_invariant (fun m => Bone ∈ TMap.Keys m) _ _ _ hm
    intro m i _ hm
    rw [SaveVertex_eq_foldl]
    exact foldl_invariant (fun m => Bone ∈ TMap.Keys m) _ _ _ hm
      (fun m bw _ hm => mem_Keys_SaveEntry i m bw Bone hm)
  · intro m
    unfold SaveSection
    apply foldl_of_mem (fun m => Bone ∈ TMap.Keys m) _ _ _ v ((mem_VertexIndices _ _).mpr hv)
    · intro m i hm
      rw [SaveVertex_eq_foldl]
      exact foldl_invariant (fun m => Bone ∈ TMap.Keys m) _ _ _ hm
        (fun m bw _ hm => mem_Keys_SaveEntry i m bw Bone hm)
    · intro m
      rw [SaveVertex_eq_foldl]
      apply foldl_of_mem (fun m => Bone ∈ TMap.Keys m) _ _ _ (Bone, w) hmem
      · intro m bw hm
        exact mem_Keys_SaveEntry v m bw Bone hm
      · intro m
        exact mem_Keys_SaveEntry_self v m (Bone, w) hw

/-- A bone without an entry in the built index is mapped to only by influence slots of
weight zero. -/
theorem Influences_zero_of_not_indexed (LODRenderData : FSkeletalMeshLODRenderData)
    (Bone : Int) (hmiss : (BuildBoneMapVertexWeights LODRenderData).Find Bone = none)
    (Section : FSkelMeshRenderSection) (hS : Section ∈ LODRenderData.RenderSections)
    (v : Nat) (hv : Section.InRange v = true) (w : ℚ)
    (hmem : (Bone, w) ∈ Influences LODRenderData.SkinWeightVertexBuffer Section v) :
    w = 0 := by
  have hnn : 0 ≤ w := Influences_nonneg _ _ _ (Bone, w) hmem
  by_contra hne
  have hpos : 0 < w := lt_of_le_of_ne hnn (fun e => hne e.symm)
  exact (TMap.Find_eq_none_iff _ _).mp hmiss
    (mem_Keys_Build LODRenderData Section hS v hv Bone w hmem hpos)

theorem SlotWeight_zero_of_not_indexed (LODRenderData : FSkeletalMeshLODRenderData)
    (Bone : Int) (hmiss : (BuildBoneMapVertexWeights LODRenderData).Find Bone = none)
    (Section : FSkelMeshRenderSection) (hS : Section ∈ LODRenderData.RenderSections)
    (v : Nat) (hv : Section.InRange v = true) :
    SlotWeight LODRenderData.SkinWeightVertexBuffer Section v Bone = 0 := by
  unfold SlotWeight
  apply sum_map_eq_zero
  intro bw hbw
  by_cases hb : bw.1 = Bone
  · simp only [hb, if_true]
    apply Influences_zero_of_not_indexed LODRenderData Bone hmiss Section hS v hv
    rw [← hb]
    exact hbw
  · simp [hb]

/-- One `SetMorph` keeps the totals of a bone without index entry at zero. -/
theorem Totals_SetMorph_not_indexed (self : UMorphToSkeletonComponent)
    (Component : USkeletalMeshComponent) (MorphTarget : FName) (MorphValue : ℚ) (Bone : Int)
    (hmiss : (BuildBoneMapVertexWeights Component.GetSkeletalMeshAsset.LODRenderData).Find
      Bone = none)
    (h : WeightOf self.CachedTotalTranslations Bone = 0 ∧
      DisplacementOf self.CachedTotalTranslations Bone = 0) :
    WeightOf (SetMorph self Component MorphTarget MorphValue).CachedTotalTranslations Bone = 0 ∧
    DisplacementOf (SetMorph self Component MorphTarget MorphValue).CachedTotalTranslations
      Bone = 0 := by
  have hsnd := congrArg Prod.snd (SetMorph_state self Component MorphTarget MorphValue)
  simp only [] at hsnd
  have hzero : ∀ V ∈ EffectiveVisits Component MorphTarget
      (MorphValue - (self.CachedMorphs.Find MorphTarget).getD 0),
      SlotWeight Component.GetSkeletalMeshAsset.LODRenderData.SkinWeightVertexBuffer V.1
        V.2.SourceIdx Bone = 0 := by
    intro V hV
    obtain ⟨hS, hr⟩ := mem_EffectiveVisits _ _ _ _ hV
    exact SlotWeight_zero_of_not_indexed _ Bone hmiss V.1 hS _ hr
  constructor
  · rw [hsnd, WeightOf_foldl_CacheVisit,
      FirstTouchWeight_eq_zero _ _ _ _ (fun V hV => Or.inr (hzero V hV)), add_zero]
    exact h.1
  · rw [hsnd, DisplacementOf_foldl_CacheVisit, h.2,
      sum_map_eq_zero _ _ (fun V hV => by rw [hzero V hV, zero_smul])]
    simp

/-- Claim C22 fails as stated: on `ZeroSlotComponent` the displaced vertex 0 names bone 1
in an influence slot of weight 0. `SetMorph("Move", 1)` enters bone 1 in the accumulator
(with zero totals), while the index built by `PreMorphInitialize` holds bone 0 only, so
the zero-dilution pass finds no index entry for the accumulator bone 1. -/
theorem accumulator_bone_not_indexed_counterexample :
    (PreMorphInitialize [] ZeroSlotComponent).Find ZeroSlotComponent.GetSkeletalMeshAsset.Id =
      some [(0, ⟨[(0, 1), (1, 1)]⟩)] ∧
    (RunCalls UMorphToSkeletonComponent.Clean ZeroSlotComponent
      [.SetMorph "Move" 1]).CachedTotalTranslations =
      [(0, (1, (1, 0, 0))), (1, (0, (0, 0, 0)))] ∧
    TMap.Find [(0, (⟨[(0, 1), (1, 1)]⟩ : FBoneWeightMap))] (1 : Int) = none :=
  ⟨by decide!, by decide!, by decide!⟩

/-- Claim C22 as amended: when the index of the mesh was built by `PreMorphInitialize`,
after any sequence of `SetMorph` / `SetMorphs` calls on a clean instance every bone that
has an accumulator entry either has an entry in the cached index of the mesh, or is mapped
to only by influence slots of weight zero, and then its total weight and total
displacement are zero. -/
theorem accumulator_bone_indexed_or_empty (Cache : BoneWeightMapCache)
    (Component : USkeletalMeshComponent) (Calls : List MorphCall)
    (Index : TMap Int FBoneWeightMap) (Bone : Int) (BoneData : ℚ × FVector3f)
    (hvalid : Component.GetSkeletalMeshAsset.IsValidLowLevelFast = true)
    (hnew : Cache.Contains Component.GetSkeletalMeshAsset.Id = false)
    (hcache : (PreMorphInitialize Cache Component).Find Component.GetSkeletalMeshAsset.Id =
      some Index)
    (hacc : (RunCalls UMorphToSkeletonComponent.Clean Component
      Calls).CachedTotalTranslations.Find Bone = some BoneData) :
    (∃ WeightMap, Index.Find Bone = some WeightMap) ∨
    (BoneData = (0, 0) ∧
      ∀ Section ∈ Component.GetSkeletalMeshAsset.LODRenderData.RenderSections,
        ∀ VertexIndex, Section.InRange VertexIndex = true →
          ∀ Weight, (Bone, Weight) ∈
            Influences Component.GetSkeletalMeshAsset.LODRenderData.SkinWeightVertexBuffer
              Section VertexIndex →
          Weight = 0) := by
  have hIndex : Index = BuildBoneMapVertexWeights Component.GetSkeletalMeshAsset.LODRenderData := by
    rw [Find_PreMorphInitialize _ _ hvalid hnew] at hcache
    exact (Option.some.inj hcache).symm
  subst hIndex
  cases hfind : (BuildBoneMapVertexWeights
      Component.GetSkeletalMeshAsset.LODRenderData).Find Bone with
  | some WeightMap => exact Or.inl ⟨WeightMap, rfl⟩
  | none =>
    right
    constructor
    · have hzero : WeightOf (RunCalls UMorphToSkeletonComponent.Clean Component
          Calls).CachedTotalTranslations Bone = 0 ∧
          DisplacementOf (RunCalls UMorphToSkeletonComponent.Clean Component
            Calls).CachedTotalTranslations Bone = 0 := by
        rw [RunCalls_eq_foldl]
        exact foldl_invariant
          (fun s : UMorphToSkeletonComponent =>
            WeightOf s.CachedTotalTranslations Bone = 0 ∧
            DisplacementOf s.CachedTotalTranslations Bone = 0) _ _ _ ⟨rfl, rfl⟩
          (fun s p _ hs => Totals_SetMorph_not_indexed s Component p.1 p.2 Bone hfind hs)
      have hdata : BoneData = TotalsOf (RunCalls UMorphToSkeletonComponent.Clean Component
          Calls).CachedTotalTranslations Bone := by
        unfold TotalsOf
        rw [hacc]
        rfl
      rw [hdata, TotalsOf_eq, hzero.1, hzero.2]
    · intro Section hS v hv w hmem
      exact Influences_zero_of_not_indexed _ Bone hfind Section hS v hv w hmem

/-- Witness of claim C22 as amended on `ZeroSlotComponent` after `SetMorph("Move", 1)`:
the accumulator bone 1 has no index entry, so it is of the second kind, with zero totals. -/
theorem accumulator_bone_indexed_or_empty_witness :
    ZeroSlotComponent.GetSkeletalMeshAsset.IsValidLowLevelFast = true ∧
    TMap.Contains ([] : BoneWeightMapCache) ZeroSlotComponent.GetSkeletalMeshAsset.Id = false ∧
    ((∃ WeightMap, TMap.Find [(0, (⟨[(0, 1), (1, 1)]⟩ : FBoneWeightMap))] (1 : Int) =
        some WeightMap) ∨
    (((0, (0, 0, 0)) : ℚ × FVector3f) = (0, 0) ∧
      ∀ Section ∈ ZeroSlotComponent.GetSkeletalMeshAsset.LODRenderData.RenderSections,
        ∀ VertexIndex, Section.InRange VertexIndex = true →
          ∀ Weight, ((1 : Int), Weight) ∈
            Influences ZeroSlotComponent.GetSkeletalMeshAsset.LODRenderData.SkinWeightVertexBuffer
              Section VertexIndex →
          Weight = 0)) :=
  ⟨by decide, by decide,
    accumulator_bone_indexed_or_empty [] ZeroSlotComponent [.SetMorph "Move" 1]
      [(0, ⟨[(0, 1), (1, 1)]⟩)] 1 (0, (0, 0, 0)) (by decide) (by decide) (by decide!)
      (by decide!)⟩

end MTS
